import Mathlib

/-!
# KBKDF (counter mode) and SSKDF (single step) key derivation

A shallow embedding of `crypto/fipsmodule/kdf/kbkdf.c`, `sskdf.c` and `internal.h`.

Conventions of the embedding.

* A byte is a natural number below 256; a byte buffer is a `List Nat`.
* A pointer that the code tests against `NULL` is an `Option`; `none` is `NULL`.
  A `(pointer, length)` argument pair keeps both parts: the bytes a call reads
  are `buf.take len`.  `info` and `salt` are never tested against `NULL` by the
  code, so they are plain lists (a `NULL` pointer with length 0 is `[]`).
* `size_t` is arithmetic modulo `2 ^ W` (`W` is 32 or 64), `uint32_t` modulo
  `2 ^ 32`, `uint64_t` modulo `2 ^ 64`.
* Heap objects are held by value and carry the address they were allocated at.
  Every library call that may fail consults the failure oracle of the `World`
  and is recorded in its trace.
* `abort` terminates the process: outcome `aborted`.  A failing `assert` does the
  same in a build with assertions, which is what `SSKDF` embeds; `SSKDF_NDEBUG`
  is the same function built with `NDEBUG`, where the assertion is compiled out.
* The `for` loops are unrolled with a fuel argument; exhausting it is the
  outcome `out_of_fuel`.
-/

namespace KDF

/-! ## Constants and machine arithmetic -/

/-- Modelled from the spec: the constant `EVP_MAX_MD_SIZE` of `openssl/digest.h`,
the largest supported primitive output size (64 bytes). -/
abbrev EVP_MAX_MD_SIZE : Nat := 64

/-- The largest `uint32_t`. -/
abbrev UINT32_MAX : Nat := 4294967295

/-- The largest `size_t` on a platform whose `size_t` has `W` bits. -/
def SIZE_MAX (W : Nat) : Nat := 2 ^ W - 1

/-- Addition of two `size_t` values. -/
def size_add (W a b : Nat) : Nat := (a + b) % 2 ^ W

/-- Subtraction of two `size_t` values (both below `2 ^ W`). -/
def size_sub (W a b : Nat) : Nat := (a + 2 ^ W - b) % 2 ^ W

/-- The expression `(out_len + h_len - 1) / h_len` of `sskdf.c:221` and `kbkdf.c:33`,
evaluated in `size_t` and stored in the `uint64_t n`. -/
def n_blocks (W out_len h_len : Nat) : Nat :=
  (size_sub W (size_add W out_len h_len) 1 / h_len) % 2 ^ 64

/-- The condition `out_len + h_len < out_len || n > UINT32_MAX` of `sskdf.c:223`
and `kbkdf.c:35`. -/
def length_check_fails (W out_len h_len : Nat) : Bool :=
  decide (size_add W out_len h_len < out_len) || decide (n_blocks W out_len h_len > UINT32_MAX)

/-- The overflow guard of `sskdf.c:228-229`. -/
def input_overflow_guard (W secret_len info_len : Nat) : Bool :=
  decide (4 > size_sub W (SIZE_MAX W) secret_len) ||
  decide (secret_len > size_sub W (SIZE_MAX W) 4) ||
  decide (info_len > size_sub W (size_sub W (SIZE_MAX W) 4) secret_len)

/-- The cap `4 + secret_len + info_len > UINT32_MAX` of `sskdf.c:237`. -/
def input_cap_exceeded (W secret_len info_len : Nat) : Bool :=
  decide (size_add W (size_add W 4 secret_len) info_len > UINT32_MAX)

/-- The input-length check of the SSKDF engine: `sskdf.c:228-239` as a whole. -/
def input_check_fails (W secret_len info_len : Nat) : Bool :=
  input_overflow_guard W secret_len info_len || input_cap_exceeded W secret_len info_len

/-- Modelled from the spec: `CRYPTO_store_u32_be` of `crypto/internal.h`, the
big-endian 32-bit integer encoder. -/
def CRYPTO_store_u32_be (v : Nat) : List Nat :=
  [v / 16777216 % 256, v / 65536 % 256, v / 256 % 256, v % 256]

/-- Modelled from the spec: `OPENSSL_memcpy(dst + off, src, n)`, the byte copy.
The result is C's when `off + n ≤ dst.length` and `n ≤ src.length`. -/
def OPENSSL_memcpy (dst : List Nat) (off : Nat) (src : List Nat) (n : Nat) : List Nat :=
  dst.take off ++ src.take n ++ dst.drop (off + n)

/-- A primitive writes its result `block` at the start of the buffer `out`. -/
def write_block (out block : List Nat) : List Nat :=
  block ++ out.drop block.length

/-! ## The digest algorithm, the world, the primitive objects -/

/-- Modelled from the spec: the digest-primitive selector `EVP_MD` of
`openssl/digest.h`: the output size, the one-way hash and the keyed hash built
on it; both produce exactly `md_size` bytes, at most `EVP_MAX_MD_SIZE`. -/
structure EVP_MD where
  md_size : Nat
  hash : List Nat → List Nat
  hmac : List Nat → List Nat → List Nat
  md_size_le : md_size ≤ EVP_MAX_MD_SIZE
  hash_length : ∀ m, (hash m).length = md_size
  hmac_length : ∀ k m, (hmac k m).length = md_size

/-- One recorded library call. -/
inductive Event where
  | alloc (p : Option Nat)
  | free (p : Nat)
  | EVP_MD_CTX_reset (p : Nat)
  | EVP_DigestInit_ex (p : Nat)
  | EVP_DigestUpdate (p : Nat) (data : List Nat)
  | EVP_DigestFinal (p : Nat)
  | HMAC_Init_ex (p : Nat) (key : Option (List Nat)) (md_given : Bool)
  | HMAC_Update (p : Nat) (data : List Nat)
  | HMAC_Final (p : Nat)
  | memcpy (off : Nat) (bytes : List Nat)
  deriving DecidableEq, Repr

/-- The environment of a call: `fail k` tells whether the `k`-th fallible library
call fails, `tick` counts the fallible calls made, `trace` records every library
call in order, `next` is the next fresh heap address, `live` the allocated
addresses, `stack` the bytes found in uninitialised automatic storage. -/
structure World where
  fail : Nat → Bool
  tick : Nat
  trace : List Event
  next : Nat
  live : List Nat
  stack : Nat → Nat

/-- A fallible library call: record it, consume one oracle answer. -/
def World.call (w : World) (e : Event) : Bool × World :=
  (!w.fail w.tick, { w with tick := w.tick + 1, trace := w.trace ++ [e] })

/-- An infallible library call: record it. -/
def World.log (w : World) (e : Event) : World :=
  { w with trace := w.trace ++ [e] }

/-- Allocation of a heap object: `NULL` when the oracle says so, a fresh address
otherwise. -/
def World.malloc (w : World) : Option Nat × World :=
  if w.fail w.tick then
    (none, { w with tick := w.tick + 1, trace := w.trace ++ [Event.alloc none] })
  else
    (some w.next, { w with tick := w.tick + 1, trace := w.trace ++ [Event.alloc (some w.next)],
                           next := w.next + 1, live := w.next :: w.live })

/-- Release of a heap object; releasing `NULL` does nothing. -/
def World.release (w : World) (p : Option Nat) : World :=
  match p with
  | none => w
  | some a => { w with trace := w.trace ++ [Event.free a], live := w.live.erase a }

/-- The contents of an uninitialised automatic array of `n` bytes. -/
def World.uninit (w : World) (n : Nat) : List Nat :=
  (List.range n).map w.stack

/-- Modelled from the spec: the one-way hash computation object `EVP_MD_CTX`
(create/reset, init-with-algorithm, update, finalize): the algorithm it was
initialised with and the bytes absorbed since. -/
structure EVP_MD_CTX where
  addr : Nat
  digest : Option EVP_MD
  data : List Nat

/-- Modelled from the spec: the keyed-hash computation object `HMAC_CTX`
(create, init(key, algorithm), re-init(reuse key), update, finalize): the
algorithm, the key and the bytes absorbed since the last (re-)init. -/
structure HMAC_CTX where
  addr : Nat
  md : Option EVP_MD
  key : List Nat
  data : List Nat

/-- Modelled from the spec: `EVP_MD_CTX_new`. -/
def EVP_MD_CTX_new (w : World) : Option EVP_MD_CTX × World :=
  match w.malloc with
  | (none, w1) => (none, w1)
  | (some a, w1) => (some { addr := a, digest := none, data := [] }, w1)

/-- Modelled from the spec: `EVP_MD_CTX_free`; freeing `NULL` does nothing. -/
def EVP_MD_CTX_free (c : Option EVP_MD_CTX) (w : World) : World :=
  w.release (c.map (fun x => x.addr))

/-- Modelled from the spec: `EVP_MD_CTX_reset`, back to the freshly created state. -/
def EVP_MD_CTX_reset (c : EVP_MD_CTX) (w : World) : Bool × EVP_MD_CTX × World :=
  match w.call (Event.EVP_MD_CTX_reset c.addr) with
  | (false, w1) => (false, c, w1)
  | (true, w1) => (true, { c with digest := none, data := [] }, w1)

/-- Modelled from the spec: `EVP_DigestInit_ex(ctx, md, NULL)`, init with algorithm. -/
def EVP_DigestInit_ex (c : EVP_MD_CTX) (md : EVP_MD) (w : World) : Bool × EVP_MD_CTX × World :=
  match w.call (Event.EVP_DigestInit_ex c.addr) with
  | (false, w1) => (false, c, w1)
  | (true, w1) => (true, { c with digest := some md, data := [] }, w1)

/-- Modelled from the spec: `EVP_DigestUpdate(ctx, data, len)`, absorb bytes. -/
def EVP_DigestUpdate (c : EVP_MD_CTX) (data : List Nat) (len : Nat) (w : World) :
    Bool × EVP_MD_CTX × World :=
  match w.call (Event.EVP_DigestUpdate c.addr (data.take len)) with
  | (false, w1) => (false, c, w1)
  | (true, w1) =>
    match c.digest with
    | none => (false, c, w1)
    | some _ => (true, { c with data := c.data ++ data.take len }, w1)

/-- Modelled from the spec: `EVP_DigestFinal(ctx, out, NULL)`, finalize: the hash
of the absorbed bytes is written to `out`, the object is cleaned. -/
def EVP_DigestFinal (c : EVP_MD_CTX) (out : List Nat) (w : World) :
    Bool × EVP_MD_CTX × List Nat × World :=
  match w.call (Event.EVP_DigestFinal c.addr) with
  | (false, w1) => (false, c, out, w1)
  | (true, w1) =>
    match c.digest with
    | none => (false, c, out, w1)
    | some md => (true, { c with digest := none, data := [] }, write_block out (md.hash c.data), w1)

/-- Modelled from the spec: `EVP_MD_size`, the output-size query. -/
def EVP_MD_size (md : EVP_MD) : Nat := md.md_size

/-- Modelled from the spec: `HMAC_CTX_new`. -/
def HMAC_CTX_new (w : World) : Option HMAC_CTX × World :=
  match w.malloc with
  | (none, w1) => (none, w1)
  | (some a, w1) => (some { addr := a, md := none, key := [], data := [] }, w1)

/-- Modelled from the spec: `HMAC_CTX_free`; freeing `NULL` does nothing. -/
def HMAC_CTX_free (c : Option HMAC_CTX) (w : World) : World :=
  w.release (c.map (fun x => x.addr))

/-- Modelled from the spec: `HMAC_Init_ex(ctx, key, key_len, md, NULL)`.  With a
key it is init(key, algorithm); with `key = NULL` it is the re-init that reuses
the existing key.  A `NULL` algorithm keeps the one already set; the call fails
when no algorithm is known. -/
def HMAC_Init_ex (c : HMAC_CTX) (key : Option (List Nat)) (key_len : Nat) (md : Option EVP_MD)
    (w : World) : Bool × HMAC_CTX × World :=
  match w.call (Event.HMAC_Init_ex c.addr (key.map (fun k => k.take key_len)) md.isSome) with
  | (false, w1) => (false, c, w1)
  | (true, w1) =>
    match (match md with | some m => some m | none => c.md) with
    | none => (false, c, w1)
    | some m =>
      (true, { c with md := some m,
                      key := (match key with | some k => k.take key_len | none => c.key),
                      data := [] }, w1)

/-- Modelled from the spec: `HMAC_Update(ctx, data, len)`, absorb bytes. -/
def HMAC_Update (c : HMAC_CTX) (data : List Nat) (len : Nat) (w : World) :
    Bool × HMAC_CTX × World :=
  match w.call (Event.HMAC_Update c.addr (data.take len)) with
  | (false, w1) => (false, c, w1)
  | (true, w1) =>
    match c.md with
    | none => (false, c, w1)
    | some _ => (true, { c with data := c.data ++ data.take len }, w1)

/-- Modelled from the spec: `HMAC_Final(ctx, out, NULL)`, finalize: the keyed hash
of the absorbed bytes under the stored key is written to `out`. -/
def HMAC_Final (c : HMAC_CTX) (out : List Nat) (w : World) :
    Bool × HMAC_CTX × List Nat × World :=
  match w.call (Event.HMAC_Final c.addr) with
  | (false, w1) => (false, c, out, w1)
  | (true, w1) =>
    match c.md with
    | none => (false, c, out, w1)
    | some m => (true, { c with data := [] }, write_block out (m.hmac c.key c.data), w1)

/-- Modelled from the spec: `HMAC_size`, the output-size query. -/
def HMAC_size (c : HMAC_CTX) : Nat :=
  match c.md with
  | none => 0
  | some m => EVP_MD_size m

/-! ## `internal.h`: the variant interface -/

/-- The context `SSKDF_VARIANT_CTX` of `internal.h`; `data` is the `void *`
pointing at the variant's own record, of type `α`. -/
structure SSKDF_VARIANT_CTX (α : Type) where
  data : Option α

/-- The record `SSKDF_VARIANT_DIGEST_CTX` of `internal.h`, at heap address `addr`. -/
structure SSKDF_VARIANT_DIGEST_CTX where
  addr : Nat
  digest : Option EVP_MD
  ctx : Option EVP_MD_CTX

/-- The record `SSKDF_VARIANT_HMAC_CTX` of `internal.h`, at heap address `addr`. -/
structure SSKDF_VARIANT_HMAC_CTX where
  addr : Nat
  ctx : Option HMAC_CTX

/-- The outcome of a call: it returned `r`, the process was terminated
(`abort`, a failed `assert`), or the unrolling of a loop ran out of fuel. -/
inductive Outcome where
  | ret (r : Nat)
  | aborted
  | out_of_fuel
  deriving DecidableEq, Repr

/-- What `compute` hands back: the `int` result, the context, the `out` buffer
and the world after the call. -/
abbrev ComputeResult (α : Type) : Type :=
  Nat × Option (SSKDF_VARIANT_CTX α) × Option (List Nat) × World

/-- The function table `SSKDF_VARIANT` of `internal.h`: `size(ctx)` and
`compute(ctx, out, out_len, counter, secret, secret_len, info, info_len)`. -/
structure SSKDF_VARIANT (α : Type) where
  size : Option (SSKDF_VARIANT_CTX α) → Nat
  compute : Option (SSKDF_VARIANT_CTX α) → Option (List Nat) → Nat → Option (List Nat) →
    Option (List Nat) → Nat → List Nat → Nat → World → ComputeResult α

/-! ## `sskdf.c` -/

/-- The function `SSKDF_VARIANT_DIGEST_CTX_init` of `sskdf.c:12-45`. -/
def SSKDF_VARIANT_DIGEST_CTX_init (ctx : Option (SSKDF_VARIANT_CTX SSKDF_VARIANT_DIGEST_CTX))
    (digest : Option EVP_MD) (w : World) :
    Nat × Option (SSKDF_VARIANT_CTX SSKDF_VARIANT_DIGEST_CTX) × World :=
  match ctx, digest with
  | some _, some md =>
    match w.malloc with
    | (none, w1) => (0, ctx, (EVP_MD_CTX_free none w1).release none)
    | (some variant_ctx, w1) =>
      match EVP_MD_CTX_new w1 with
      | (none, w2) => (0, ctx, (EVP_MD_CTX_free none w2).release (some variant_ctx))
      | (some md_ctx, w2) =>
        (1, some { data := some { addr := variant_ctx, digest := some md, ctx := some md_ctx } }, w2)
  | _, _ => (0, ctx, (EVP_MD_CTX_free none w).release none)

/-- The function `SSKDF_VARIANT_DIGEST_CTX_cleanup` of `sskdf.c:49-60`. -/
def SSKDF_VARIANT_DIGEST_CTX_cleanup (ctx : Option (SSKDF_VARIANT_CTX SSKDF_VARIANT_DIGEST_CTX))
    (w : World) : Option (SSKDF_VARIANT_CTX SSKDF_VARIANT_DIGEST_CTX) × World :=
  match ctx with
  | none => (ctx, w)
  | some c =>
    match c.data with
    | none => (ctx, w)
    | some variant_ctx =>
      (some { data := none }, (EVP_MD_CTX_free variant_ctx.ctx w).release (some variant_ctx.addr))

/-- The function `SSKDF_VARIANT_HMAC_CTX_init` of `sskdf.c:62-99`. -/
def SSKDF_VARIANT_HMAC_CTX_init (ctx : Option (SSKDF_VARIANT_CTX SSKDF_VARIANT_HMAC_CTX))
    (digest : Option EVP_MD) (salt : List Nat) (salt_len : Nat) (w : World) :
    Nat × Option (SSKDF_VARIANT_CTX SSKDF_VARIANT_HMAC_CTX) × World :=
  match ctx, digest with
  | some _, some md =>
    match w.malloc with
    | (none, w1) => (0, ctx, (HMAC_CTX_free none w1).release none)
    | (some variant_ctx, w1) =>
      match HMAC_CTX_new w1 with
      | (none, w2) => (0, ctx, (HMAC_CTX_free none w2).release (some variant_ctx))
      | (some hmac_ctx, w2) =>
        match HMAC_Init_ex hmac_ctx (some salt) salt_len (some md) w2 with
        | (false, hmac_ctx1, w3) =>
          (0, ctx, (HMAC_CTX_free (some hmac_ctx1) w3).release (some variant_ctx))
        | (true, hmac_ctx1, w3) =>
          (1, some { data := some { addr := variant_ctx, ctx := some hmac_ctx1 } }, w3)
  | _, _ => (0, ctx, (HMAC_CTX_free none w).release none)

/-- The function `SSKDF_VARIANT_HMAC_CTX_cleanup` of `sskdf.c:103-114`. -/
def SSKDF_VARIANT_HMAC_CTX_cleanup (ctx : Option (SSKDF_VARIANT_CTX SSKDF_VARIANT_HMAC_CTX))
    (w : World) : Option (SSKDF_VARIANT_CTX SSKDF_VARIANT_HMAC_CTX) × World :=
  match ctx with
  | none => (ctx, w)
  | some c =>
    match c.data with
    | none => (ctx, w)
    | some hmac_ctx =>
      (some { data := none }, (HMAC_CTX_free hmac_ctx.ctx w).release (some hmac_ctx.addr))

/-- The function `sskdf_variant_digest_size` of `sskdf.c:116-122`. -/
def sskdf_variant_digest_size (ctx : Option (SSKDF_VARIANT_CTX SSKDF_VARIANT_DIGEST_CTX)) : Nat :=
  match ctx with
  | none => 0
  | some c =>
    match c.data with
    | none => 0
    | some variant_ctx =>
      match variant_ctx.digest with
      | none => 0
      | some md => EVP_MD_size md

/-- Store the hash object back into the digest variant's record. -/
def digest_ctx_with (variant_ctx : SSKDF_VARIANT_DIGEST_CTX) (md_ctx : EVP_MD_CTX) :
    Option (SSKDF_VARIANT_CTX SSKDF_VARIANT_DIGEST_CTX) :=
  some { data := some { variant_ctx with ctx := some md_ctx } }

/-- The function `sskdf_variant_digest_compute` of `sskdf.c:124-150`. -/
def sskdf_variant_digest_compute (ctx : Option (SSKDF_VARIANT_CTX SSKDF_VARIANT_DIGEST_CTX))
    (out : Option (List Nat)) (out_len : Nat) (counter : Option (List Nat))
    (secret : Option (List Nat)) (secret_len : Nat) (info : List Nat) (info_len : Nat)
    (w : World) : ComputeResult SSKDF_VARIANT_DIGEST_CTX :=
  match ctx, out, counter, secret with
  | some c, some o, some ctr, some sec =>
    match c.data with
    | none => (0, ctx, out, w)
    | some variant_ctx =>
      match variant_ctx.ctx, variant_ctx.digest with
      | some md_ctx, some digest =>
        match EVP_MD_CTX_reset md_ctx w with
        | (false, m1, w1) => (0, digest_ctx_with variant_ctx m1, out, w1)
        | (true, m1, w1) =>
        match EVP_DigestInit_ex m1 digest w1 with
        | (false, m2, w2) => (0, digest_ctx_with variant_ctx m2, out, w2)
        | (true, m2, w2) =>
        match EVP_DigestUpdate m2 ctr 4 w2 with
        | (false, m3, w3) => (0, digest_ctx_with variant_ctx m3, out, w3)
        | (true, m3, w3) =>
        match EVP_DigestUpdate m3 sec secret_len w3 with
        | (false, m4, w4) => (0, digest_ctx_with variant_ctx m4, out, w4)
        | (true, m4, w4) =>
        match EVP_DigestUpdate m4 info info_len w4 with
        | (false, m5, w5) => (0, digest_ctx_with variant_ctx m5, out, w5)
        | (true, m5, w5) =>
        match EVP_DigestFinal m5 o w5 with
        | (false, m6, o6, w6) => (0, digest_ctx_with variant_ctx m6, some o6, w6)
        | (true, m6, o6, w6) => (1, digest_ctx_with variant_ctx m6, some o6, w6)
      | _, _ => (0, ctx, out, w)
  | _, _, _, _ => (0, ctx, out, w)

/-- The function `sskdf_variant_hmac_size` of `sskdf.c:152-161`. -/
def sskdf_variant_hmac_size (ctx : Option (SSKDF_VARIANT_CTX SSKDF_VARIANT_HMAC_CTX)) : Nat :=
  match ctx with
  | none => 0
  | some c =>
    match c.data with
    | none => 0
    | some variant_ctx =>
      match variant_ctx.ctx with
      | none => 0
      | some hmac_ctx => HMAC_size hmac_ctx

/-- Store the keyed-hash object back into the keyed-hash variant's record. -/
def hmac_ctx_with (variant_ctx : SSKDF_VARIANT_HMAC_CTX) (hmac_ctx : HMAC_CTX) :
    Option (SSKDF_VARIANT_CTX SSKDF_VARIANT_HMAC_CTX) :=
  some { data := some { variant_ctx with ctx := some hmac_ctx } }

/-- The function `sskdf_variant_hmac_compute` of `sskdf.c:163-186`. -/
def sskdf_variant_hmac_compute (ctx : Option (SSKDF_VARIANT_CTX SSKDF_VARIANT_HMAC_CTX))
    (out : Option (List Nat)) (out_len : Nat) (counter : Option (List Nat))
    (secret : Option (List Nat)) (secret_len : Nat) (info : List Nat) (info_len : Nat)
    (w : World) : ComputeResult SSKDF_VARIANT_HMAC_CTX :=
  match ctx, out, counter, secret with
  | some c, some o, some ctr, some sec =>
    match c.data with
    | none => (0, ctx, out, w)
    | some variant_ctx =>
      match variant_ctx.ctx with
      | none => (0, ctx, out, w)
      | some hmac_ctx =>
        match HMAC_Init_ex hmac_ctx none 0 none w with
        | (false, m1, w1) => (0, hmac_ctx_with variant_ctx m1, out, w1)
        | (true, m1, w1) =>
        match HMAC_Update m1 ctr 4 w1 with
        | (false, m2, w2) => (0, hmac_ctx_with variant_ctx m2, out, w2)
        | (true, m2, w2) =>
        match HMAC_Update m2 sec secret_len w2 with
        | (false, m3, w3) => (0, hmac_ctx_with variant_ctx m3, out, w3)
        | (true, m3, w3) =>
        match HMAC_Update m3 info info_len w3 with
        | (false, m4, w4) => (0, hmac_ctx_with variant_ctx m4, out, w4)
        | (true, m4, w4) =>
        match HMAC_Final m4 o w4 with
        | (false, m5, o5, w5) => (0, hmac_ctx_with variant_ctx m5, some o5, w5)
        | (true, m5, o5, w5) => (1, hmac_ctx_with variant_ctx m5, some o5, w5)
  | _, _, _, _ => (0, ctx, out, w)

/-- The method table `SSKDF_VARIANT_DIGEST` of `sskdf.c:189-193`. -/
def SSKDF_VARIANT_DIGEST : SSKDF_VARIANT SSKDF_VARIANT_DIGEST_CTX :=
  { size := sskdf_variant_digest_size, compute := sskdf_variant_digest_compute }

/-- The method table `SSKDF_VARIANT_HMAC` of `sskdf.c:196-200`. -/
def SSKDF_VARIANT_HMAC : SSKDF_VARIANT SSKDF_VARIANT_HMAC_CTX :=
  { size := sskdf_variant_hmac_size, compute := sskdf_variant_hmac_compute }

/-- What the engine hands back: the outcome, the context, the caller's
`out_key` buffer and the world after the call. -/
abbrev EngineResult (α : Type) : Type :=
  Outcome × Option (SSKDF_VARIANT_CTX α) × List Nat × World

/-- The `for` loop of `SSKDF`, `sskdf.c:247-264`, entered with loop variable `i`,
offset `done` and scratch block `previous`. -/
def SSKDF_loop {α : Type} (W : Nat) (variant : SSKDF_VARIANT α) (out_len h_len n : Nat)
    (secret : Option (List Nat)) (secret_len : Nat) (info : List Nat) (info_len : Nat) :
    Nat → Nat → Nat → List Nat → Option (SSKDF_VARIANT_CTX α) → List Nat → World →
    EngineResult α
  | 0, i, _, _, ctx, out_key, w =>
    if i < n then (Outcome.out_of_fuel, ctx, out_key, w) else (Outcome.ret 1, ctx, out_key, w)
  | fuel + 1, i, done, previous, ctx, out_key, w =>
    if i < n then
      match variant.compute ctx (some previous) h_len
          (some (CRYPTO_store_u32_be ((i + 1) % 2 ^ 32))) secret secret_len info info_len w with
      | (r, ctx1, out1, w1) =>
        if r = 0 then (Outcome.ret 0, ctx1, out_key, w1)
        else
          let previous1 := out1.getD previous
          let todo := if h_len > size_sub W out_len done then size_sub W out_len done else h_len
          SSKDF_loop W variant out_len h_len n secret secret_len info info_len fuel
            ((i + 1) % 2 ^ 32) (size_add W done todo) previous1 ctx1
            (OPENSSL_memcpy out_key done previous1 todo)
            (w1.log (Event.memcpy done (previous1.take todo)))
    else (Outcome.ret 1, ctx, out_key, w)

/-- The function `SSKDF` of `sskdf.c:202-270`, the SSKDF engine, built with
assertions: a failing `assert(h_len <= EVP_MAX_MD_SIZE)` terminates the call. -/
def SSKDF {α : Type} (W : Nat) (variant : SSKDF_VARIANT α) (ctx : Option (SSKDF_VARIANT_CTX α))
    (out_key : Option (List Nat)) (out_len : Nat) (secret : Option (List Nat))
    (secret_len : Nat) (info : List Nat) (info_len : Nat) (w : World) :
    Outcome × Option (SSKDF_VARIANT_CTX α) × Option (List Nat) × World :=
  match ctx with
  | none => (Outcome.aborted, ctx, out_key, w)
  | some _ =>
    match out_key, secret with
    | some buf, some _ =>
      if out_len = 0 ∨ secret_len = 0 then (Outcome.ret 0, ctx, out_key, w)
      else
        let h_len := variant.size ctx
        if h_len = 0 then (Outcome.ret 0, ctx, out_key, w)
        else if ¬ h_len ≤ EVP_MAX_MD_SIZE then (Outcome.aborted, ctx, out_key, w)
        else
          let n := n_blocks W out_len h_len
          if length_check_fails W out_len h_len then (Outcome.ret 0, ctx, out_key, w)
          else if input_overflow_guard W secret_len info_len then (Outcome.ret 0, ctx, out_key, w)
          else if input_cap_exceeded W secret_len info_len then (Outcome.ret 0, ctx, out_key, w)
          else
            match SSKDF_loop W variant out_len h_len n secret secret_len info info_len n
                0 0 (w.uninit EVP_MAX_MD_SIZE) ctx buf w with
            | (o, ctx1, buf1, w1) => (o, ctx1, some buf1, w1)
    | _, _ => (Outcome.ret 0, ctx, out_key, w)

/-- The entry point `SSKDF_DIGEST` of `sskdf.c:272-292`. -/
def SSKDF_DIGEST (W : Nat) (out_key : Option (List Nat)) (out_len : Nat) (digest : Option EVP_MD)
    (secret : Option (List Nat)) (secret_len : Nat) (info : List Nat) (info_len : Nat)
    (w : World) : Outcome × Option (List Nat) × World :=
  match SSKDF_VARIANT_DIGEST_CTX_init (some { data := none }) digest w with
  | (0, _, w1) => (Outcome.ret 0, out_key, w1)
  | (_, ctx1, w1) =>
    match SSKDF W SSKDF_VARIANT_DIGEST ctx1 out_key out_len secret secret_len info info_len w1 with
    | (Outcome.ret r, ctx2, out2, w2) =>
      (Outcome.ret (if r = 0 then 0 else 1), out2, (SSKDF_VARIANT_DIGEST_CTX_cleanup ctx2 w2).2)
    | (o, _, out2, w2) => (o, out2, w2)

/-- The entry point `SSKDF_HMAC` of `sskdf.c:294-314`. -/
def SSKDF_HMAC (W : Nat) (out_key : Option (List Nat)) (out_len : Nat) (digest : Option EVP_MD)
    (secret : Option (List Nat)) (secret_len : Nat) (info : List Nat) (info_len : Nat)
    (salt : List Nat) (salt_len : Nat) (w : World) : Outcome × Option (List Nat) × World :=
  match SSKDF_VARIANT_HMAC_CTX_init (some { data := none }) digest salt salt_len w with
  | (0, _, w1) => (Outcome.ret 0, out_key, w1)
  | (_, ctx1, w1) =>
    match SSKDF W SSKDF_VARIANT_HMAC ctx1 out_key out_len secret secret_len info info_len w1 with
    | (Outcome.ret r, ctx2, out2, w2) =>
      (Outcome.ret (if r = 0 then 0 else 1), out2, (SSKDF_VARIANT_HMAC_CTX_cleanup ctx2 w2).2)
    | (o, _, out2, w2) => (o, out2, w2)

/-! ## `kbkdf.c` -/

/-- What the KBKDF loop hands back: the outcome, the keyed-hash object, the
caller's `out_key` buffer and the world. -/
abbrev KbkdfResult : Type := Outcome × HMAC_CTX × List Nat × World

/-- The `for` loop of `KBKDF_CTR`, `kbkdf.c:43-62`, entered with loop variable
`i`, offset `done` and scratch block `previous`. -/
def KBKDF_loop (W : Nat) (out_len h_len n : Nat) (info : List Nat) (info_len : Nat) :
    Nat → Nat → Nat → List Nat → HMAC_CTX → List Nat → World → KbkdfResult
  | 0, i, _, _, hmac_ctx, out_key, w =>
    if i < n then (Outcome.out_of_fuel, hmac_ctx, out_key, w)
    else (Outcome.ret 1, hmac_ctx, out_key, w)
  | fuel + 1, i, done, previous, hmac_ctx, out_key, w =>
    if i < n then
      match HMAC_Init_ex hmac_ctx none 0 none w with
      | (false, m1, w1) => (Outcome.ret 0, m1, out_key, w1)
      | (true, m1, w1) =>
      match HMAC_Update m1 (CRYPTO_store_u32_be ((i + 1) % 2 ^ 32)) 4 w1 with
      | (false, m2, w2) => (Outcome.ret 0, m2, out_key, w2)
      | (true, m2, w2) =>
      match HMAC_Update m2 info info_len w2 with
      | (false, m3, w3) => (Outcome.ret 0, m3, out_key, w3)
      | (true, m3, w3) =>
      match HMAC_Final m3 previous w3 with
      | (false, m4, _, w4) => (Outcome.ret 0, m4, out_key, w4)
      | (true, m4, previous1, w4) =>
        let todo := if h_len > size_sub W out_len done then size_sub W out_len done else h_len
        KBKDF_loop W out_len h_len n info info_len fuel
          ((i + 1) % 2 ^ 32) (size_add W done todo) previous1 m4
          (OPENSSL_memcpy out_key done previous1 todo)
          (w4.log (Event.memcpy done (previous1.take todo)))
    else (Outcome.ret 1, hmac_ctx, out_key, w)

/-- The entry point `KBKDF_CTR` of `kbkdf.c:7-69`. -/
def KBKDF_CTR (W : Nat) (out_key : Option (List Nat)) (out_len : Nat) (digest : Option EVP_MD)
    (secret : Option (List Nat)) (secret_len : Nat) (info : List Nat) (info_len : Nat)
    (w : World) : Outcome × Option (List Nat) × World :=
  match out_key, secret with
  | some buf, some sec =>
    if out_len = 0 ∨ secret_len = 0 then (Outcome.ret 0, out_key, HMAC_CTX_free none w)
    else
      match HMAC_CTX_new w with
      | (none, w1) => (Outcome.ret 0, out_key, HMAC_CTX_free none w1)
      | (some hmac_ctx, w1) =>
        match HMAC_Init_ex hmac_ctx (some sec) secret_len digest w1 with
        | (false, m1, w2) => (Outcome.ret 0, out_key, HMAC_CTX_free (some m1) w2)
        | (true, m1, w2) =>
          let h_len := HMAC_size m1
          if h_len = 0 then (Outcome.ret 0, out_key, HMAC_CTX_free (some m1) w2)
          else
            let n := n_blocks W out_len h_len
            if length_check_fails W out_len h_len then
              (Outcome.ret 0, out_key, HMAC_CTX_free (some m1) w2)
            else
              match KBKDF_loop W out_len h_len n info info_len n 0 0
                  (w2.uninit EVP_MAX_MD_SIZE) m1 buf w2 with
              | (Outcome.ret r, m2, buf1, w3) =>
                (Outcome.ret r, some buf1, HMAC_CTX_free (some m2) w3)
              | (o, _, buf1, w3) => (o, some buf1, w3)
  | _, _ => (Outcome.ret 0, out_key, HMAC_CTX_free none w)

/-! ## Reference definitions used by the statements -/

/-- Spec side: the key stream `block(1) ‖ block(2) ‖ ... ‖ block(n)`, where
`block i` is the result of the block primitive for counter value `i`. -/
def key_stream (block : Nat → List Nat) : Nat → List Nat
  | 0 => []
  | n + 1 => key_stream block n ++ block (n + 1)

/-- Spec side: `block(i+1) ‖ ... ‖ block(i+k)`, the part of the key stream that
the iterations `i, ..., i+k-1` of a loop produce. -/
def blocks_from (block : Nat → List Nat) : Nat → Nat → List Nat
  | _, 0 => []
  | i, k + 1 => block (i + 1) ++ blocks_from block (i + 1) k

/-- Spec side: the block of the digest variant for counter value `i`,
`Hash(BE32(i) ‖ secret ‖ info)`. -/
def digest_block (md : EVP_MD) (secret info : List Nat) (i : Nat) : List Nat :=
  md.hash (CRYPTO_store_u32_be i ++ secret ++ info)

/-- Spec side: the block of the keyed-hash variant for counter value `i`,
`KeyedHash(key = salt, BE32(i) ‖ secret ‖ info)`. -/
def hmac_block (md : EVP_MD) (salt secret info : List Nat) (i : Nat) : List Nat :=
  md.hmac salt (CRYPTO_store_u32_be i ++ secret ++ info)

/-- Spec side: the block of KBKDF for counter value `i`,
`KeyedHash(key = secret, BE32(i) ‖ info)`. -/
def kbkdf_block (md : EVP_MD) (secret info : List Nat) (i : Nat) : List Nat :=
  md.hmac secret (CRYPTO_store_u32_be i ++ info)

/-- The world after `c` successful fallible calls that recorded `evs`. -/
def World.advance (w : World) (c : Nat) (evs : List Event) : World :=
  { w with tick := w.tick + c, trace := w.trace ++ evs }

/-- The library calls one successful `sskdf_variant_digest_compute` records. -/
def digest_events (a : Nat) (counter secret info : List Nat) : List Event :=
  [Event.EVP_MD_CTX_reset a, Event.EVP_DigestInit_ex a, Event.EVP_DigestUpdate a counter,
   Event.EVP_DigestUpdate a secret, Event.EVP_DigestUpdate a info, Event.EVP_DigestFinal a]

/-- The library calls one successful `sskdf_variant_hmac_compute` records. -/
def hmac_events (a : Nat) (counter secret info : List Nat) : List Event :=
  [Event.HMAC_Init_ex a none false, Event.HMAC_Update a counter,
   Event.HMAC_Update a secret, Event.HMAC_Update a info, Event.HMAC_Final a]

/-- The library calls one successful block computation of `KBKDF_CTR` records. -/
def kbkdf_events (a : Nat) (counter info : List Nat) : List Event :=
  [Event.HMAC_Init_ex a none false, Event.HMAC_Update a counter,
   Event.HMAC_Update a info, Event.HMAC_Final a]

/-- The calls recorded by the iterations `i, ..., i+k-1` of a block loop: for
each, the calls `evs` of the block computation, then the copy into `out_key`. -/
def loop_events (evs : Nat → List Event) (block : Nat → List Nat) (out_len h_len : Nat) :
    Nat → Nat → List Event
  | _, 0 => []
  | i, k + 1 =>
    evs (i + 1) ++ [Event.memcpy (i * h_len) ((block (i + 1)).take (min h_len (out_len - i * h_len)))]
      ++ loop_events evs block out_len h_len (i + 1) k

/-- The common shape of the two `for` loops (`sskdf.c:247-264`, `kbkdf.c:43-62`),
over an arbitrary block computation `step counter_value state previous world`;
`SSKDF_loop` and `KBKDF_loop` are instances of it. -/
def block_loop {σ : Type} (W : Nat)
    (step : Nat → σ → List Nat → World → Bool × σ × List Nat × World)
    (out_len h_len n : Nat) :
    Nat → Nat → Nat → List Nat → σ → List Nat → World → Outcome × σ × List Nat × World
  | 0, i, _, _, s, out_key, w =>
    if i < n then (Outcome.out_of_fuel, s, out_key, w) else (Outcome.ret 1, s, out_key, w)
  | fuel + 1, i, done, previous, s, out_key, w =>
    if i < n then
      match step ((i + 1) % 2 ^ 32) s previous w with
      | (false, s1, _, w1) => (Outcome.ret 0, s1, out_key, w1)
      | (true, s1, previous1, w1) =>
        let todo := if h_len > size_sub W out_len done then size_sub W out_len done else h_len
        block_loop W step out_len h_len n fuel
          ((i + 1) % 2 ^ 32) (size_add W done todo) previous1 s1
          (OPENSSL_memcpy out_key done previous1 todo)
          (w1.log (Event.memcpy done (previous1.take todo)))
    else (Outcome.ret 1, s, out_key, w)

/-- The block computation of `SSKDF_loop` as a step of `block_loop`. -/
def sskdf_step {α : Type} (variant : SSKDF_VARIANT α) (h_len : Nat)
    (secret : Option (List Nat)) (secret_len : Nat) (info : List Nat) (info_len : Nat)
    (v : Nat) (ctx : Option (SSKDF_VARIANT_CTX α)) (previous : List Nat) (w : World) :
    Bool × Option (SSKDF_VARIANT_CTX α) × List Nat × World :=
  match variant.compute ctx (some previous) h_len (some (CRYPTO_store_u32_be v))
      secret secret_len info info_len w with
  | (r, ctx1, out1, w1) => (decide (r ≠ 0), ctx1, out1.getD previous, w1)

/-- The block computation of `KBKDF_loop` as a step of `block_loop`. -/
def kbkdf_step (info : List Nat) (info_len : Nat)
    (v : Nat) (hmac_ctx : HMAC_CTX) (previous : List Nat) (w : World) :
    Bool × HMAC_CTX × List Nat × World :=
  match HMAC_Init_ex hmac_ctx none 0 none w with
  | (false, m1, w1) => (false, m1, previous, w1)
  | (true, m1, w1) =>
  match HMAC_Update m1 (CRYPTO_store_u32_be v) 4 w1 with
  | (false, m2, w2) => (false, m2, previous, w2)
  | (true, m2, w2) =>
  match HMAC_Update m2 info info_len w2 with
  | (false, m3, w3) => (false, m3, previous, w3)
  | (true, m3, w3) => HMAC_Final m3 previous w3

/-- The contract of a block computation `step` used by the loop lemmas: on
states satisfying `Inv`, a call makes `cost` fallible library calls; if one of
them fails the step fails, otherwise it leaves the state `post`, writes `blk v`
to the scratch block and advances the world by `cost` calls recording `evs v`. -/
structure StepSpec {σ : Type} (step : Nat → σ → List Nat → World → Bool × σ × List Nat × World)
    (Inv : σ → Prop) (post : σ) (cost : Nat) (blk : Nat → List Nat)
    (evs : Nat → List Event) : Prop where
  post_inv : Inv post
  cases : ∀ v s prev w, Inv s →
    ((step v s prev w).1 = false ∧ ∃ k, k < cost ∧ w.fail (w.tick + k) = true) ∨
    ((∀ k, k < cost → w.fail (w.tick + k) = false) ∧
      step v s prev w = (true, post, write_block prev (blk v), w.advance cost (evs v)))

/-- Whether a recorded call belongs to a block computation or writes to
`out_key`: everything except allocation, release and the keyed initialisation of
a keyed-hash object. -/
def Event.block_work : Event → Bool
  | Event.alloc _ => false
  | Event.free _ => false
  | Event.HMAC_Init_ex _ (some _) _ => false
  | _ => true

/-- The arguments of `SSKDF_DIGEST`, `SSKDF_HMAC` or `KBKDF_CTR` that make the
call fail before the block loop: a `NULL` or empty argument, a digest of output
size 0, a failing length check (`with_input_check` tells whether the entry point
performs the input-length check). -/
def early_failure (W : Nat) (with_input_check : Bool) (out_key : Option (List Nat))
    (out_len : Nat) (digest : Option EVP_MD) (secret : Option (List Nat)) (secret_len : Nat)
    (info_len : Nat) : Prop :=
  out_key = none ∨ secret = none ∨ out_len = 0 ∨ secret_len = 0 ∨ digest = none ∨
  ∃ md, digest = some md ∧
    (md.md_size = 0 ∨ length_check_fails W out_len md.md_size = true ∨
      (with_input_check = true ∧ input_check_fails W secret_len info_len = true))

/-- Spec side: `out` holds in its first `out_len` bytes the key stream
`block(1) ‖ ... ‖ block(n)` of `h_len`-byte blocks, `n = ceil(out_len / h_len)`,
with the last block truncated to `out_len - (n - 1) * h_len` bytes. -/
def is_truncated_stream (block : Nat → List Nat) (h_len out_len : Nat) (out : List Nat) : Prop :=
  (∀ i, (block i).length = h_len) ∧
  out.take out_len = (key_stream block ⌈(out_len : ℚ) / (h_len : ℚ)⌉₊).take out_len ∧
  out.take out_len = key_stream block (⌈(out_len : ℚ) / (h_len : ℚ)⌉₊ - 1) ++
    (block ⌈(out_len : ℚ) / (h_len : ℚ)⌉₊).take
      (out_len - (⌈(out_len : ℚ) / (h_len : ℚ)⌉₊ - 1) * h_len)

/-- Spec side: the call with result `r`, started in world `w`, is a single-block
derivation: it succeeds exactly when none of its `calls` library calls fails, and
then it has recorded `pre`, one block computation `evs`, one copy of the first
`out_len` bytes of `block` to offset 0 of `out_key`, and `post`; `out_key` holds
those bytes (all of `block` when `out_len = h_len`) followed by the untouched
rest of `buf`. -/
def single_block_run (r : Outcome × Option (List Nat) × World) (w : World) (calls : Nat)
    (pre evs post : List Event) (block : List Nat) (h_len out_len : Nat) (buf : List Nat) :
    Prop :=
  (r.1 = Outcome.ret 1 ↔ ∀ k, k < calls → w.fail (w.tick + k) = false) ∧
  (r.1 = Outcome.ret 1 →
    r.2.2.trace = w.trace ++ pre ++ evs ++ [Event.memcpy 0 (block.take out_len)] ++ post ∧
    r.2.1 = some (block.take out_len ++ buf.drop out_len) ∧
    (out_len = h_len → r.2.1 = some (block ++ buf.drop out_len)))

/-- Whether a recorded call is an `HMAC_Init_ex` that supplies a key. -/
def Event.keyed_init : Event → Bool
  | Event.HMAC_Init_ex _ (some _) _ => true
  | _ => false

/-- The contract of a failing block computation: on states satisfying `Inv`, a
`step` that fails has made its library calls up to and including the first one
that failed, call number `j`, and nothing after it. -/
structure StepFailSpec {σ : Type}
    (step : Nat → σ → List Nat → World → Bool × σ × List Nat × World)
    (Inv : σ → Prop) (cost : Nat) (evs : Nat → List Event) : Prop where
  fails : ∀ v s prev w, Inv s → (step v s prev w).1 = false →
    ∃ j, j < cost ∧ (∀ k, k < j → w.fail (w.tick + k) = false) ∧
      w.fail (w.tick + j) = true ∧
      (step v s prev w).2.2.2 = w.advance (j + 1) ((evs v).take (j + 1))

/-- Spec side: how a call with result `r`, started in world `w`, ran once its
arguments passed every check.  `a` library calls (recording `pre`) precede the
loop, each block computation makes `cost` calls recording `evs i` for counter
value `i`, and `post` is recorded on the way out.  Either all `a + n * cost`
calls succeed, the call returns 1, `out_key` holds the truncated key stream and
the loop recorded `n` iterations; or the first failing call is call `j` of block
computation `k + 1`, the call returns 0, the `k` blocks before it were copied in
full and nothing was computed or copied after the failing call. -/
def loop_run (r : Outcome × Option (List Nat) × World) (w : World) (a : Nat)
    (pre post : List Event) (cost : Nat) (evs : Nat → List Event) (blk : Nat → List Nat)
    (out_len h_len n : Nat) (buf : List Nat) : Prop :=
  (r.1 = Outcome.ret 1 ∧ (∀ t, t < a + n * cost → w.fail (w.tick + t) = false) ∧
    r.2.1 = some ((key_stream blk n).take out_len ++ buf.drop out_len) ∧
    r.2.2.trace = w.trace ++ pre ++ loop_events evs blk out_len h_len 0 n ++ post) ∨
  (r.1 = Outcome.ret 0 ∧ ∃ k j, k < n ∧ j < cost ∧
    (∀ t, t < a + k * cost + j → w.fail (w.tick + t) = false) ∧
    w.fail (w.tick + (a + k * cost + j)) = true ∧
    r.2.1 = some (key_stream blk k ++ buf.drop (k * h_len)) ∧
    r.2.2.trace = w.trace ++ pre ++ loop_events evs blk out_len h_len 0 k ++
      (evs (k + 1)).take (j + 1) ++ post)

/-- Spec side: the call with result `r`, started in world `w`, failed before the
block loop: it returns 0, hands `out_key` back unchanged and has recorded only
allocations, the keying of the keyed-hash object and releases. -/
def early_run (r : Outcome × Option (List Nat) × World) (w : World)
    (out_key : Option (List Nat)) : Prop :=
  r.1 = Outcome.ret 0 ∧ r.2.1 = out_key ∧
  ∃ evs, r.2.2.trace = w.trace ++ evs ∧ ∀ e ∈ evs, Event.block_work e = false

/-- Spec side: the copies into `out_key` recorded in a list of calls, in order,
each as the pair of its offset (the loop's `done`) and the bytes copied. -/
def copies : List Event → List (Nat × List Nat)
  | [] => []
  | Event.memcpy off bytes :: es => (off, bytes) :: copies es
  | _ :: es => copies es

/-- Spec side: the copies `cs` write the index range `[a, b)` from left to right,
every index once: each copy is non-empty and starts where the one before it
ended, the first starts at `a` and the last ends at `b`. -/
def tiles : List (Nat × List Nat) → Nat → Nat → Prop
  | [], a, b => a = b
  | c :: cs, a, b => c.1 = a ∧ 0 < c.2.length ∧ tiles cs (a + c.2.length) b

/-- Spec side: the copy that iteration `i` (0-based) of a block loop makes: at
offset `i * h_len`, the first `min h_len (out_len - i * h_len)` bytes of
`block (i + 1)`. -/
def iteration_copy (block : Nat → List Nat) (out_len h_len i : Nat) : Nat × List Nat :=
  (i * h_len, (block (i + 1)).take (min h_len (out_len - i * h_len)))

/-- Spec side: the counter values absorbed by the block primitive in a list of
calls, in order: the data of the update that directly follows the (re-)init of
the hash object (`EVP_DigestInit_ex`, or `HMAC_Init_ex` with a `NULL` key). -/
def counters : List Event → List (List Nat)
  | [] => []
  | e :: es =>
    match e, es with
    | Event.EVP_DigestInit_ex _, Event.EVP_DigestUpdate _ d :: _ => d :: counters es
    | Event.HMAC_Init_ex _ none _, Event.HMAC_Update _ d :: _ => d :: counters es
    | _, _ => counters es

/-- Spec side: the call with result `r`, started in world `w` on the output
buffer `out_key` (`NULL` or of at least `out_len` bytes), wrote only below
`out_len`: every copy it made ends at or before `out_len`, the buffer keeps its
length and its bytes from index `out_len` on, and when the call returns 1 the
copies write `[0, out_len)` from left to right, every index once. -/
def writes_within (r : Outcome × Option (List Nat) × World) (w : World) (out_len : Nat)
    (out_key : Option (List Nat)) : Prop :=
  ∃ new, r.2.2.trace = w.trace ++ new ∧
    (∀ c ∈ copies new, c.1 + c.2.length ≤ out_len) ∧
    (∀ buf, out_key = some buf →
      ∃ out1, r.2.1 = some out1 ∧ out1.length = buf.length ∧
        out1.drop out_len = buf.drop out_len) ∧
    (out_key = none → r.2.1 = none ∧ copies new = []) ∧
    (r.1 = Outcome.ret 1 → tiles (copies new) 0 out_len)

/-- Spec side: the calls `evs` release what they allocated: every heap address
is released exactly as often as it was handed out by an allocation. -/
def releases_what_it_allocated (evs : List Event) : Prop :=
  ∀ a, evs.count (Event.free a) = evs.count (Event.alloc (some a))

/-- Spec side: the call with result `r`, started in world `w`, fed the block
primitive the counters `BE32(1), BE32(2), ..., BE32(m)`, in that order, for some
`m ≤ n ≤ 2^32 - 1`, with `m = n` when it returns 1; no counter is used twice, and
the 32-bit value `i + 1` of iteration `i` is `i + 1` itself, never 0. -/
def counts_up (r : Outcome × Option (List Nat) × World) (w : World) (n : Nat) : Prop :=
  ∃ new m, r.2.2.trace = w.trace ++ new ∧ m ≤ n ∧ m ≤ UINT32_MAX ∧
    (r.1 = Outcome.ret 1 → m = n) ∧
    counters new = (List.range' 1 m).map CRYPTO_store_u32_be ∧
    (counters new).Nodup ∧
    ∀ i, i < m → (i + 1) % 2 ^ 32 = i + 1 ∧ (i + 1) % 2 ^ 32 ≠ 0

/-- Spec side: the loop-safety invariant, read off the copies the call with
result `r` recorded: it ran iterations `0, ..., m - 1` for some `m ≤ n` (`m = n`
when it returns 1); iteration `i` copied at offset `done = i * h_len`, which is
below `out_len`, so `out_len - done` does not wrap; the number of bytes copied is
the `todo` of the source, between 1 and `h_len ≤ 64`, and is `h_len` in every
iteration but the last of the `n`. -/
def loop_safe (W : Nat) (r : Outcome × Option (List Nat) × World) (w : World)
    (block : Nat → List Nat) (out_len h_len n : Nat) : Prop :=
  ∃ new m, r.2.2.trace = w.trace ++ new ∧ m ≤ n ∧ (r.1 = Outcome.ret 1 → m = n) ∧
    copies new = (List.range' 0 m).map (iteration_copy block out_len h_len) ∧
    ∀ i, i < m →
      (iteration_copy block out_len h_len i).1 = i * h_len ∧
      i * h_len < out_len ∧
      size_sub W out_len (i * h_len) = out_len - i * h_len ∧
      (iteration_copy block out_len h_len i).2.length =
        (if h_len > size_sub W out_len (i * h_len) then size_sub W out_len (i * h_len)
          else h_len) ∧
      1 ≤ (iteration_copy block out_len h_len i).2.length ∧
      (iteration_copy block out_len h_len i).2.length ≤ h_len ∧
      h_len ≤ EVP_MAX_MD_SIZE ∧
      (i + 1 < n → (iteration_copy block out_len h_len i).2.length = h_len)

/-! ## Concrete inputs for the closed statements -/

/-- A toy digest algorithm with `size`-byte outputs (at most 64). -/
def toy_md (size : Nat) (h : size ≤ EVP_MAX_MD_SIZE) : EVP_MD where
  md_size := size
  hash := fun m => (List.range size).map (fun j => (m.sum + j * m.length + j) % 256)
  hmac := fun k m => (List.range size).map (fun j => (k.sum + 3 * m.sum + j * m.length + j) % 256)
  md_size_le := h
  hash_length := by intro m; simp
  hmac_length := by intro k m; simp

/-- A world in which no library call fails. -/
def calm : World :=
  { fail := fun _ => false, tick := 0, trace := [], next := 1, live := [], stack := fun _ => 170 }

/-- A world in which exactly the library call number `k` (counted from 0) fails. -/
def failing_at (k : Nat) : World :=
  { fail := fun t => decide (t = k), tick := 0, trace := [], next := 1, live := [],
    stack := fun _ => 170 }

/-! ## Machine arithmetic -/

theorem two_pow_cases {W : Nat} (hW : W = 32 ∨ W = 64) :
    2 ^ W = 4294967296 ∨ 2 ^ W = 18446744073709551616 := by
  rcases hW with rfl | rfl
  · left; norm_num
  · right; norm_num

theorem size_add_exact {W a b : Nat} (h : a + b < 2 ^ W) : size_add W a b = a + b := by
  unfold size_add; exact Nat.mod_eq_of_lt h

theorem size_sub_exact {W a b : Nat} (hb : b ≤ a) (ha : a < 2 ^ W) : size_sub W a b = a - b := by
  unfold size_sub
  have h1 : a + 2 ^ W - b = (a - b) + 2 ^ W := by omega
  rw [h1, Nat.add_mod_right]
  exact Nat.mod_eq_of_lt (by omega)

theorem size_add_wraps_iff {W a b : Nat} (ha : a < 2 ^ W) (hb : b < 2 ^ W) :
    size_add W a b < a ↔ 2 ^ W ≤ a + b := by
  unfold size_add
  constructor
  · intro h
    by_contra hc
    rw [Nat.mod_eq_of_lt (by omega)] at h
    omega
  · intro h
    have h1 : a + b = (a + b - 2 ^ W) + 2 ^ W := by omega
    rw [h1, Nat.add_mod_right, Nat.mod_eq_of_lt (by omega)]
    omega

/-- The integer quotient `(a + b - 1) / b` is the exact ceiling of `a / b`. -/
theorem ceil_div_eq (a b : Nat) (hb : 0 < b) : ⌈(a : ℚ) / (b : ℚ)⌉₊ = (a + b - 1) / b := by
  have hbq : (0 : ℚ) < (b : ℚ) := by exact_mod_cast hb
  apply le_antisymm
  · rw [Nat.ceil_le, div_le_iff₀ hbq]
    have h1 : a < ((a + b - 1) / b + 1) * b := by
      have := Nat.lt_div_mul_add (a := a + b - 1) hb
      rw [Nat.add_mul, Nat.one_mul]
      omega
    have h2 : a ≤ (a + b - 1) / b * b := by
      rw [Nat.add_mul, Nat.one_mul] at h1
      have h3 := Nat.div_mul_le_self (a + b - 1) b
      have h4 : b ∣ (a + b - 1) / b * b := Nat.dvd_mul_left _ _
      by_contra hc
      push_neg at hc
      obtain ⟨k, hk⟩ := h4
      have h5 : (a + b - 1) / b * b + b ≤ a + b - 1 + 1 := by omega
      have h6 : ((a + b - 1) / b + 1) * b ≤ a + b - 1 := by
        rw [Nat.add_mul, Nat.one_mul]
        have : (a + b - 1) / b * b + b ≤ a + b - 1 ∨ (a + b - 1) / b * b + b = a + b := by omega
        rcases this with h | h
        · exact h
        · exfalso; omega
      have h7 := (Nat.le_div_iff_mul_le hb).mpr h6
      omega
    exact_mod_cast h2
  · have h1 : (a : ℚ) / b ≤ (⌈(a : ℚ) / (b : ℚ)⌉₊ : ℚ) := Nat.le_ceil _
    rw [div_le_iff₀ hbq] at h1
    have h2 : a ≤ ⌈(a : ℚ) / (b : ℚ)⌉₊ * b := by exact_mod_cast h1
    have h3 : a + b - 1 < (⌈(a : ℚ) / (b : ℚ)⌉₊ + 1) * b := by
      rw [Nat.add_mul, Nat.one_mul]; omega
    have := (Nat.div_lt_iff_lt_mul hb).mpr h3
    omega

theorem n_blocks_exact {W out_len h_len : Nat} (hW : W = 32 ∨ W = 64) (hpos : 0 < h_len)
    (hsum : out_len + h_len < 2 ^ W) :
    n_blocks W out_len h_len = (out_len + h_len - 1) / h_len := by
  unfold n_blocks
  rw [size_add_exact hsum, size_sub_exact (by omega) hsum]
  apply Nat.mod_eq_of_lt
  have h1 : (out_len + h_len - 1) / h_len ≤ out_len + h_len - 1 := Nat.div_le_self _ _
  rcases two_pow_cases hW with h | h <;> omega

theorem length_check_fails_iff {W out_len h_len : Nat} (hW : W = 32 ∨ W = 64)
    (ho : out_len < 2 ^ W) (hh : h_len < 2 ^ W) (hpos : 0 < h_len) :
    length_check_fails W out_len h_len = true ↔
      (2 ^ W ≤ out_len + h_len ∨ UINT32_MAX < (out_len + h_len - 1) / h_len) := by
  unfold length_check_fails
  rw [Bool.or_eq_true, decide_eq_true_iff, decide_eq_true_iff, size_add_wraps_iff ho hh]
  by_cases hsum : 2 ^ W ≤ out_len + h_len
  · simp [hsum]
  · rw [n_blocks_exact hW hpos (by omega)]

theorem input_guard_iff {W secret_len info_len : Nat} (hW : W = 32 ∨ W = 64)
    (hs : secret_len < 2 ^ W) (hi : info_len < 2 ^ W) :
    input_overflow_guard W secret_len info_len = true ↔ 2 ^ W ≤ 4 + secret_len + info_len := by
  unfold input_overflow_guard SIZE_MAX size_sub
  rcases hW with rfl | rfl <;> norm_num at hs hi ⊢ <;> omega

theorem input_sum_exact {W secret_len info_len : Nat}
    (h : 4 + secret_len + info_len < 2 ^ W) :
    size_add W (size_add W 4 secret_len) info_len = 4 + secret_len + info_len := by
  rw [size_add_exact (a := 4) (by omega), size_add_exact h]

theorem input_check_fails_iff {W secret_len info_len : Nat} (hW : W = 32 ∨ W = 64)
    (hs : secret_len < 2 ^ W) (hi : info_len < 2 ^ W) :
    input_check_fails W secret_len info_len = true ↔ UINT32_MAX < 4 + secret_len + info_len := by
  unfold input_check_fails
  rw [Bool.or_eq_true, input_guard_iff hW hs hi]
  by_cases hsum : 2 ^ W ≤ 4 + secret_len + info_len
  · have : UINT32_MAX < 4 + secret_len + info_len := by
      rcases two_pow_cases hW with h | h <;> simp only [UINT32_MAX] <;> omega
    simp [hsum, this]
  · unfold input_cap_exceeded
    rw [input_sum_exact (by omega)]
    simp [hsum]

/-! ## The primitives -/

theorem call_eq (w : World) (e : Event) : w.call e = (!w.fail w.tick, w.advance 1 [e]) := rfl

@[simp] theorem advance_fail (w : World) (c : Nat) (evs : List Event) :
    (w.advance c evs).fail = w.fail := rfl

@[simp] theorem advance_tick (w : World) (c : Nat) (evs : List Event) :
    (w.advance c evs).tick = w.tick + c := rfl

@[simp] theorem advance_trace (w : World) (c : Nat) (evs : List Event) :
    (w.advance c evs).trace = w.trace ++ evs := rfl

@[simp] theorem advance_next (w : World) (c : Nat) (evs : List Event) :
    (w.advance c evs).next = w.next := rfl

@[simp] theorem advance_live (w : World) (c : Nat) (evs : List Event) :
    (w.advance c evs).live = w.live := rfl

@[simp] theorem advance_stack (w : World) (c : Nat) (evs : List Event) :
    (w.advance c evs).stack = w.stack := rfl

@[simp] theorem advance_advance (w : World) (c d : Nat) (e f : List Event) :
    (w.advance c e).advance d f = w.advance (c + d) (e ++ f) := by
  simp [World.advance, Nat.add_assoc]

theorem advance_zero (w : World) : w.advance 0 [] = w := by
  simp [World.advance]

theorem log_eq (w : World) (e : Event) : w.log e = w.advance 0 [e] := rfl

theorem reset_fail {c : EVP_MD_CTX} {w : World} (h : w.fail w.tick = true) :
    EVP_MD_CTX_reset c w = (false, c, w.advance 1 [Event.EVP_MD_CTX_reset c.addr]) := by
  simp [EVP_MD_CTX_reset, call_eq, h]

theorem reset_ok {c : EVP_MD_CTX} {w : World} (h : w.fail w.tick = false) :
    EVP_MD_CTX_reset c w = (true, { addr := c.addr, digest := none, data := [] },
      w.advance 1 [Event.EVP_MD_CTX_reset c.addr]) := by
  simp [EVP_MD_CTX_reset, call_eq, h]

theorem digest_init_fail {c : EVP_MD_CTX} {md : EVP_MD} {w : World} (h : w.fail w.tick = true) :
    EVP_DigestInit_ex c md w = (false, c, w.advance 1 [Event.EVP_DigestInit_ex c.addr]) := by
  simp [EVP_DigestInit_ex, call_eq, h]

theorem digest_init_ok {c : EVP_MD_CTX} {md : EVP_MD} {w : World} (h : w.fail w.tick = false) :
    EVP_DigestInit_ex c md w = (true, { addr := c.addr, digest := some md, data := [] },
      w.advance 1 [Event.EVP_DigestInit_ex c.addr]) := by
  simp [EVP_DigestInit_ex, call_eq, h]

theorem digest_update_fail {c : EVP_MD_CTX} {d : List Nat} {len : Nat} {w : World}
    (h : w.fail w.tick = true) :
    EVP_DigestUpdate c d len w =
      (false, c, w.advance 1 [Event.EVP_DigestUpdate c.addr (d.take len)]) := by
  simp [EVP_DigestUpdate, call_eq, h]

theorem digest_update_ok {a : Nat} {md : EVP_MD} {x d : List Nat} {len : Nat} {w : World}
    (h : w.fail w.tick = false) :
    EVP_DigestUpdate { addr := a, digest := some md, data := x } d len w =
      (true, { addr := a, digest := some md, data := x ++ d.take len },
        w.advance 1 [Event.EVP_DigestUpdate a (d.take len)]) := by
  simp [EVP_DigestUpdate, call_eq, h]

theorem digest_final_fail {c : EVP_MD_CTX} {out : List Nat} {w : World}
    (h : w.fail w.tick = true) :
    EVP_DigestFinal c out w = (false, c, out, w.advance 1 [Event.EVP_DigestFinal c.addr]) := by
  simp [EVP_DigestFinal, call_eq, h]

theorem digest_final_ok {a : Nat} {md : EVP_MD} {x out : List Nat} {w : World}
    (h : w.fail w.tick = false) :
    EVP_DigestFinal { addr := a, digest := some md, data := x } out w =
      (true, { addr := a, digest := none, data := [] }, write_block out (md.hash x),
        w.advance 1 [Event.EVP_DigestFinal a]) := by
  simp [EVP_DigestFinal, call_eq, h]

theorem hmac_init_fail {c : HMAC_CTX} {key : Option (List Nat)} {len : Nat} {md : Option EVP_MD}
    {w : World} (h : w.fail w.tick = true) :
    HMAC_Init_ex c key len md w =
      (false, c, w.advance 1
        [Event.HMAC_Init_ex c.addr (key.map (fun k => k.take len)) md.isSome]) := by
  simp [HMAC_Init_ex, call_eq, h]

theorem hmac_init_key_ok {c : HMAC_CTX} {key : List Nat} {len : Nat} {md : EVP_MD}
    {w : World} (h : w.fail w.tick = false) :
    HMAC_Init_ex c (some key) len (some md) w =
      (true, { addr := c.addr, md := some md, key := key.take len, data := [] },
        w.advance 1 [Event.HMAC_Init_ex c.addr (some (key.take len)) true]) := by
  simp [HMAC_Init_ex, call_eq, h]

theorem hmac_reinit_ok {a : Nat} {md : EVP_MD} {k x : List Nat} {w : World}
    (h : w.fail w.tick = false) :
    HMAC_Init_ex { addr := a, md := some md, key := k, data := x } none 0 none w =
      (true, { addr := a, md := some md, key := k, data := [] },
        w.advance 1 [Event.HMAC_Init_ex a none false]) := by
  simp [HMAC_Init_ex, call_eq, h]

theorem hmac_update_fail {c : HMAC_CTX} {d : List Nat} {len : Nat} {w : World}
    (h : w.fail w.tick = true) :
    HMAC_Update c d len w = (false, c, w.advance 1 [Event.HMAC_Update c.addr (d.take len)]) := by
  simp [HMAC_Update, call_eq, h]

theorem hmac_update_ok {a : Nat} {md : EVP_MD} {k x d : List Nat} {len : Nat} {w : World}
    (h : w.fail w.tick = false) :
    HMAC_Update { addr := a, md := some md, key := k, data := x } d len w =
      (true, { addr := a, md := some md, key := k, data := x ++ d.take len },
        w.advance 1 [Event.HMAC_Update a (d.take len)]) := by
  simp [HMAC_Update, call_eq, h]

theorem hmac_final_fail {c : HMAC_CTX} {out : List Nat} {w : World}
    (h : w.fail w.tick = true) :
    HMAC_Final c out w = (false, c, out, w.advance 1 [Event.HMAC_Final c.addr]) := by
  simp [HMAC_Final, call_eq, h]

theorem hmac_final_ok {a : Nat} {md : EVP_MD} {k x out : List Nat} {w : World}
    (h : w.fail w.tick = false) :
    HMAC_Final { addr := a, md := some md, key := k, data := x } out w =
      (true, { addr := a, md := some md, key := k, data := [] },
        write_block out (md.hmac k x), w.advance 1 [Event.HMAC_Final a]) := by
  simp [HMAC_Final, call_eq, h]

theorem store_u32_be_take (v : Nat) : (CRYPTO_store_u32_be v).take 4 = CRYPTO_store_u32_be v := rfl

/-- The digest variant's `compute` on a well-formed context: the first failing
library call makes it return 0; otherwise it returns 1 with the hash of
`counter ‖ secret ‖ info` in `out`. -/
theorem digest_compute_cases (md : EVP_MD) (vaddr : Nat) (m : EVP_MD_CTX)
    (o : List Nat) (out_len : Nat) (ctr sec : List Nat) (secret_len : Nat)
    (info : List Nat) (info_len : Nat) (w : World)
    (r : ComputeResult SSKDF_VARIANT_DIGEST_CTX)
    (hr : r = sskdf_variant_digest_compute
      (some { data := some { addr := vaddr, digest := some md, ctx := some m } })
      (some o) out_len (some ctr) (some sec) secret_len info info_len w) :
    (r.1 = 0 ∧ ∃ k, k < 6 ∧ w.fail (w.tick + k) = true) ∨
    ((∀ k, k < 6 → w.fail (w.tick + k) = false) ∧
     r = (1, digest_ctx_with { addr := vaddr, digest := some md, ctx := some m }
            { addr := m.addr, digest := none, data := [] },
          some (write_block o (md.hash (ctr.take 4 ++ sec.take secret_len ++ info.take info_len))),
          w.advance 6 (digest_events m.addr (ctr.take 4) (sec.take secret_len)
            (info.take info_len)))) := by
  subst hr
  cases h0 : w.fail w.tick
  swap
  · left; exact ⟨by simp [sskdf_variant_digest_compute, reset_fail h0, digest_ctx_with],
      0, by omega, by simpa using h0⟩
  cases h1 : w.fail (w.tick + 1)
  swap
  · left
    exact ⟨by simp [sskdf_variant_digest_compute, reset_ok h0, digest_init_fail, h1,
      digest_ctx_with], 1, by omega, h1⟩
  cases h2 : w.fail (w.tick + 1 + 1)
  swap
  · left
    exact ⟨by simp [sskdf_variant_digest_compute, reset_ok h0, digest_init_ok, h1,
      digest_update_fail, h2, digest_ctx_with], 2, by omega, h2⟩
  cases h3 : w.fail (w.tick + 1 + 1 + 1)
  swap
  · left
    exact ⟨by simp [sskdf_variant_digest_compute, reset_ok h0, digest_init_ok, h1,
      digest_update_ok, digest_update_fail, h2, h3, digest_ctx_with], 3, by omega, h3⟩
  cases h4 : w.fail (w.tick + 1 + 1 + 1 + 1)
  swap
  · left
    exact ⟨by simp [sskdf_variant_digest_compute, reset_ok h0, digest_init_ok, h1,
      digest_update_ok, digest_update_fail, h2, h3, h4, digest_ctx_with], 4, by omega, h4⟩
  cases h5 : w.fail (w.tick + 1 + 1 + 1 + 1 + 1)
  swap
  · left
    exact ⟨by simp [sskdf_variant_digest_compute, reset_ok h0, digest_init_ok, h1,
      digest_update_ok, digest_final_fail, h2, h3, h4, h5, digest_ctx_with], 5, by omega, h5⟩
  right
  refine ⟨?_, ?_⟩
  · intro k hk
    have : k = 0 ∨ k = 1 ∨ k = 2 ∨ k = 3 ∨ k = 4 ∨ k = 5 := by omega
    rcases this with rfl | rfl | rfl | rfl | rfl | rfl <;> assumption
  · simp [sskdf_variant_digest_compute, reset_ok h0, digest_init_ok, h1,
      digest_update_ok, digest_final_ok, h2, h3, h4, h5, digest_ctx_with, digest_events]

/-- The keyed-hash variant's `compute` on a well-formed context: the first
failing library call makes it return 0; otherwise it returns 1 with the keyed
hash of `counter ‖ secret ‖ info` under the stored key in `out`. -/
theorem hmac_compute_cases (md : EVP_MD) (vaddr a : Nat) (key x : List Nat)
    (o : List Nat) (out_len : Nat) (ctr sec : List Nat) (secret_len : Nat)
    (info : List Nat) (info_len : Nat) (w : World)
    (r : ComputeResult SSKDF_VARIANT_HMAC_CTX)
    (hr : r = sskdf_variant_hmac_compute
      (some { data := some { addr := vaddr,
                             ctx := some { addr := a, md := some md, key := key, data := x } } })
      (some o) out_len (some ctr) (some sec) secret_len info info_len w) :
    (r.1 = 0 ∧ ∃ k, k < 5 ∧ w.fail (w.tick + k) = true) ∨
    ((∀ k, k < 5 → w.fail (w.tick + k) = false) ∧
     r = (1, hmac_ctx_with { addr := vaddr, ctx := none }
            { addr := a, md := some md, key := key, data := [] },
          some (write_block o
            (md.hmac key (ctr.take 4 ++ sec.take secret_len ++ info.take info_len))),
          w.advance 5 (hmac_events a (ctr.take 4) (sec.take secret_len)
            (info.take info_len)))) := by
  subst hr
  cases h0 : w.fail w.tick
  swap
  · left; exact ⟨by simp [sskdf_variant_hmac_compute, hmac_init_fail h0, hmac_ctx_with],
      0, by omega, by simpa using h0⟩
  cases h1 : w.fail (w.tick + 1)
  swap
  · left
    exact ⟨by simp [sskdf_variant_hmac_compute, hmac_reinit_ok h0, hmac_update_fail, h1,
      hmac_ctx_with], 1, by omega, h1⟩
  cases h2 : w.fail (w.tick + 1 + 1)
  swap
  · left
    exact ⟨by simp [sskdf_variant_hmac_compute, hmac_reinit_ok h0, hmac_update_ok, h1,
      hmac_update_fail, h2, hmac_ctx_with], 2, by omega, h2⟩
  cases h3 : w.fail (w.tick + 1 + 1 + 1)
  swap
  · left
    exact ⟨by simp [sskdf_variant_hmac_compute, hmac_reinit_ok h0, hmac_update_ok, h1,
      hmac_update_fail, h2, h3, hmac_ctx_with], 3, by omega, h3⟩
  cases h4 : w.fail (w.tick + 1 + 1 + 1 + 1)
  swap
  · left
    exact ⟨by simp [sskdf_variant_hmac_compute, hmac_reinit_ok h0, hmac_update_ok, h1,
      hmac_final_fail, h2, h3, h4, hmac_ctx_with], 4, by omega, h4⟩
  right
  refine ⟨?_, ?_⟩
  · intro k hk
    have : k = 0 ∨ k = 1 ∨ k = 2 ∨ k = 3 ∨ k = 4 := by omega
    rcases this with rfl | rfl | rfl | rfl | rfl <;> assumption
  · simp [sskdf_variant_hmac_compute, hmac_reinit_ok h0, hmac_update_ok, h1,
      hmac_final_ok, h2, h3, h4, hmac_ctx_with, hmac_events]

/-- One block computation of `KBKDF_CTR` on an initialised keyed-hash object. -/
theorem kbkdf_step_cases (md : EVP_MD) (a : Nat) (key x : List Nat)
    (info : List Nat) (info_len : Nat) (v : Nat) (prev : List Nat) (w : World) :
    ((kbkdf_step info info_len v { addr := a, md := some md, key := key, data := x } prev w).1
        = false ∧ ∃ k, k < 4 ∧ w.fail (w.tick + k) = true) ∨
    ((∀ k, k < 4 → w.fail (w.tick + k) = false) ∧
     kbkdf_step info info_len v { addr := a, md := some md, key := key, data := x } prev w =
       (true, { addr := a, md := some md, key := key, data := [] },
        write_block prev (md.hmac key (CRYPTO_store_u32_be v ++ info.take info_len)),
        w.advance 4 (kbkdf_events a (CRYPTO_store_u32_be v) (info.take info_len)))) := by
  cases h0 : w.fail w.tick
  swap
  · left; exact ⟨by simp [kbkdf_step, hmac_init_fail h0], 0, by omega, by simpa using h0⟩
  cases h1 : w.fail (w.tick + 1)
  swap
  · left
    exact ⟨by simp [kbkdf_step, hmac_reinit_ok h0, hmac_update_fail, h1], 1, by omega, h1⟩
  cases h2 : w.fail (w.tick + 1 + 1)
  swap
  · left
    exact ⟨by simp [kbkdf_step, hmac_reinit_ok h0, hmac_update_ok, h1,
      hmac_update_fail, h2], 2, by omega, h2⟩
  cases h3 : w.fail (w.tick + 1 + 1 + 1)
  swap
  · left
    exact ⟨by simp [kbkdf_step, hmac_reinit_ok h0, hmac_update_ok, h1,
      hmac_final_fail, h2, h3], 3, by omega, h3⟩
  right
  refine ⟨?_, ?_⟩
  · intro k hk
    have : k = 0 ∨ k = 1 ∨ k = 2 ∨ k = 3 := by omega
    rcases this with rfl | rfl | rfl | rfl <;> assumption
  · simp [kbkdf_step, hmac_reinit_ok h0, hmac_update_ok, h1,
      hmac_final_ok, h2, h3, kbkdf_events, store_u32_be_take]

theorem digest_step_spec (md : EVP_MD) (vaddr a : Nat) (h_len : Nat)
    (sec : List Nat) (secret_len : Nat) (info : List Nat) (info_len : Nat) :
    StepSpec (sskdf_step SSKDF_VARIANT_DIGEST h_len (some sec) secret_len info info_len)
      (fun c => ∃ m : EVP_MD_CTX, m.addr = a ∧
        c = digest_ctx_with { addr := vaddr, digest := some md, ctx := none } m)
      (digest_ctx_with { addr := vaddr, digest := some md, ctx := none }
        { addr := a, digest := none, data := [] }) 6
      (digest_block md (sec.take secret_len) (info.take info_len))
      (fun v => digest_events a (CRYPTO_store_u32_be v) (sec.take secret_len)
        (info.take info_len)) := by
  refine ⟨⟨_, rfl, rfl⟩, ?_⟩
  rintro v s prev w ⟨m, rfl, rfl⟩
  have key := digest_compute_cases md vaddr m prev h_len (CRYPTO_store_u32_be v) sec secret_len
    info info_len w _ rfl
  simp only [digest_ctx_with] at key ⊢
  rcases key with ⟨h1, h2⟩ | ⟨h1, h2⟩
  · left
    refine ⟨?_, h2⟩
    simp only [sskdf_step, SSKDF_VARIANT_DIGEST]
    simp [h1]
  · right
    refine ⟨h1, ?_⟩
    simp only [sskdf_step, SSKDF_VARIANT_DIGEST]
    simp only [h2]
    simp [digest_block, store_u32_be_take]

theorem hmac_step_spec (md : EVP_MD) (vaddr a : Nat) (key : List Nat) (h_len : Nat)
    (sec : List Nat) (secret_len : Nat) (info : List Nat) (info_len : Nat) :
    StepSpec (sskdf_step SSKDF_VARIANT_HMAC h_len (some sec) secret_len info info_len)
      (fun c => ∃ x : List Nat,
        c = hmac_ctx_with { addr := vaddr, ctx := none }
          { addr := a, md := some md, key := key, data := x })
      (hmac_ctx_with { addr := vaddr, ctx := none }
        { addr := a, md := some md, key := key, data := [] }) 5
      (hmac_block md key (sec.take secret_len) (info.take info_len))
      (fun v => hmac_events a (CRYPTO_store_u32_be v) (sec.take secret_len)
        (info.take info_len)) := by
  refine ⟨⟨_, rfl⟩, ?_⟩
  rintro v s prev w ⟨x, rfl⟩
  have hc := hmac_compute_cases md vaddr a key x prev h_len (CRYPTO_store_u32_be v) sec secret_len
    info info_len w _ rfl
  simp only [hmac_ctx_with] at hc ⊢
  rcases hc with ⟨h1, h2⟩ | ⟨h1, h2⟩
  · left
    refine ⟨?_, h2⟩
    simp only [sskdf_step, SSKDF_VARIANT_HMAC]
    simp [h1]
  · right
    refine ⟨h1, ?_⟩
    simp only [sskdf_step, SSKDF_VARIANT_HMAC]
    simp only [h2]
    simp [hmac_block, store_u32_be_take]

theorem kbkdf_step_spec (md : EVP_MD) (a : Nat) (key : List Nat)
    (info : List Nat) (info_len : Nat) :
    StepSpec (kbkdf_step info info_len)
      (fun c => ∃ x : List Nat, c = { addr := a, md := some md, key := key, data := x })
      { addr := a, md := some md, key := key, data := [] } 4
      (kbkdf_block md key (info.take info_len))
      (fun v => kbkdf_events a (CRYPTO_store_u32_be v) (info.take info_len)) := by
  refine ⟨⟨_, rfl⟩, ?_⟩
  rintro v s prev w ⟨x, rfl⟩
  exact kbkdf_step_cases md a key x info info_len v prev w

/-! ## The block loop -/

theorem blocks_from_snoc (block : Nat → List Nat) (k : Nat) :
    ∀ i, blocks_from block i (k + 1) = blocks_from block i k ++ block (i + k + 1) := by
  induction k with
  | zero => intro i; simp [blocks_from]
  | succ k ih =>
    intro i
    rw [blocks_from, ih (i + 1), blocks_from, List.append_assoc]
    congr 2
    congr 1
    omega

theorem key_stream_eq_blocks_from (block : Nat → List Nat) (n : Nat) :
    key_stream block n = blocks_from block 0 n := by
  induction n with
  | zero => rfl
  | succ n ih => rw [key_stream, ih, blocks_from_snoc, Nat.zero_add]

theorem write_block_take {prev B : List Nat} {t : Nat} (h : t ≤ B.length) :
    (write_block prev B).take t = B.take t := by
  unfold write_block
  rw [List.take_append_of_le_length h]

theorem memcpy_length {out src : List Nat} {d t : Nat} (h1 : d + t ≤ out.length)
    (h2 : t ≤ src.length) : (OPENSSL_memcpy out d src t).length = out.length := by
  simp only [OPENSSL_memcpy, List.length_append, List.length_take, List.length_drop]
  omega

theorem memcpy_take {out src : List Nat} {d t : Nat} (h1 : d ≤ out.length)
    (h2 : t ≤ src.length) :
    (OPENSSL_memcpy out d src t).take (d + t) = out.take d ++ src.take t := by
  unfold OPENSSL_memcpy
  rw [List.take_append_of_le_length (by simp; omega)]
  apply List.take_of_length_le
  simp; omega

theorem memcpy_drop {out src : List Nat} {d t L : Nat} (h1 : d ≤ out.length)
    (h2 : t ≤ src.length) (h3 : d + t ≤ L) :
    (OPENSSL_memcpy out d src t).drop L = out.drop L := by
  unfold OPENSSL_memcpy
  rw [List.drop_append_eq_append_drop, List.drop_of_length_le (by simp; omega), List.nil_append,
    List.drop_drop]
  congr 1
  simp
  omega

theorem ceil_iter_lt {out_len h_len i : Nat} (hpos : 0 < h_len) :
    i < (out_len + h_len - 1) / h_len ↔ i * h_len < out_len := by
  rw [Nat.lt_iff_add_one_le, Nat.le_div_iff_mul_le hpos, Nat.add_mul, Nat.one_mul]
  omega

/-- The block loop, started at iteration `i` with offset `min (i * h_len) out_len`
and enough fuel: either no library call fails, the loop returns 1 and `out_key`
holds the key stream of the remaining blocks truncated to `out_len`; or a call
fails, the loop returns 0 and the bytes of `out_key` from `out_len` on are
untouched. -/
theorem block_loop_spec {σ : Type} {W : Nat} (hW : W = 32 ∨ W = 64)
    {step : Nat → σ → List Nat → World → Bool × σ × List Nat × World}
    {Inv : σ → Prop} {post : σ} {cost : Nat} {blk : Nat → List Nat} {evs : Nat → List Event}
    (hs : StepSpec step Inv post cost blk evs)
    {out_len h_len n : Nat} (hpos : 0 < h_len) (ho : out_len < 2 ^ W)
    (hn : n = (out_len + h_len - 1) / h_len) (hn32 : n ≤ UINT32_MAX)
    (hblk : ∀ v, (blk v).length = h_len) :
    ∀ (fuel i : Nat) (prev : List Nat) (s : σ) (out : List Nat) (w : World),
      n ≤ i + fuel → i ≤ n → out_len ≤ out.length → Inv s →
      ((∀ k, k < (n - i) * cost → w.fail (w.tick + k) = false) ∧
        block_loop W step out_len h_len n fuel i (min (i * h_len) out_len) prev s out w =
          (Outcome.ret 1, (if i < n then post else s),
            out.take (min (i * h_len) out_len) ++
              (blocks_from blk i (n - i)).take (out_len - min (i * h_len) out_len) ++
              out.drop out_len,
            w.advance ((n - i) * cost) (loop_events evs blk out_len h_len i (n - i)))) ∨
      (∃ s1 out1 w1,
        block_loop W step out_len h_len n fuel i (min (i * h_len) out_len) prev s out w =
          (Outcome.ret 0, s1, out1, w1) ∧
        out1.length = out.length ∧ out1.drop out_len = out.drop out_len ∧
        ∃ k, k < (n - i) * cost ∧ w.fail (w.tick + k) = true) := by
  have hfin : ∀ i, i = n → min (i * h_len) out_len = out_len := by
    intro i hi
    have := (@ceil_iter_lt out_len h_len i hpos).not.mp (by omega)
    omega
  have hdone : ∀ (prev : List Nat) (s : σ) (out : List Nat) (w : World) (fuel : Nat),
      out_len ≤ out.length →
      block_loop W step out_len h_len n fuel n (min (n * h_len) out_len) prev s out w =
        (Outcome.ret 1, (if n < n then post else s),
          out.take (min (n * h_len) out_len) ++
            (blocks_from blk n (n - n)).take (out_len - min (n * h_len) out_len) ++
            out.drop out_len,
          w.advance ((n - n) * cost) (loop_events evs blk out_len h_len n (n - n))) := by
    intro prev s out w fuel hlen
    rw [hfin n rfl]
    cases fuel <;>
      simp [block_loop, blocks_from, loop_events, advance_zero]
  intro fuel
  induction fuel with
  | zero =>
    intro i prev s out w hf hi hlen hinv
    have hin : i = n := by omega
    subst hin
    left
    exact ⟨by simp, hdone prev s out w 0 hlen⟩
  | succ fuel ih =>
    intro i prev s out w hf hi hlen hinv
    by_cases hlt : i < n
    swap
    · have hin : i = n := by omega
      subst hin
      left
      exact ⟨by simp, hdone prev s out w (fuel + 1) hlen⟩
    have hd : i * h_len < out_len := (ceil_iter_lt hpos).mp (hn ▸ hlt)
    have hmin : min (i * h_len) out_len = i * h_len := by omega
    have hv : (i + 1) % 2 ^ 32 = i + 1 := Nat.mod_eq_of_lt (by simp only [UINT32_MAX] at hn32; omega)
    have hsub : size_sub W out_len (i * h_len) = out_len - i * h_len :=
      size_sub_exact (by omega) ho
    have htodo : (if h_len > out_len - i * h_len then out_len - i * h_len else h_len) =
        min h_len (out_len - i * h_len) := by
      split <;> omega
    have hmul : (i + 1) * h_len = i * h_len + h_len := by rw [Nat.add_mul, Nat.one_mul]
    have hadd : size_add W (i * h_len) (min h_len (out_len - i * h_len)) =
        min ((i + 1) * h_len) out_len := by
      rw [size_add_exact (by omega), hmul]; omega
    obtain ⟨k, hk⟩ : ∃ k, n - i = k + 1 := ⟨n - i - 1, by omega⟩
    have hk' : n - (i + 1) = k := by omega
    rw [hmin, block_loop]
    simp only [hlt, if_true, hv, hsub, htodo, hadd]
    rcases hs.cases (i + 1) s prev w hinv with ⟨hf1, kf, hkf, hkf2⟩ | ⟨hok1, hok2⟩
    · right
      rcases hstep : step (i + 1) s prev w with ⟨b, s1, p1, w1⟩
      rw [hstep] at hf1
      simp only at hf1
      subst hf1
      refine ⟨s1, out, w1, rfl, rfl, rfl, kf, ?_, hkf2⟩
      rw [hk, Nat.add_mul, Nat.one_mul]; omega
    · rw [hok2]
      simp only [log_eq, advance_advance, Nat.add_zero]
      have htl : min h_len (out_len - i * h_len) ≤ (blk (i + 1)).length := by
        rw [hblk]; omega
      have hlen1 : (OPENSSL_memcpy out (i * h_len) (write_block prev (blk (i + 1)))
          (min h_len (out_len - i * h_len))).length = out.length :=
        memcpy_length (by omega) (by simp [write_block]; omega)
      rcases ih (i + 1) (write_block prev (blk (i + 1))) post
          (OPENSSL_memcpy out (i * h_len) (write_block prev (blk (i + 1)))
            (min h_len (out_len - i * h_len)))
          (w.advance cost (evs (i + 1) ++ [Event.memcpy (i * h_len)
            ((write_block prev (blk (i + 1))).take (min h_len (out_len - i * h_len)))]))
          (by omega) (by omega) (by omega) hs.post_inv with
        ⟨hA, hB⟩ | ⟨s1, out1, w1, hB, hl, hdr, kf, hkf, hkf2⟩
      · left
        refine ⟨?_, ?_⟩
        · intro j hj
          by_cases hjc : j < cost
          · exact hok1 j hjc
          · have := hA (j - cost) (by
              rw [hk'] ; rw [hk, Nat.add_mul, Nat.one_mul] at hj; omega)
            simp only [advance_fail, advance_tick] at this
            rw [← this]; congr 1; omega
        · rw [hB, hk', hk]
          have hd1 : min ((i + 1) * h_len) out_len =
              i * h_len + min h_len (out_len - i * h_len) := by rw [hmul]; omega
          have hsrc : min h_len (out_len - i * h_len) ≤
              (write_block prev (blk (i + 1))).length := by simp [write_block]; omega
          have htk : List.take (out_len - i * h_len) (blk (i + 1) ++ blocks_from blk (i + 1) k) =
              List.take (min h_len (out_len - i * h_len)) (blk (i + 1)) ++
                List.take (out_len - (i * h_len + min h_len (out_len - i * h_len)))
                  (blocks_from blk (i + 1) k) := by
            rw [List.take_append_eq_append_take, hblk]
            by_cases hc : h_len ≤ out_len - i * h_len
            · rw [Nat.min_eq_left hc]
              congr 1
              · rw [List.take_of_length_le (l := blk (i + 1)) (i := out_len - i * h_len)
                    (by rw [hblk]; exact hc),
                  List.take_of_length_le (l := blk (i + 1)) (i := h_len) (by rw [hblk])]
              · congr 1
                omega
            · rw [Nat.min_eq_right (by omega)]
              congr 2
              omega
          have hcost : (k + 1) * cost = cost + k * cost := by rw [Nat.add_mul, Nat.one_mul]; omega
          rw [hd1, memcpy_take (by omega) hsrc, memcpy_drop (by omega) hsrc (by omega),
            write_block_take htl]
          simp only [ite_self, blocks_from, loop_events, advance_advance, htk, hcost,
            List.append_assoc]
      · right
        refine ⟨s1, out1, w1, hB, by omega, ?_, cost + kf, ?_, ?_⟩
        · rw [hdr]
          exact memcpy_drop (by omega) (by simp [write_block]; omega) (by omega)
        · rw [hk'] at hkf; rw [hk, Nat.add_mul, Nat.one_mul]; omega
        · simp only [advance_fail, advance_tick] at hkf2
          rw [← hkf2]; congr 1; omega

theorem SSKDF_loop_eq {α : Type} (W : Nat) (variant : SSKDF_VARIANT α) (out_len h_len n : Nat)
    (secret : Option (List Nat)) (secret_len : Nat) (info : List Nat) (info_len : Nat) :
    ∀ (fuel i done : Nat) (prev : List Nat) (ctx : Option (SSKDF_VARIANT_CTX α))
      (out : List Nat) (w : World),
      SSKDF_loop W variant out_len h_len n secret secret_len info info_len fuel i done prev ctx
          out w =
        block_loop W (sskdf_step variant h_len secret secret_len info info_len) out_len h_len n
          fuel i done prev ctx out w := by
  intro fuel
  induction fuel with
  | zero => intro i done prev ctx out w; simp [SSKDF_loop, block_loop]
  | succ fuel ih =>
    intro i done prev ctx out w
    rw [SSKDF_loop, block_loop]
    by_cases hlt : i < n
    · rcases hc : variant.compute ctx (some prev) h_len
          (some (CRYPTO_store_u32_be ((i + 1) % 2 ^ 32))) secret secret_len info info_len w with
        ⟨r, ctx1, out1, w1⟩
      simp only [hlt, if_true, sskdf_step, hc]
      by_cases hr : r = 0
      · simp [hr]
      · simp [hr, ih]
    · simp [hlt]

theorem KBKDF_loop_eq (W : Nat) (out_len h_len n : Nat) (info : List Nat) (info_len : Nat) :
    ∀ (fuel i done : Nat) (prev : List Nat) (c : HMAC_CTX) (out : List Nat) (w : World),
      KBKDF_loop W out_len h_len n info info_len fuel i done prev c out w =
        block_loop W (kbkdf_step info info_len) out_len h_len n fuel i done prev c out w := by
  intro fuel
  induction fuel with
  | zero => intro i done prev c out w; simp [KBKDF_loop, block_loop]
  | succ fuel ih =>
    intro i done prev c out w
    rw [KBKDF_loop, block_loop]
    by_cases hlt : i < n
    · simp only [hlt, if_true, kbkdf_step]
      rcases h1 : HMAC_Init_ex c none 0 none w with ⟨b1, m1, w1⟩
      cases b1
      · simp
      simp only
      rcases h2 : HMAC_Update m1 (CRYPTO_store_u32_be ((i + 1) % 2 ^ 32)) 4 w1 with ⟨b2, m2, w2⟩
      cases b2
      · simp
      simp only
      rcases h3 : HMAC_Update m2 info info_len w2 with ⟨b3, m3, w3⟩
      cases b3
      · simp
      simp only
      rcases h4 : HMAC_Final m3 prev w3 with ⟨b4, m4, p4, w4⟩
      cases b4
      · simp
      simp [ih]
    · simp [hlt]

theorem length_check_passes {W out_len h_len : Nat} (hW : W = 32 ∨ W = 64)
    (ho : out_len < 2 ^ W) (hpos : 0 < h_len) (hmax : h_len ≤ EVP_MAX_MD_SIZE)
    (hlc : length_check_fails W out_len h_len = false) :
    out_len + h_len < 2 ^ W ∧ n_blocks W out_len h_len = (out_len + h_len - 1) / h_len ∧
      (out_len + h_len - 1) / h_len ≤ UINT32_MAX := by
  have hh : h_len < 2 ^ W := by
    rcases two_pow_cases hW with h | h <;> simp only [EVP_MAX_MD_SIZE] at hmax <;> omega
  have h1 := (length_check_fails_iff hW ho hh hpos).not.mp (by simp [hlc])
  push_neg at h1
  exact ⟨h1.1, n_blocks_exact hW hpos h1.1, h1.2⟩

/-- The SSKDF engine on arguments that pass every check: either no library call
fails, the engine returns 1 and `out_key` holds the first `out_len` bytes of the
key stream; or a call fails and the engine returns 0. -/
theorem SSKDF_spec {α : Type} {W : Nat} (hW : W = 32 ∨ W = 64) (variant : SSKDF_VARIANT α)
    (c : SSKDF_VARIANT_CTX α) (buf sec : List Nat) (out_len secret_len : Nat)
    (info : List Nat) (info_len : Nat) (w : World)
    {Inv : Option (SSKDF_VARIANT_CTX α) → Prop} {post : Option (SSKDF_VARIANT_CTX α)}
    {cost : Nat} {blk : Nat → List Nat} {evs : Nat → List Event} {h_len n : Nat}
    (hsize : variant.size (some c) = h_len)
    (hs : StepSpec (sskdf_step variant h_len (some sec) secret_len info info_len)
      Inv post cost blk evs)
    (hinv : Inv (some c)) (hblk : ∀ v, (blk v).length = h_len)
    (hout : 0 < out_len) (ho : out_len < 2 ^ W) (hbuf : out_len ≤ buf.length)
    (hsec : 0 < secret_len) (hpos : 0 < h_len) (hmax : h_len ≤ EVP_MAX_MD_SIZE)
    (hlc : length_check_fails W out_len h_len = false)
    (hic : input_check_fails W secret_len info_len = false)
    (hn : n = (out_len + h_len - 1) / h_len) :
    ((∀ k, k < n * cost → w.fail (w.tick + k) = false) ∧
      SSKDF W variant (some c) (some buf) out_len (some sec) secret_len info info_len w =
        (Outcome.ret 1, post,
          some ((key_stream blk n).take out_len ++ buf.drop out_len),
          w.advance (n * cost) (loop_events evs blk out_len h_len 0 n))) ∨
    (∃ ctx1 out1 w1,
      SSKDF W variant (some c) (some buf) out_len (some sec) secret_len info info_len w =
        (Outcome.ret 0, ctx1, some out1, w1) ∧
      out1.length = buf.length ∧ out1.drop out_len = buf.drop out_len ∧
      ∃ k, k < n * cost ∧ w.fail (w.tick + k) = true) := by
  obtain ⟨hsum, hnb, hn32⟩ := length_check_passes hW ho hpos hmax hlc
  have hic' : input_overflow_guard W secret_len info_len = false ∧
      input_cap_exceeded W secret_len info_len = false := by
    simpa [input_check_fails] using hic
  have hnpos : 0 < n := by
    rw [hn]; exact (ceil_iter_lt hpos).mpr (by simpa using hout)
  have hunf : SSKDF W variant (some c) (some buf) out_len (some sec) secret_len info info_len w =
      match block_loop W (sskdf_step variant h_len (some sec) secret_len info info_len)
          out_len h_len n n 0 0 (w.uninit EVP_MAX_MD_SIZE) (some c) buf w with
      | (o, ctx1, buf1, w1) => (o, ctx1, some buf1, w1) := by
    simp only [SSKDF, hsize, hnb, ← hn, SSKDF_loop_eq]
    simp [hout.ne', hsec.ne', hpos.ne', hmax, hlc, hic'.1, hic'.2]
  have key := block_loop_spec hW hs hpos ho hn (hn ▸ hn32) hblk n 0
    (w.uninit EVP_MAX_MD_SIZE) (some c) buf w (by omega) (by omega) hbuf hinv
  simp only [Nat.zero_mul, Nat.zero_min, Nat.sub_zero, List.take_zero, List.nil_append,
    hnpos, if_true] at key
  rcases key with ⟨h1, h2⟩ | ⟨s1, out1, w1, h2, h3, h4, h5⟩
  · left
    refine ⟨h1, ?_⟩
    rw [hunf, h2, key_stream_eq_blocks_from]
  · right
    exact ⟨s1, out1, w1, by rw [hunf, h2], h3, h4, h5⟩

/-! ## The entry points -/

theorem malloc_fail {w : World} (h : w.fail w.tick = true) :
    w.malloc = (none, w.advance 1 [Event.alloc none]) := by
  simp [World.malloc, h, World.advance]

theorem malloc_ok {w : World} (h : w.fail w.tick = false) :
    w.malloc = (some w.next,
      { w with tick := w.tick + 1, trace := w.trace ++ [Event.alloc (some w.next)],
               next := w.next + 1, live := w.next :: w.live }) := by
  simp [World.malloc, h]

theorem digest_ctx_init_ok (c0 : SSKDF_VARIANT_CTX SSKDF_VARIANT_DIGEST_CTX) (md : EVP_MD)
    (w : World) (h0 : w.fail w.tick = false) (h1 : w.fail (w.tick + 1) = false) :
    SSKDF_VARIANT_DIGEST_CTX_init (some c0) (some md) w =
      (1, digest_ctx_with { addr := w.next, digest := some md, ctx := none }
            { addr := w.next + 1, digest := none, data := [] },
        { w with tick := w.tick + 2,
                 trace := w.trace ++ [Event.alloc (some w.next), Event.alloc (some (w.next + 1))],
                 next := w.next + 2, live := (w.next + 1) :: w.next :: w.live }) := by
  simp only [SSKDF_VARIANT_DIGEST_CTX_init, malloc_ok h0, EVP_MD_CTX_new]
  rw [malloc_ok (by simpa using h1)]
  simp [digest_ctx_with, Nat.add_assoc]

theorem SSKDF_DIGEST_valid {W : Nat} (hW : W = 32 ∨ W = 64) (md : EVP_MD) (buf sec : List Nat)
    (out_len secret_len : Nat) (info : List Nat) (info_len : Nat) (w : World) {n : Nat}
    (hout : 0 < out_len) (ho : out_len < 2 ^ W) (hbuf : out_len ≤ buf.length)
    (hsec : 0 < secret_len) (hpos : 0 < md.md_size)
    (hlc : length_check_fails W out_len md.md_size = false)
    (hic : input_check_fails W secret_len info_len = false)
    (hn : n = (out_len + md.md_size - 1) / md.md_size)
    (ha0 : w.fail w.tick = false) (ha1 : w.fail (w.tick + 1) = false) :
    ((∀ k, k < n * 6 → w.fail (w.tick + 2 + k) = false) ∧
      (SSKDF_DIGEST W (some buf) out_len (some md) (some sec) secret_len info info_len w).1
        = Outcome.ret 1 ∧
      (SSKDF_DIGEST W (some buf) out_len (some md) (some sec) secret_len info info_len w).2.1
        = some ((key_stream (digest_block md (sec.take secret_len) (info.take info_len)) n).take
            out_len ++ buf.drop out_len) ∧
      (SSKDF_DIGEST W (some buf) out_len (some md) (some sec) secret_len info info_len w).2.2.trace
        = w.trace ++ [Event.alloc (some w.next), Event.alloc (some (w.next + 1))] ++
          loop_events (fun v => digest_events (w.next + 1) (CRYPTO_store_u32_be v)
              (sec.take secret_len) (info.take info_len))
            (digest_block md (sec.take secret_len) (info.take info_len)) out_len md.md_size 0 n ++
          [Event.free (w.next + 1), Event.free w.next]) ∨
    ((SSKDF_DIGEST W (some buf) out_len (some md) (some sec) secret_len info info_len w).1
        = Outcome.ret 0 ∧
      (∃ out1,
        (SSKDF_DIGEST W (some buf) out_len (some md) (some sec) secret_len info info_len w).2.1
          = some out1 ∧ out1.length = buf.length ∧ out1.drop out_len = buf.drop out_len) ∧
      ∃ k, k < n * 6 ∧ w.fail (w.tick + 2 + k) = true) := by
  have hspec := SSKDF_spec hW SSKDF_VARIANT_DIGEST
    { data := some { addr := w.next, digest := some md,
                     ctx := some { addr := w.next + 1, digest := none, data := [] } } }
    buf sec out_len secret_len info info_len
    { w with tick := w.tick + 2,
             trace := w.trace ++ [Event.alloc (some w.next), Event.alloc (some (w.next + 1))],
             next := w.next + 2, live := (w.next + 1) :: w.next :: w.live }
    (by simp [SSKDF_VARIANT_DIGEST, sskdf_variant_digest_size, EVP_MD_size] :
      SSKDF_VARIANT_DIGEST.size _ = md.md_size)
    (digest_step_spec md w.next (w.next + 1) md.md_size sec secret_len info info_len)
    ⟨_, rfl, rfl⟩ (fun v => md.hash_length _) hout ho hbuf hsec hpos md.md_size_le hlc hic hn
  unfold SSKDF_DIGEST
  rw [digest_ctx_init_ok _ md w ha0 ha1]
  simp only [digest_ctx_with] at hspec ⊢
  rcases hspec with ⟨h1, h2⟩ | ⟨ctx1, out1, w1, h2, h3, h4, h5⟩
  · left
    rw [h2]
    refine ⟨h1, ?_⟩
    simp [SSKDF_VARIANT_DIGEST_CTX_cleanup, EVP_MD_CTX_free, World.release]
  · right
    rw [h2]
    refine ⟨by simp, ⟨out1, by simp, h3, h4⟩, h5⟩

/-- The engine leaves before the loop, with nothing changed, when an argument
check or a length check fails. -/
theorem SSKDF_early {α : Type} (W : Nat) (variant : SSKDF_VARIANT α) (c : SSKDF_VARIANT_CTX α)
    (out_key : Option (List Nat)) (out_len : Nat) (secret : Option (List Nat))
    (secret_len : Nat) (info : List Nat) (info_len : Nat) (w : World)
    (hbad : out_key = none ∨ secret = none ∨ out_len = 0 ∨ secret_len = 0 ∨
      variant.size (some c) = 0 ∨ length_check_fails W out_len (variant.size (some c)) = true ∨
      input_check_fails W secret_len info_len = true) :
    ((SSKDF W variant (some c) out_key out_len secret secret_len info info_len w).1
        = Outcome.ret 0 ∨
      (¬ variant.size (some c) ≤ EVP_MAX_MD_SIZE ∧
        (SSKDF W variant (some c) out_key out_len secret secret_len info info_len w).1
          = Outcome.aborted)) ∧
    (SSKDF W variant (some c) out_key out_len secret secret_len info info_len w).2
      = (some c, out_key, w) := by
  unfold SSKDF
  cases out_key <;> cases secret <;> simp only [] <;> try simp
  split_ifs <;> simp_all [input_check_fails]

theorem SSKDF_DIGEST_early (W : Nat) (out_key : Option (List Nat)) (out_len : Nat)
    (digest : Option EVP_MD) (secret : Option (List Nat)) (secret_len : Nat) (info : List Nat)
    (info_len : Nat) (w : World)
    (hbad : early_failure W true out_key out_len digest secret secret_len info_len ∨
      w.fail w.tick = true ∨ w.fail (w.tick + 1) = true) :
    (SSKDF_DIGEST W out_key out_len digest secret secret_len info info_len w).1 = Outcome.ret 0 ∧
    (SSKDF_DIGEST W out_key out_len digest secret secret_len info info_len w).2.1 = out_key ∧
    ∃ evs, (SSKDF_DIGEST W out_key out_len digest secret secret_len info info_len w).2.2.trace
        = w.trace ++ evs ∧ ∀ e ∈ evs, Event.block_work e = false := by
  cases digest with
  | none =>
    refine ⟨by simp [SSKDF_DIGEST, SSKDF_VARIANT_DIGEST_CTX_init], by
      simp [SSKDF_DIGEST, SSKDF_VARIANT_DIGEST_CTX_init], [], by
      simp [SSKDF_DIGEST, SSKDF_VARIANT_DIGEST_CTX_init, EVP_MD_CTX_free, World.release], by simp⟩
  | some md =>
    cases h0 : w.fail w.tick
    swap
    · refine ⟨?_, ?_, [Event.alloc none], ?_, by simp [Event.block_work]⟩ <;>
        simp [SSKDF_DIGEST, SSKDF_VARIANT_DIGEST_CTX_init, malloc_fail h0, EVP_MD_CTX_free,
          World.release]
    cases h1 : w.fail (w.tick + 1)
    swap
    · refine ⟨?_, ?_, [Event.alloc (some w.next), Event.alloc none, Event.free w.next], ?_,
        by simp [Event.block_work]⟩ <;>
      · simp only [SSKDF_DIGEST, SSKDF_VARIANT_DIGEST_CTX_init, malloc_ok h0, EVP_MD_CTX_new]
        rw [malloc_fail (by simpa using h1)]
        try simp [EVP_MD_CTX_free, World.release]
    have hbad' : out_key = none ∨ secret = none ∨ out_len = 0 ∨ secret_len = 0 ∨
        md.md_size = 0 ∨ length_check_fails W out_len md.md_size = true ∨
        input_check_fails W secret_len info_len = true := by
      simp only [early_failure, h0, h1] at hbad
      simp at hbad
      tauto
    have he := SSKDF_early W SSKDF_VARIANT_DIGEST
      { data := some { addr := w.next, digest := some md,
                       ctx := some { addr := w.next + 1, digest := none, data := [] } } }
      out_key out_len secret secret_len info info_len
      { w with tick := w.tick + 2,
               trace := w.trace ++ [Event.alloc (some w.next), Event.alloc (some (w.next + 1))],
               next := w.next + 2, live := (w.next + 1) :: w.next :: w.live }
      (by simpa [SSKDF_VARIANT_DIGEST, sskdf_variant_digest_size, EVP_MD_size] using hbad')
    obtain ⟨he1, he2⟩ := he
    have hle : SSKDF_VARIANT_DIGEST.size (some
        { data := some { addr := w.next, digest := some md,
                         ctx := some { addr := w.next + 1, digest := none, data := [] } } })
        ≤ EVP_MAX_MD_SIZE := by
      simpa [SSKDF_VARIANT_DIGEST, sskdf_variant_digest_size, EVP_MD_size] using md.md_size_le
    have he1' := he1.resolve_right (fun h => h.1 hle)
    unfold SSKDF_DIGEST
    rw [digest_ctx_init_ok _ md w h0 h1]
    simp only [digest_ctx_with]
    generalize SSKDF W SSKDF_VARIANT_DIGEST _ out_key out_len secret secret_len info info_len _
      = r at he1' he2
    obtain ⟨o, ctx2, out2, w2⟩ := r
    simp only at he1' he2
    simp only [Prod.mk.injEq] at he2
    obtain ⟨rfl, rfl, rfl⟩ := he2
    subst he1'
    refine ⟨by simp, by simp, [Event.alloc (some w.next), Event.alloc (some (w.next + 1)),
      Event.free (w.next + 1), Event.free w.next], ?_, by simp [Event.block_work]⟩
    simp [SSKDF_VARIANT_DIGEST_CTX_cleanup, EVP_MD_CTX_free, World.release]

theorem hmac_ctx_init_ok (c0 : SSKDF_VARIANT_CTX SSKDF_VARIANT_HMAC_CTX) (md : EVP_MD)
    (salt : List Nat) (salt_len : Nat) (w : World) (h0 : w.fail w.tick = false)
    (h1 : w.fail (w.tick + 1) = false) (h2 : w.fail (w.tick + 2) = false) :
    SSKDF_VARIANT_HMAC_CTX_init (some c0) (some md) salt salt_len w =
      (1, hmac_ctx_with { addr := w.next, ctx := none }
            { addr := w.next + 1, md := some md, key := salt.take salt_len, data := [] },
        { w with tick := w.tick + 3,
                 trace := w.trace ++ [Event.alloc (some w.next), Event.alloc (some (w.next + 1)),
                   Event.HMAC_Init_ex (w.next + 1) (some (salt.take salt_len)) true],
                 next := w.next + 2, live := (w.next + 1) :: w.next :: w.live }) := by
  simp only [SSKDF_VARIANT_HMAC_CTX_init, malloc_ok h0, HMAC_CTX_new]
  rw [malloc_ok (by simpa using h1)]
  simp only []
  rw [hmac_init_key_ok (by simpa using h2)]
  simp [hmac_ctx_with, World.advance, Nat.add_assoc]

theorem SSKDF_HMAC_valid {W : Nat} (hW : W = 32 ∨ W = 64) (md : EVP_MD) (buf sec : List Nat)
    (out_len secret_len : Nat) (info : List Nat) (info_len : Nat) (salt : List Nat)
    (salt_len : Nat) (w : World) {n : Nat}
    (hout : 0 < out_len) (ho : out_len < 2 ^ W) (hbuf : out_len ≤ buf.length)
    (hsec : 0 < secret_len) (hpos : 0 < md.md_size)
    (hlc : length_check_fails W out_len md.md_size = false)
    (hic : input_check_fails W secret_len info_len = false)
    (hn : n = (out_len + md.md_size - 1) / md.md_size)
    (ha0 : w.fail w.tick = false) (ha1 : w.fail (w.tick + 1) = false)
    (ha2 : w.fail (w.tick + 2) = false) :
    ((∀ k, k < n * 5 → w.fail (w.tick + 3 + k) = false) ∧
      (SSKDF_HMAC W (some buf) out_len (some md) (some sec) secret_len info info_len
        salt salt_len w).1 = Outcome.ret 1 ∧
      (SSKDF_HMAC W (some buf) out_len (some md) (some sec) secret_len info info_len
        salt salt_len w).2.1
        = some ((key_stream (hmac_block md (salt.take salt_len) (sec.take secret_len)
            (info.take info_len)) n).take out_len ++ buf.drop out_len) ∧
      (SSKDF_HMAC W (some buf) out_len (some md) (some sec) secret_len info info_len
        salt salt_len w).2.2.trace
        = w.trace ++ [Event.alloc (some w.next), Event.alloc (some (w.next + 1)),
            Event.HMAC_Init_ex (w.next + 1) (some (salt.take salt_len)) true] ++
          loop_events (fun v => hmac_events (w.next + 1) (CRYPTO_store_u32_be v)
              (sec.take secret_len) (info.take info_len))
            (hmac_block md (salt.take salt_len) (sec.take secret_len) (info.take info_len))
            out_len md.md_size 0 n ++
          [Event.free (w.next + 1), Event.free w.next]) ∨
    ((SSKDF_HMAC W (some buf) out_len (some md) (some sec) secret_len info info_len
        salt salt_len w).1 = Outcome.ret 0 ∧
      (∃ out1,
        (SSKDF_HMAC W (some buf) out_len (some md) (some sec) secret_len info info_len
          salt salt_len w).2.1
          = some out1 ∧ out1.length = buf.length ∧ out1.drop out_len = buf.drop out_len) ∧
      ∃ k, k < n * 5 ∧ w.fail (w.tick + 3 + k) = true) := by
  have hspec := SSKDF_spec hW SSKDF_VARIANT_HMAC
    { data := some { addr := w.next,
                     ctx := some { addr := w.next + 1, md := some md,
                                   key := salt.take salt_len, data := [] } } }
    buf sec out_len secret_len info info_len
    { w with tick := w.tick + 3,
             trace := w.trace ++ [Event.alloc (some w.next), Event.alloc (some (w.next + 1)),
               Event.HMAC_Init_ex (w.next + 1) (some (salt.take salt_len)) true],
             next := w.next + 2, live := (w.next + 1) :: w.next :: w.live }
    (by simp [SSKDF_VARIANT_HMAC, sskdf_variant_hmac_size, HMAC_size, EVP_MD_size] :
      SSKDF_VARIANT_HMAC.size _ = md.md_size)
    (hmac_step_spec md w.next (w.next + 1) (salt.take salt_len) md.md_size sec secret_len
      info info_len)
    ⟨_, rfl⟩ (fun v => md.hmac_length _ _) hout ho hbuf hsec hpos md.md_size_le hlc hic hn
  unfold SSKDF_HMAC
  rw [hmac_ctx_init_ok _ md salt salt_len w ha0 ha1 ha2]
  simp only [hmac_ctx_with] at hspec ⊢
  rcases hspec with ⟨h1, h2⟩ | ⟨ctx1, out1, w1, h2, h3, h4, h5⟩
  · left
    rw [h2]
    refine ⟨h1, ?_⟩
    simp [SSKDF_VARIANT_HMAC_CTX_cleanup, HMAC_CTX_free, World.release]
  · right
    rw [h2]
    refine ⟨by simp, ⟨out1, by simp, h3, h4⟩, h5⟩

theorem SSKDF_HMAC_early (W : Nat) (out_key : Option (List Nat)) (out_len : Nat)
    (digest : Option EVP_MD) (secret : Option (List Nat)) (secret_len : Nat) (info : List Nat)
    (info_len : Nat) (salt : List Nat) (salt_len : Nat) (w : World)
    (hbad : early_failure W true out_key out_len digest secret secret_len info_len ∨
      w.fail w.tick = true ∨ w.fail (w.tick + 1) = true ∨ w.fail (w.tick + 2) = true) :
    (SSKDF_HMAC W out_key out_len digest secret secret_len info info_len salt salt_len w).1
      = Outcome.ret 0 ∧
    (SSKDF_HMAC W out_key out_len digest secret secret_len info info_len salt salt_len w).2.1
      = out_key ∧
    ∃ evs, (SSKDF_HMAC W out_key out_len digest secret secret_len info info_len salt salt_len
        w).2.2.trace = w.trace ++ evs ∧ ∀ e ∈ evs, Event.block_work e = false := by
  cases digest with
  | none =>
    refine ⟨by simp [SSKDF_HMAC, SSKDF_VARIANT_HMAC_CTX_init], by
      simp [SSKDF_HMAC, SSKDF_VARIANT_HMAC_CTX_init], [], by
      simp [SSKDF_HMAC, SSKDF_VARIANT_HMAC_CTX_init, HMAC_CTX_free, World.release], by simp⟩
  | some md =>
    cases h0 : w.fail w.tick
    swap
    · refine ⟨?_, ?_, [Event.alloc none], ?_, by simp [Event.block_work]⟩ <;>
        simp [SSKDF_HMAC, SSKDF_VARIANT_HMAC_CTX_init, malloc_fail h0, HMAC_CTX_free,
          World.release]
    cases h1 : w.fail (w.tick + 1)
    swap
    · refine ⟨?_, ?_, [Event.alloc (some w.next), Event.alloc none, Event.free w.next], ?_,
        by simp [Event.block_work]⟩ <;>
      · simp only [SSKDF_HMAC, SSKDF_VARIANT_HMAC_CTX_init, malloc_ok h0, HMAC_CTX_new]
        rw [malloc_fail (by simpa using h1)]
        try simp [HMAC_CTX_free, World.release]
    cases h2 : w.fail (w.tick + 2)
    swap
    · refine ⟨?_, ?_, [Event.alloc (some w.next), Event.alloc (some (w.next + 1)),
          Event.HMAC_Init_ex (w.next + 1) (some (salt.take salt_len)) true,
          Event.free (w.next + 1), Event.free w.next], ?_,
        by simp [Event.block_work]⟩ <;>
      · simp only [SSKDF_HMAC, SSKDF_VARIANT_HMAC_CTX_init, malloc_ok h0, HMAC_CTX_new]
        rw [malloc_ok (by simpa using h1)]
        simp only []
        rw [hmac_init_fail (by simpa using h2)]
        try simp [HMAC_CTX_free, World.release]
    have hbad' : out_key = none ∨ secret = none ∨ out_len = 0 ∨ secret_len = 0 ∨
        md.md_size = 0 ∨ length_check_fails W out_len md.md_size = true ∨
        input_check_fails W secret_len info_len = true := by
      simp only [early_failure, h0, h1, h2] at hbad
      simp at hbad
      tauto
    have he := SSKDF_early W SSKDF_VARIANT_HMAC
      { data := some { addr := w.next,
                       ctx := some { addr := w.next + 1, md := some md,
                                     key := salt.take salt_len, data := [] } } }
      out_key out_len secret secret_len info info_len
      { w with tick := w.tick + 3,
               trace := w.trace ++ [Event.alloc (some w.next), Event.alloc (some (w.next + 1)),
                 Event.HMAC_Init_ex (w.next + 1) (some (salt.take salt_len)) true],
               next := w.next + 2, live := (w.next + 1) :: w.next :: w.live }
      (by simpa [SSKDF_VARIANT_HMAC, sskdf_variant_hmac_size, HMAC_size, EVP_MD_size] using hbad')
    obtain ⟨he1, he2⟩ := he
    have hle : SSKDF_VARIANT_HMAC.size (some
        { data := some { addr := w.next,
                         ctx := some { addr := w.next + 1, md := some md,
                                       key := salt.take salt_len, data := [] } } })
        ≤ EVP_MAX_MD_SIZE := by
      simpa [SSKDF_VARIANT_HMAC, sskdf_variant_hmac_size, HMAC_size, EVP_MD_size]
        using md.md_size_le
    have he1' := he1.resolve_right (fun h => h.1 hle)
    unfold SSKDF_HMAC
    rw [hmac_ctx_init_ok _ md salt salt_len w h0 h1 h2]
    simp only [hmac_ctx_with]
    generalize SSKDF W SSKDF_VARIANT_HMAC _ out_key out_len secret secret_len info info_len _
      = r at he1' he2
    obtain ⟨o, ctx2, out2, w2⟩ := r
    simp only at he1' he2
    simp only [Prod.mk.injEq] at he2
    obtain ⟨rfl, rfl, rfl⟩ := he2
    subst he1'
    refine ⟨by simp, by simp, [Event.alloc (some w.next), Event.alloc (some (w.next + 1)),
      Event.HMAC_Init_ex (w.next + 1) (some (salt.take salt_len)) true,
      Event.free (w.next + 1), Event.free w.next], ?_, by simp [Event.block_work]⟩
    simp [SSKDF_VARIANT_HMAC_CTX_cleanup, HMAC_CTX_free, World.release]

theorem KBKDF_CTR_valid {W : Nat} (hW : W = 32 ∨ W = 64) (md : EVP_MD) (buf sec : List Nat)
    (out_len secret_len : Nat) (info : List Nat) (info_len : Nat) (w : World) {n : Nat}
    (hout : 0 < out_len) (ho : out_len < 2 ^ W) (hbuf : out_len ≤ buf.length)
    (hsec : 0 < secret_len) (hpos : 0 < md.md_size)
    (hlc : length_check_fails W out_len md.md_size = false)
    (hn : n = (out_len + md.md_size - 1) / md.md_size)
    (ha0 : w.fail w.tick = false) (ha1 : w.fail (w.tick + 1) = false) :
    ((∀ k, k < n * 4 → w.fail (w.tick + 2 + k) = false) ∧
      (KBKDF_CTR W (some buf) out_len (some md) (some sec) secret_len info info_len w).1
        = Outcome.ret 1 ∧
      (KBKDF_CTR W (some buf) out_len (some md) (some sec) secret_len info info_len w).2.1
        = some ((key_stream (kbkdf_block md (sec.take secret_len) (info.take info_len)) n).take
            out_len ++ buf.drop out_len) ∧
      (KBKDF_CTR W (some buf) out_len (some md) (some sec) secret_len info info_len w).2.2.trace
        = w.trace ++ [Event.alloc (some w.next),
            Event.HMAC_Init_ex w.next (some (sec.take secret_len)) true] ++
          loop_events (fun v => kbkdf_events w.next (CRYPTO_store_u32_be v) (info.take info_len))
            (kbkdf_block md (sec.take secret_len) (info.take info_len)) out_len md.md_size 0 n ++
          [Event.free w.next]) ∨
    ((KBKDF_CTR W (some buf) out_len (some md) (some sec) secret_len info info_len w).1
        = Outcome.ret 0 ∧
      (∃ out1,
        (KBKDF_CTR W (some buf) out_len (some md) (some sec) secret_len info info_len w).2.1
          = some out1 ∧ out1.length = buf.length ∧ out1.drop out_len = buf.drop out_len) ∧
      ∃ k, k < n * 4 ∧ w.fail (w.tick + 2 + k) = true) := by
  obtain ⟨hsum, hnb, hn32⟩ := length_check_passes hW ho hpos md.md_size_le hlc
  have hnpos : 0 < n := by
    rw [hn]; exact (ceil_iter_lt hpos).mpr (by simpa using hout)
  have key := block_loop_spec hW
    (kbkdf_step_spec md w.next (sec.take secret_len) info info_len) hpos ho hn (hn ▸ hn32)
    (fun v => md.hmac_length _ _) n 0
    (World.uninit
      { w with tick := w.tick + 2,
               trace := w.trace ++ [Event.alloc (some w.next),
                 Event.HMAC_Init_ex w.next (some (sec.take secret_len)) true],
               next := w.next + 1, live := w.next :: w.live } EVP_MAX_MD_SIZE)
    { addr := w.next, md := some md, key := sec.take secret_len, data := [] } buf
    { w with tick := w.tick + 2,
             trace := w.trace ++ [Event.alloc (some w.next),
               Event.HMAC_Init_ex w.next (some (sec.take secret_len)) true],
             next := w.next + 1, live := w.next :: w.live }
    (by omega) (by omega) hbuf ⟨_, rfl⟩
  simp only [Nat.zero_mul, Nat.zero_min, Nat.sub_zero, List.take_zero, List.nil_append,
    hnpos, if_true] at key
  have hunf : KBKDF_CTR W (some buf) out_len (some md) (some sec) secret_len info info_len w =
      match block_loop W (kbkdf_step info info_len) out_len md.md_size n n 0 0
          (World.uninit
            { w with tick := w.tick + 2,
                     trace := w.trace ++ [Event.alloc (some w.next),
                       Event.HMAC_Init_ex w.next (some (sec.take secret_len)) true],
                     next := w.next + 1, live := w.next :: w.live } EVP_MAX_MD_SIZE)
          { addr := w.next, md := some md, key := sec.take secret_len, data := [] } buf
          { w with tick := w.tick + 2,
                   trace := w.trace ++ [Event.alloc (some w.next),
                     Event.HMAC_Init_ex w.next (some (sec.take secret_len)) true],
                   next := w.next + 1, live := w.next :: w.live } with
      | (Outcome.ret r, m2, buf1, w3) => (Outcome.ret r, some buf1, HMAC_CTX_free (some m2) w3)
      | (o, _, buf1, w3) => (o, some buf1, w3) := by
    simp only [KBKDF_CTR, HMAC_CTX_new, malloc_ok ha0]
    rw [hmac_init_key_ok (by simpa using ha1)]
    simp only [HMAC_size, EVP_MD_size, hnb, ← hn, KBKDF_loop_eq]
    simp only [hout.ne', hsec.ne', hpos.ne', hlc, World.advance, Nat.add_assoc, or_self,
      if_false, List.append_assoc, List.singleton_append, Bool.false_eq_true, Nat.reduceAdd]
    generalize block_loop W (kbkdf_step info info_len) out_len md.md_size n n 0 0 _ _ buf _ = r
    obtain ⟨o, m2, b, w3⟩ := r
    cases o <;> rfl
  rcases key with ⟨h1, h2⟩ | ⟨s1, out1, w1, h2, h3, h4, h5⟩
  · left
    refine ⟨h1, ?_⟩
    rw [hunf, h2, key_stream_eq_blocks_from]
    simp [HMAC_CTX_free, World.release]
  · right
    rw [hunf, h2]
    exact ⟨by simp, ⟨out1, by simp, h3, h4⟩, h5⟩

theorem KBKDF_CTR_early (W : Nat) (out_key : Option (List Nat)) (out_len : Nat)
    (digest : Option EVP_MD) (secret : Option (List Nat)) (secret_len : Nat) (info : List Nat)
    (info_len : Nat) (w : World)
    (hbad : early_failure W false out_key out_len digest secret secret_len info_len ∨
      w.fail w.tick = true ∨ w.fail (w.tick + 1) = true) :
    (KBKDF_CTR W out_key out_len digest secret secret_len info info_len w).1 = Outcome.ret 0 ∧
    (KBKDF_CTR W out_key out_len digest secret secret_len info info_len w).2.1 = out_key ∧
    ∃ evs, (KBKDF_CTR W out_key out_len digest secret secret_len info info_len w).2.2.trace
        = w.trace ++ evs ∧ ∀ e ∈ evs, Event.block_work e = false := by
  rcases out_key with _ | buf
  · exact ⟨by simp [KBKDF_CTR], by simp [KBKDF_CTR], [], by
      simp [KBKDF_CTR, HMAC_CTX_free, World.release], by simp⟩
  rcases secret with _ | sec
  · exact ⟨by simp [KBKDF_CTR], by simp [KBKDF_CTR], [], by
      simp [KBKDF_CTR, HMAC_CTX_free, World.release], by simp⟩
  by_cases hz : out_len = 0 ∨ secret_len = 0
  · exact ⟨by simp [KBKDF_CTR, hz], by simp [KBKDF_CTR, hz], [], by
      simp [KBKDF_CTR, hz, HMAC_CTX_free, World.release], by simp⟩
  cases h0 : w.fail w.tick
  swap
  · refine ⟨?_, ?_, [Event.alloc none], ?_, by simp [Event.block_work]⟩ <;>
      simp [KBKDF_CTR, hz, HMAC_CTX_new, malloc_fail h0, HMAC_CTX_free, World.release]
  cases h1 : w.fail (w.tick + 1)
  swap
  · refine ⟨?_, ?_, [Event.alloc (some w.next),
        Event.HMAC_Init_ex w.next (some (sec.take secret_len)) digest.isSome,
        Event.free w.next], ?_, by simp [Event.block_work]⟩ <;>
    · simp only [KBKDF_CTR, hz, if_false, HMAC_CTX_new, malloc_ok h0]
      rw [hmac_init_fail (by simpa using h1)]
      try simp [HMAC_CTX_free, World.release]
  rcases digest with _ | md
  · refine ⟨?_, ?_, [Event.alloc (some w.next),
        Event.HMAC_Init_ex w.next (some (sec.take secret_len)) false,
        Event.free w.next], ?_, by simp [Event.block_work]⟩ <;>
      simp [KBKDF_CTR, hz, HMAC_CTX_new, malloc_ok h0, HMAC_Init_ex, call_eq, h1,
        HMAC_CTX_free, World.release]
  have hbad' : md.md_size = 0 ∨ length_check_fails W out_len md.md_size = true := by
    simp only [early_failure, h0, h1] at hbad
    simp at hbad
    tauto
  refine ⟨?_, ?_, [Event.alloc (some w.next),
      Event.HMAC_Init_ex w.next (some (sec.take secret_len)) true,
      Event.free w.next], ?_, by simp [Event.block_work]⟩ <;>
  · simp only [KBKDF_CTR, hz, if_false, HMAC_CTX_new, malloc_ok h0]
    rw [hmac_init_key_ok (by simpa using h1)]
    simp only [HMAC_size, EVP_MD_size]
    rcases hbad' with hb | hb
    · simp [hb, HMAC_CTX_free, World.release]
    · by_cases hsz : md.md_size = 0
      · simp [hsz, HMAC_CTX_free, World.release]
      · simp [hb, hsz, HMAC_CTX_free, World.release]

theorem not_early_failure {W : Nat} {b : Bool} {out_key : Option (List Nat)} {out_len : Nat}
    {digest : Option EVP_MD} {secret : Option (List Nat)} {secret_len info_len : Nat}
    (h : ¬ early_failure W b out_key out_len digest secret secret_len info_len) :
    ∃ buf md sec, out_key = some buf ∧ digest = some md ∧ secret = some sec ∧
      0 < out_len ∧ 0 < secret_len ∧ 0 < md.md_size ∧
      length_check_fails W out_len md.md_size = false ∧
      (b = true → input_check_fails W secret_len info_len = false) := by
  unfold early_failure at h
  push_neg at h
  obtain ⟨h1, h2, h3, h4, h5, h6⟩ := h
  obtain ⟨buf, rfl⟩ := Option.ne_none_iff_exists'.mp h1
  obtain ⟨sec, rfl⟩ := Option.ne_none_iff_exists'.mp h2
  obtain ⟨md, rfl⟩ := Option.ne_none_iff_exists'.mp h5
  obtain ⟨h7, h8, h9⟩ := h6 md rfl
  refine ⟨buf, md, sec, rfl, rfl, rfl, by omega, by omega, by omega, by simpa using h8, ?_⟩
  intro hb
  simpa using h9 hb

theorem key_stream_length {block : Nat → List Nat} {h_len : Nat}
    (hblk : ∀ i, (block i).length = h_len) (n : Nat) :
    (key_stream block n).length = n * h_len := by
  induction n with
  | zero => simp [key_stream]
  | succ n ih => simp [key_stream, ih, hblk, Nat.add_mul]

/-- The result `take out_len (key stream) ++ rest` is a truncated key stream. -/
theorem truncated_stream_intro {block : Nat → List Nat} {h_len out_len n : Nat}
    (rest : List Nat) (hblk : ∀ i, (block i).length = h_len) (hpos : 0 < h_len)
    (hout : 0 < out_len) (hn : n = (out_len + h_len - 1) / h_len) :
    is_truncated_stream block h_len out_len ((key_stream block n).take out_len ++ rest) := by
  have hceil : ⌈(out_len : ℚ) / (h_len : ℚ)⌉₊ = n := by rw [hn]; exact ceil_div_eq _ _ hpos
  have hnpos : 0 < n := by rw [hn]; exact (ceil_iter_lt hpos).mpr (by simpa using hout)
  have hlo : (n - 1) * h_len < out_len :=
    (ceil_iter_lt hpos).mp (by rw [← hn]; omega)
  have hhi : out_len ≤ n * h_len := by
    have := (@ceil_iter_lt out_len h_len n hpos).not.mp (by omega)
    omega
  have htake : (((key_stream block n).take out_len) ++ rest).take out_len =
      (key_stream block n).take out_len := by
    rw [List.take_append_of_le_length (by simp [key_stream_length hblk]; omega), List.take_take]
    simp
  unfold is_truncated_stream
  rw [hceil, htake]
  refine ⟨hblk, rfl, ?_⟩
  obtain ⟨m, rfl⟩ : ∃ m, n = m + 1 := ⟨n - 1, by omega⟩
  simp only [Nat.add_sub_cancel] at hlo ⊢
  rw [key_stream, List.take_append_eq_append_take, key_stream_length hblk,
    List.take_of_length_le (by rw [key_stream_length hblk]; omega)]

theorem SSKDF_DIGEST_ret1 {W : Nat} {out_key : Option (List Nat)} {out_len : Nat}
    {digest : Option EVP_MD} {secret : Option (List Nat)} {secret_len : Nat} {info : List Nat}
    {info_len : Nat} {w : World}
    (h : (SSKDF_DIGEST W out_key out_len digest secret secret_len info info_len w).1
      = Outcome.ret 1) :
    ∃ buf md sec, out_key = some buf ∧ digest = some md ∧ secret = some sec ∧
      0 < out_len ∧ 0 < secret_len ∧ 0 < md.md_size ∧
      length_check_fails W out_len md.md_size = false ∧
      input_check_fails W secret_len info_len = false ∧
      w.fail w.tick = false ∧ w.fail (w.tick + 1) = false := by
  have hE := SSKDF_DIGEST_early W out_key out_len digest secret secret_len info info_len w
  by_cases hb : early_failure W true out_key out_len digest secret secret_len info_len ∨
      w.fail w.tick = true ∨ w.fail (w.tick + 1) = true
  · rw [(hE hb).1] at h; cases h
  · push_neg at hb
    obtain ⟨buf, md, sec, h1, h2, h3, h4, h5, h6, h7, h8⟩ := not_early_failure hb.1
    exact ⟨buf, md, sec, h1, h2, h3, h4, h5, h6, h7, h8 rfl, by simpa using hb.2.1,
      by simpa using hb.2.2⟩

theorem SSKDF_HMAC_ret1 {W : Nat} {out_key : Option (List Nat)} {out_len : Nat}
    {digest : Option EVP_MD} {secret : Option (List Nat)} {secret_len : Nat} {info : List Nat}
    {info_len : Nat} {salt : List Nat} {salt_len : Nat} {w : World}
    (h : (SSKDF_HMAC W out_key out_len digest secret secret_len info info_len salt salt_len w).1
      = Outcome.ret 1) :
    ∃ buf md sec, out_key = some buf ∧ digest = some md ∧ secret = some sec ∧
      0 < out_len ∧ 0 < secret_len ∧ 0 < md.md_size ∧
      length_check_fails W out_len md.md_size = false ∧
      input_check_fails W secret_len info_len = false ∧
      w.fail w.tick = false ∧ w.fail (w.tick + 1) = false ∧ w.fail (w.tick + 2) = false := by
  have hE := SSKDF_HMAC_early W out_key out_len digest secret secret_len info info_len
    salt salt_len w
  by_cases hb : early_failure W true out_key out_len digest secret secret_len info_len ∨
      w.fail w.tick = true ∨ w.fail (w.tick + 1) = true ∨ w.fail (w.tick + 2) = true
  · rw [(hE hb).1] at h; cases h
  · push_neg at hb
    obtain ⟨buf, md, sec, h1, h2, h3, h4, h5, h6, h7, h8⟩ := not_early_failure hb.1
    exact ⟨buf, md, sec, h1, h2, h3, h4, h5, h6, h7, h8 rfl, by simpa using hb.2.1,
      by simpa using hb.2.2.1, by simpa using hb.2.2.2⟩

theorem KBKDF_CTR_ret1 {W : Nat} {out_key : Option (List Nat)} {out_len : Nat}
    {digest : Option EVP_MD} {secret : Option (List Nat)} {secret_len : Nat} {info : List Nat}
    {info_len : Nat} {w : World}
    (h : (KBKDF_CTR W out_key out_len digest secret secret_len info info_len w).1
      = Outcome.ret 1) :
    ∃ buf md sec, out_key = some buf ∧ digest = some md ∧ secret = some sec ∧
      0 < out_len ∧ 0 < secret_len ∧ 0 < md.md_size ∧
      length_check_fails W out_len md.md_size = false ∧
      w.fail w.tick = false ∧ w.fail (w.tick + 1) = false := by
  have hE := KBKDF_CTR_early W out_key out_len digest secret secret_len info info_len w
  by_cases hb : early_failure W false out_key out_len digest secret secret_len info_len ∨
      w.fail w.tick = true ∨ w.fail (w.tick + 1) = true
  · rw [(hE hb).1] at h; cases h
  · push_neg at hb
    obtain ⟨buf, md, sec, h1, h2, h3, h4, h5, h6, h7, _⟩ := not_early_failure hb.1
    exact ⟨buf, md, sec, h1, h2, h3, h4, h5, h6, h7, by simpa using hb.2.1,
      by simpa using hb.2.2⟩

theorem SSKDF_DIGEST_success {W : Nat} (hW : W = 32 ∨ W = 64) {buf : List Nat} {out_len : Nat}
    (ho : out_len < 2 ^ W) (hbuf : out_len ≤ buf.length) {md : EVP_MD} {sec : List Nat}
    {secret_len : Nat} {info : List Nat} {info_len : Nat} {w : World}
    (h : (SSKDF_DIGEST W (some buf) out_len (some md) (some sec) secret_len info info_len w).1
      = Outcome.ret 1) :
    0 < out_len ∧ 0 < md.md_size ∧
    (SSKDF_DIGEST W (some buf) out_len (some md) (some sec) secret_len info info_len w).2.1
      = some ((key_stream (digest_block md (sec.take secret_len) (info.take info_len))
          ((out_len + md.md_size - 1) / md.md_size)).take out_len ++ buf.drop out_len) ∧
    (SSKDF_DIGEST W (some buf) out_len (some md) (some sec) secret_len info info_len w).2.2.trace
      = w.trace ++ [Event.alloc (some w.next), Event.alloc (some (w.next + 1))] ++
        loop_events (fun v => digest_events (w.next + 1) (CRYPTO_store_u32_be v)
            (sec.take secret_len) (info.take info_len))
          (digest_block md (sec.take secret_len) (info.take info_len)) out_len md.md_size 0
          ((out_len + md.md_size - 1) / md.md_size) ++
        [Event.free (w.next + 1), Event.free w.next] := by
  obtain ⟨buf', md', sec', h1, h2, h3, h4, h5, h6, h7, h8, h9, h10⟩ := SSKDF_DIGEST_ret1 h
  cases h2
  rcases SSKDF_DIGEST_valid hW md buf sec out_len secret_len info info_len w h4 ho hbuf h5 h6
    h7 h8 rfl h9 h10 with ⟨_, _, hout, htr⟩ | ⟨hr, _⟩
  · exact ⟨h4, h6, hout, htr⟩
  · rw [hr] at h; cases h

theorem SSKDF_HMAC_success {W : Nat} (hW : W = 32 ∨ W = 64) {buf : List Nat} {out_len : Nat}
    (ho : out_len < 2 ^ W) (hbuf : out_len ≤ buf.length) {md : EVP_MD} {sec : List Nat}
    {secret_len : Nat} {info : List Nat} {info_len : Nat} {salt : List Nat} {salt_len : Nat}
    {w : World}
    (h : (SSKDF_HMAC W (some buf) out_len (some md) (some sec) secret_len info info_len
      salt salt_len w).1 = Outcome.ret 1) :
    0 < out_len ∧ 0 < md.md_size ∧
    (SSKDF_HMAC W (some buf) out_len (some md) (some sec) secret_len info info_len
        salt salt_len w).2.1
      = some ((key_stream (hmac_block md (salt.take salt_len) (sec.take secret_len)
          (info.take info_len)) ((out_len + md.md_size - 1) / md.md_size)).take out_len ++
          buf.drop out_len) ∧
    (SSKDF_HMAC W (some buf) out_len (some md) (some sec) secret_len info info_len
        salt salt_len w).2.2.trace
      = w.trace ++ [Event.alloc (some w.next), Event.alloc (some (w.next + 1)),
          Event.HMAC_Init_ex (w.next + 1) (some (salt.take salt_len)) true] ++
        loop_events (fun v => hmac_events (w.next + 1) (CRYPTO_store_u32_be v)
            (sec.take secret_len) (info.take info_len))
          (hmac_block md (salt.take salt_len) (sec.take secret_len) (info.take info_len))
          out_len md.md_size 0 ((out_len + md.md_size - 1) / md.md_size) ++
        [Event.free (w.next + 1), Event.free w.next] := by
  obtain ⟨buf', md', sec', h1, h2, h3, h4, h5, h6, h7, h8, h9, h10, h11⟩ := SSKDF_HMAC_ret1 h
  cases h2
  rcases SSKDF_HMAC_valid hW md buf sec out_len secret_len info info_len salt salt_len w
    h4 ho hbuf h5 h6 h7 h8 rfl h9 h10 h11 with ⟨_, _, hout, htr⟩ | ⟨hr, _⟩
  · exact ⟨h4, h6, hout, htr⟩
  · rw [hr] at h; cases h

theorem KBKDF_CTR_success {W : Nat} (hW : W = 32 ∨ W = 64) {buf : List Nat} {out_len : Nat}
    (ho : out_len < 2 ^ W) (hbuf : out_len ≤ buf.length) {md : EVP_MD} {sec : List Nat}
    {secret_len : Nat} {info : List Nat} {info_len : Nat} {w : World}
    (h : (KBKDF_CTR W (some buf) out_len (some md) (some sec) secret_len info info_len w).1
      = Outcome.ret 1) :
    0 < out_len ∧ 0 < md.md_size ∧
    (KBKDF_CTR W (some buf) out_len (some md) (some sec) secret_len info info_len w).2.1
      = some ((key_stream (kbkdf_block md (sec.take secret_len) (info.take info_len))
          ((out_len + md.md_size - 1) / md.md_size)).take out_len ++ buf.drop out_len) ∧
    (KBKDF_CTR W (some buf) out_len (some md) (some sec) secret_len info info_len w).2.2.trace
      = w.trace ++ [Event.alloc (some w.next),
          Event.HMAC_Init_ex w.next (some (sec.take secret_len)) true] ++
        loop_events (fun v => kbkdf_events w.next (CRYPTO_store_u32_be v) (info.take info_len))
          (kbkdf_block md (sec.take secret_len) (info.take info_len)) out_len md.md_size 0
          ((out_len + md.md_size - 1) / md.md_size) ++
        [Event.free w.next] := by
  obtain ⟨buf', md', sec', h1, h2, h3, h4, h5, h6, h7, h9, h10⟩ := KBKDF_CTR_ret1 h
  cases h2
  rcases KBKDF_CTR_valid hW md buf sec out_len secret_len info info_len w h4 ho hbuf h5 h6
    h7 rfl h9 h10 with ⟨_, _, hout, htr⟩ | ⟨hr, _⟩
  · exact ⟨h4, h6, hout, htr⟩
  · rw [hr] at h; cases h

theorem two_pow_gt {W : Nat} (hW : W = 32 ∨ W = 64) {x : Nat} (hx : x ≤ UINT32_MAX) :
    x < 2 ^ W := by
  rcases two_pow_cases hW with h | h <;> simp only [UINT32_MAX] at hx <;> omega

theorem hmac_ctx_init_cases (c0 : SSKDF_VARIANT_CTX SSKDF_VARIANT_HMAC_CTX) (md : EVP_MD)
    (salt : List Nat) (salt_len : Nat) (w : World) :
    (SSKDF_VARIANT_HMAC_CTX_init (some c0) (some md) salt salt_len w).1 = 0 ∨
    SSKDF_VARIANT_HMAC_CTX_init (some c0) (some md) salt salt_len w =
      (1, hmac_ctx_with { addr := w.next, ctx := none }
            { addr := w.next + 1, md := some md, key := salt.take salt_len, data := [] },
        { w with tick := w.tick + 3,
                 trace := w.trace ++ [Event.alloc (some w.next), Event.alloc (some (w.next + 1)),
                   Event.HMAC_Init_ex (w.next + 1) (some (salt.take salt_len)) true],
                 next := w.next + 2, live := (w.next + 1) :: w.next :: w.live }) := by
  cases h0 : w.fail w.tick
  swap
  · left; simp [SSKDF_VARIANT_HMAC_CTX_init, malloc_fail h0]
  cases h1 : w.fail (w.tick + 1)
  swap
  · left
    simp only [SSKDF_VARIANT_HMAC_CTX_init, malloc_ok h0, HMAC_CTX_new]
    rw [malloc_fail (by simpa using h1)]
  cases h2 : w.fail (w.tick + 2)
  swap
  · left
    simp only [SSKDF_VARIANT_HMAC_CTX_init, malloc_ok h0, HMAC_CTX_new]
    rw [malloc_ok (by simpa using h1)]
    simp only []
    rw [hmac_init_fail (by simpa using h2)]
  right
  exact hmac_ctx_init_ok c0 md salt salt_len w h0 h1 h2

theorem loop_events_countP_zero (p : Event → Bool) (evs : Nat → List Event)
    (blk : Nat → List Nat) (out_len h_len : Nat) (hevs : ∀ v, (evs v).countP p = 0)
    (hm : ∀ off bytes, p (Event.memcpy off bytes) = false) :
    ∀ k i, (loop_events evs blk out_len h_len i k).countP p = 0 := by
  intro k
  induction k with
  | zero => intro i; simp [loop_events]
  | succ k ih =>
    intro i
    simp [loop_events, List.countP_append, hevs, ih, List.countP_cons, hm]

theorem loop_events_forall (P : Event → Prop) (evs : Nat → List Event)
    (blk : Nat → List Nat) (out_len h_len : Nat) (hevs : ∀ v, ∀ e ∈ evs v, P e)
    (hm : ∀ off bytes, P (Event.memcpy off bytes)) :
    ∀ k i, ∀ e ∈ loop_events evs blk out_len h_len i k, P e := by
  intro k
  induction k with
  | zero => intro i e he; simp [loop_events] at he
  | succ k ih =>
    intro i e he
    simp only [loop_events, List.mem_append, List.mem_singleton] at he
    rcases he with (he | he) | he
    · exact hevs _ e he
    · rw [he]; exact hm _ _
    · exact ih _ e he

/-- The engine on arguments that pass every check is the block loop, run from
iteration 0 and offset 0 with `n = n_blocks W out_len h_len`. -/
theorem SSKDF_reaches_loop {α : Type} (W : Nat) (variant : SSKDF_VARIANT α)
    (c : SSKDF_VARIANT_CTX α) (buf sec : List Nat) (out_len secret_len : Nat)
    (info : List Nat) (info_len : Nat) (w : World)
    (hout : 0 < out_len) (hsec : 0 < secret_len) (hpos : 0 < variant.size (some c))
    (hmax : variant.size (some c) ≤ EVP_MAX_MD_SIZE)
    (hlc : length_check_fails W out_len (variant.size (some c)) = false)
    (hic : input_check_fails W secret_len info_len = false) :
    SSKDF W variant (some c) (some buf) out_len (some sec) secret_len info info_len w =
      ((SSKDF_loop W variant out_len (variant.size (some c))
          (n_blocks W out_len (variant.size (some c))) (some sec) secret_len info info_len
          (n_blocks W out_len (variant.size (some c))) 0 0 (w.uninit EVP_MAX_MD_SIZE) (some c)
          buf w).1,
       (SSKDF_loop W variant out_len (variant.size (some c))
          (n_blocks W out_len (variant.size (some c))) (some sec) secret_len info info_len
          (n_blocks W out_len (variant.size (some c))) 0 0 (w.uninit EVP_MAX_MD_SIZE) (some c)
          buf w).2.1,
       some (SSKDF_loop W variant out_len (variant.size (some c))
          (n_blocks W out_len (variant.size (some c))) (some sec) secret_len info info_len
          (n_blocks W out_len (variant.size (some c))) 0 0 (w.uninit EVP_MAX_MD_SIZE) (some c)
          buf w).2.2.1,
       (SSKDF_loop W variant out_len (variant.size (some c))
          (n_blocks W out_len (variant.size (some c))) (some sec) secret_len info info_len
          (n_blocks W out_len (variant.size (some c))) 0 0 (w.uninit EVP_MAX_MD_SIZE) (some c)
          buf w).2.2.2) := by
  have hic' : input_overflow_guard W secret_len info_len = false ∧
      input_cap_exceeded W secret_len info_len = false := by
    simpa [input_check_fails] using hic
  simp only [SSKDF]
  simp [hout.ne', hsec.ne', hpos.ne', hmax, hlc, hic'.1, hic'.2]

/-- The entry point `KBKDF_CTR`, when allocation, keying and the checks pass, takes
its outcome and its `out_key` from the block loop run with
`n = n_blocks W out_len h_len`. -/
theorem KBKDF_CTR_reaches_loop (W : Nat) (md : EVP_MD) (buf sec : List Nat)
    (out_len secret_len : Nat) (info : List Nat) (info_len : Nat) (w : World)
    (hout : 0 < out_len) (hsec : 0 < secret_len) (hpos : 0 < md.md_size)
    (hlc : length_check_fails W out_len md.md_size = false)
    (ha0 : w.fail w.tick = false) (ha1 : w.fail (w.tick + 1) = false) :
    (KBKDF_CTR W (some buf) out_len (some md) (some sec) secret_len info info_len w).1 =
      (KBKDF_loop W out_len md.md_size (n_blocks W out_len md.md_size) info info_len
        (n_blocks W out_len md.md_size) 0 0
        (World.uninit
          { w with tick := w.tick + 2,
                   trace := w.trace ++ [Event.alloc (some w.next),
                     Event.HMAC_Init_ex w.next (some (sec.take secret_len)) true],
                   next := w.next + 1, live := w.next :: w.live } EVP_MAX_MD_SIZE)
        { addr := w.next, md := some md, key := sec.take secret_len, data := [] } buf
        { w with tick := w.tick + 2,
                 trace := w.trace ++ [Event.alloc (some w.next),
                   Event.HMAC_Init_ex w.next (some (sec.take secret_len)) true],
                 next := w.next + 1, live := w.next :: w.live }).1 ∧
    (KBKDF_CTR W (some buf) out_len (some md) (some sec) secret_len info info_len w).2.1 =
      some (KBKDF_loop W out_len md.md_size (n_blocks W out_len md.md_size) info info_len
        (n_blocks W out_len md.md_size) 0 0
        (World.uninit
          { w with tick := w.tick + 2,
                   trace := w.trace ++ [Event.alloc (some w.next),
                     Event.HMAC_Init_ex w.next (some (sec.take secret_len)) true],
                   next := w.next + 1, live := w.next :: w.live } EVP_MAX_MD_SIZE)
        { addr := w.next, md := some md, key := sec.take secret_len, data := [] } buf
        { w with tick := w.tick + 2,
                 trace := w.trace ++ [Event.alloc (some w.next),
                   Event.HMAC_Init_ex w.next (some (sec.take secret_len)) true],
                 next := w.next + 1, live := w.next :: w.live }).2.2.1 := by
  simp only [KBKDF_CTR, HMAC_CTX_new, malloc_ok ha0]
  rw [hmac_init_key_ok (by simpa using ha1)]
  simp only [HMAC_size, EVP_MD_size]
  simp only [hout.ne', hsec.ne', hpos.ne', hlc, World.advance, Nat.add_assoc, or_self,
    if_false, List.append_assoc, List.singleton_append, Bool.false_eq_true, Nat.reduceAdd]
  generalize KBKDF_loop W out_len md.md_size _ info info_len _ 0 0 _ _ buf _ = r
  obtain ⟨o, m2, b, w3⟩ := r
  cases o <;> exact ⟨rfl, rfl⟩

/-! ## The claims -/

/-- C1: for every successful derivation by `SSKDF_DIGEST`, `SSKDF_HMAC` (the SSKDF
engine with either variant) and `KBKDF_CTR`, the first `out_len` bytes of
`out_key` are the first `out_len` bytes of `block(1) ‖ ... ‖ block(n)` with
`n = ceil(out_len / h_len)` and `h_len`-byte blocks, i.e. the first `n - 1` blocks
followed by the last block truncated to `out_len - (n - 1) * h_len` bytes. -/
theorem C1_output_is_truncated_key_stream {W : Nat} (hW : W = 32 ∨ W = 64)
    (buf : List Nat) (out_len : Nat) (ho : out_len < 2 ^ W) (hbuf : out_len ≤ buf.length)
    (digest : Option EVP_MD) (secret : Option (List Nat)) (secret_len : Nat)
    (info : List Nat) (info_len : Nat) (salt : List Nat) (salt_len : Nat) (w : World) :
    ((SSKDF_DIGEST W (some buf) out_len digest secret secret_len info info_len w).1
        = Outcome.ret 1 →
      ∃ md sec out, digest = some md ∧ secret = some sec ∧
        (SSKDF_DIGEST W (some buf) out_len digest secret secret_len info info_len w).2.1
          = some out ∧
        is_truncated_stream (digest_block md (sec.take secret_len) (info.take info_len))
          md.md_size out_len out) ∧
    ((SSKDF_HMAC W (some buf) out_len digest secret secret_len info info_len salt salt_len w).1
        = Outcome.ret 1 →
      ∃ md sec out, digest = some md ∧ secret = some sec ∧
        (SSKDF_HMAC W (some buf) out_len digest secret secret_len info info_len
          salt salt_len w).2.1 = some out ∧
        is_truncated_stream
          (hmac_block md (salt.take salt_len) (sec.take secret_len) (info.take info_len))
          md.md_size out_len out) ∧
    ((KBKDF_CTR W (some buf) out_len digest secret secret_len info info_len w).1
        = Outcome.ret 1 →
      ∃ md sec out, digest = some md ∧ secret = some sec ∧
        (KBKDF_CTR W (some buf) out_len digest secret secret_len info info_len w).2.1
          = some out ∧
        is_truncated_stream (kbkdf_block md (sec.take secret_len) (info.take info_len))
          md.md_size out_len out) := by
  refine ⟨?_, ?_, ?_⟩
  · intro h
    obtain ⟨buf', md, sec, h1, rfl, rfl, h4, h5, h6, h7, h8, h9, h10⟩ := SSKDF_DIGEST_ret1 h
    rcases SSKDF_DIGEST_valid hW md buf sec out_len secret_len info info_len w h4 ho hbuf h5 h6
      h7 h8 rfl h9 h10 with ⟨_, _, hout, _⟩ | ⟨hr, _⟩
    · exact ⟨md, sec, _, rfl, rfl, hout,
        truncated_stream_intro _ (fun i => md.hash_length _) h6 h4 rfl⟩
    · rw [hr] at h; cases h
  · intro h
    obtain ⟨buf', md, sec, h1, rfl, rfl, h4, h5, h6, h7, h8, h9, h10, h11⟩ := SSKDF_HMAC_ret1 h
    rcases SSKDF_HMAC_valid hW md buf sec out_len secret_len info info_len salt salt_len w
      h4 ho hbuf h5 h6 h7 h8 rfl h9 h10 h11 with ⟨_, _, hout, _⟩ | ⟨hr, _⟩
    · exact ⟨md, sec, _, rfl, rfl, hout,
        truncated_stream_intro _ (fun i => md.hmac_length _ _) h6 h4 rfl⟩
    · rw [hr] at h; cases h
  · intro h
    obtain ⟨buf', md, sec, h1, rfl, rfl, h4, h5, h6, h7, h9, h10⟩ := KBKDF_CTR_ret1 h
    rcases KBKDF_CTR_valid hW md buf sec out_len secret_len info info_len w h4 ho hbuf h5 h6
      h7 rfl h9 h10 with ⟨_, _, hout, _⟩ | ⟨hr, _⟩
    · exact ⟨md, sec, _, rfl, rfl, hout,
        truncated_stream_intro _ (fun i => md.hmac_length _ _) h6 h4 rfl⟩
    · rw [hr] at h; cases h

/-- C1 at a concrete input: 5 bytes from 2-byte blocks, three blocks, the last
truncated to one byte. -/
theorem C1_witness :
    (∃ md sec out, some (toy_md 2 (by decide)) = some md ∧ some [1, 2, 3] = some sec ∧
      (SSKDF_DIGEST 64 (some [9, 9, 9, 9, 9, 9, 9]) 5 (some (toy_md 2 (by decide)))
        (some [1, 2, 3]) 3 [7] 1 calm).2.1 = some out ∧
      is_truncated_stream (digest_block md (sec.take 3) ([7].take 1)) md.md_size 5 out) ∧
    (∃ md sec out, some (toy_md 2 (by decide)) = some md ∧ some [1, 2, 3] = some sec ∧
      (SSKDF_HMAC 64 (some [9, 9, 9, 9, 9, 9, 9]) 5 (some (toy_md 2 (by decide)))
        (some [1, 2, 3]) 3 [7] 1 [5, 5] 2 calm).2.1 = some out ∧
      is_truncated_stream (hmac_block md ([5, 5].take 2) (sec.take 3) ([7].take 1))
        md.md_size 5 out) ∧
    (∃ md sec out, some (toy_md 2 (by decide)) = some md ∧ some [1, 2, 3] = some sec ∧
      (KBKDF_CTR 64 (some [9, 9, 9, 9, 9, 9, 9]) 5 (some (toy_md 2 (by decide)))
        (some [1, 2, 3]) 3 [7] 1 calm).2.1 = some out ∧
      is_truncated_stream (kbkdf_block md (sec.take 3) ([7].take 1)) md.md_size 5 out) :=
  have h := C1_output_is_truncated_key_stream (W := 64) (Or.inr rfl) [9, 9, 9, 9, 9, 9, 9] 5
    (by norm_num) (by decide) (some (toy_md 2 (by decide))) (some [1, 2, 3]) 3 [7] 1 [5, 5] 2 calm
  ⟨h.1 (by decide), h.2.1 (by decide), h.2.2 (by decide)⟩

theorem single_block_count {out_len h_len : Nat} (hout : 0 < out_len) (hle : out_len ≤ h_len) :
    (out_len + h_len - 1) / h_len = 1 := by
  apply Nat.div_eq_of_lt_le <;> omega

theorem single_block_length_check {W : Nat} (hW : W = 32 ∨ W = 64) {out_len h_len : Nat}
    (hout : 0 < out_len) (hle : out_len ≤ h_len) (hmax : h_len ≤ EVP_MAX_MD_SIZE) :
    length_check_fails W out_len h_len = false := by
  have h2 : out_len < 2 ^ W ∧ h_len < 2 ^ W ∧ out_len + h_len < 2 ^ W := by
    rcases two_pow_cases hW with h | h <;> simp only [EVP_MAX_MD_SIZE] at hmax <;> omega
  have := (length_check_fails_iff hW h2.1 h2.2.1 (by omega)).not
  rw [Bool.not_eq_true] at this
  rw [this, single_block_count hout hle]
  simp only [UINT32_MAX]
  omega

theorem input_check_passes {W : Nat} (hW : W = 32 ∨ W = 64) {secret_len info_len : Nat}
    (hs : secret_len < 2 ^ W) (hi : info_len < 2 ^ W)
    (hsum : 4 + secret_len + info_len ≤ UINT32_MAX) :
    input_check_fails W secret_len info_len = false := by
  have := (input_check_fails_iff hW hs hi).not
  rw [Bool.not_eq_true] at this
  rw [this]
  omega

theorem single_block_of_valid {r : Outcome × Option (List Nat) × World} {w : World}
    (a : Nat) (pre : List Event) {c : Nat} {evs post : List Event}
    {evsf : Nat → List Event} {blk : Nat → List Nat}
    {h_len out_len : Nat} {buf : List Nat} {X : Prop}
    (hinv : r.1 = Outcome.ret 1 → ∀ k, k < a → w.fail (w.tick + k) = false)
    (hv : (∀ k, k < a → w.fail (w.tick + k) = false) →
      ((∀ k, k < 1 * c → w.fail (w.tick + a + k) = false) ∧ r.1 = Outcome.ret 1 ∧
        r.2.1 = some ((key_stream blk 1).take out_len ++ buf.drop out_len) ∧
        r.2.2.trace = w.trace ++ pre ++ loop_events evsf blk out_len h_len 0 1 ++ post) ∨
      (r.1 = Outcome.ret 0 ∧ X ∧ ∃ k, k < 1 * c ∧ w.fail (w.tick + a + k) = true))
    (hblk : (blk 1).length = h_len) (hle : out_len ≤ h_len) (hev : evsf 1 = evs) :
    single_block_run r w (a + c) pre evs post (blk 1) h_len out_len buf := by
  have hfwd : r.1 = Outcome.ret 1 →
      (∀ k, k < a + c → w.fail (w.tick + k) = false) ∧
      r.2.1 = some ((key_stream blk 1).take out_len ++ buf.drop out_len) ∧
      r.2.2.trace = w.trace ++ pre ++ loop_events evsf blk out_len h_len 0 1 ++ post := by
    intro h
    rcases hv (hinv h) with ⟨hf, _, hout, htr⟩ | ⟨hr, _⟩
    · refine ⟨?_, hout, htr⟩
      intro k hk
      by_cases hka : k < a
      · exact hinv h k hka
      · have := hf (k - a) (by omega)
        rw [← this]; congr 1; omega
    · rw [hr] at h; cases h
  refine ⟨⟨fun h => (hfwd h).1, ?_⟩, fun h => ?_⟩
  · intro hf
    rcases hv (fun k hk => hf k (by omega)) with ⟨_, h1, _⟩ | ⟨_, _, k, hk, hk2⟩
    · exact h1
    · have := hf (a + k) (by omega)
      rw [← Nat.add_assoc] at this
      rw [this] at hk2; cases hk2
  · obtain ⟨_, h2, h3⟩ := hfwd h
    refine ⟨?_, ?_, ?_⟩
    · rw [h3]; simp [loop_events, hev, Nat.min_eq_right hle]
    · rw [h2]; simp [key_stream]
    · intro he
      rw [h2]
      simp [key_stream, he, List.take_of_length_le, hblk]

theorem fail_free_two {w : World} (h : ∀ k, k < 2 → w.fail (w.tick + k) = false) :
    w.fail w.tick = false ∧ w.fail (w.tick + 1) = false :=
  ⟨by simpa using h 0 (by omega), h 1 (by omega)⟩

theorem fail_free_three {w : World} (h : ∀ k, k < 3 → w.fail (w.tick + k) = false) :
    w.fail w.tick = false ∧ w.fail (w.tick + 1) = false ∧ w.fail (w.tick + 2) = false :=
  ⟨by simpa using h 0 (by omega), h 1 (by omega), h 2 (by omega)⟩

theorem fail_free_of_two {w : World} (h0 : w.fail w.tick = false)
    (h1 : w.fail (w.tick + 1) = false) : ∀ k, k < 2 → w.fail (w.tick + k) = false := by
  intro k hk
  have : k = 0 ∨ k = 1 := by omega
  rcases this with rfl | rfl <;> assumption

theorem fail_free_of_three {w : World} (h0 : w.fail w.tick = false)
    (h1 : w.fail (w.tick + 1) = false) (h2 : w.fail (w.tick + 2) = false) :
    ∀ k, k < 3 → w.fail (w.tick + k) = false := by
  intro k hk
  have : k = 0 ∨ k = 1 ∨ k = 2 := by omega
  rcases this with rfl | rfl | rfl <;> assumption

theorem SSKDF_DIGEST_single {W : Nat} (hW : W = 32 ∨ W = 64) (md : EVP_MD) (buf sec : List Nat)
    (out_len secret_len : Nat) (info : List Nat) (info_len : Nat) (w : World)
    (hout : 0 < out_len) (hle : out_len ≤ md.md_size) (hbuf : out_len ≤ buf.length)
    (hsec : 0 < secret_len) (hs : secret_len < 2 ^ W) (hi : info_len < 2 ^ W)
    (hsum : 4 + secret_len + info_len ≤ UINT32_MAX) :
    single_block_run
      (SSKDF_DIGEST W (some buf) out_len (some md) (some sec) secret_len info info_len w) w 8
      [Event.alloc (some w.next), Event.alloc (some (w.next + 1))]
      (digest_events (w.next + 1) [0, 0, 0, 1] (sec.take secret_len) (info.take info_len))
      [Event.free (w.next + 1), Event.free w.next]
      (md.hash ([0, 0, 0, 1] ++ sec.take secret_len ++ info.take info_len))
      md.md_size out_len buf := by
  have hpos : 0 < md.md_size := by omega
  have hlc := single_block_length_check hW hout hle md.md_size_le
  have hic := input_check_passes hW hs hi hsum
  have hn := (single_block_count hout hle).symm
  have ho : out_len < 2 ^ W := by
    have := md.md_size_le
    rcases two_pow_cases hW with h | h <;> simp only [EVP_MAX_MD_SIZE] at this <;> omega
  have hbe : CRYPTO_store_u32_be 1 = [0, 0, 0, 1] := by decide
  have h := single_block_of_valid 2 [Event.alloc (some w.next),
      Event.alloc (some (w.next + 1))]
    (fun h => by
      obtain ⟨_, _, _, _, _, _, _, _, _, _, _, h9, h10⟩ := SSKDF_DIGEST_ret1 h
      exact fail_free_of_two h9 h10)
    (fun hf => SSKDF_DIGEST_valid hW md buf sec out_len secret_len info info_len w hout ho hbuf
      hsec hpos hlc hic hn (fail_free_two hf).1 (fail_free_two hf).2)
    (md.hash_length _) hle rfl
  simpa only [hbe, digest_block] using h

theorem SSKDF_HMAC_single {W : Nat} (hW : W = 32 ∨ W = 64) (md : EVP_MD) (buf sec : List Nat)
    (out_len secret_len : Nat) (info : List Nat) (info_len : Nat) (salt : List Nat)
    (salt_len : Nat) (w : World)
    (hout : 0 < out_len) (hle : out_len ≤ md.md_size) (hbuf : out_len ≤ buf.length)
    (hsec : 0 < secret_len) (hs : secret_len < 2 ^ W) (hi : info_len < 2 ^ W)
    (hsum : 4 + secret_len + info_len ≤ UINT32_MAX) :
    single_block_run
      (SSKDF_HMAC W (some buf) out_len (some md) (some sec) secret_len info info_len
        salt salt_len w) w 8
      [Event.alloc (some w.next), Event.alloc (some (w.next + 1)),
        Event.HMAC_Init_ex (w.next + 1) (some (salt.take salt_len)) true]
      (hmac_events (w.next + 1) [0, 0, 0, 1] (sec.take secret_len) (info.take info_len))
      [Event.free (w.next + 1), Event.free w.next]
      (md.hmac (salt.take salt_len) ([0, 0, 0, 1] ++ sec.take secret_len ++ info.take info_len))
      md.md_size out_len buf := by
  have hpos : 0 < md.md_size := by omega
  have hlc := single_block_length_check hW hout hle md.md_size_le
  have hic := input_check_passes hW hs hi hsum
  have hn := (single_block_count hout hle).symm
  have ho : out_len < 2 ^ W := by
    have := md.md_size_le
    rcases two_pow_cases hW with h | h <;> simp only [EVP_MAX_MD_SIZE] at this <;> omega
  have hbe : CRYPTO_store_u32_be 1 = [0, 0, 0, 1] := by decide
  have h := single_block_of_valid 3 [Event.alloc (some w.next),
      Event.alloc (some (w.next + 1)),
      Event.HMAC_Init_ex (w.next + 1) (some (salt.take salt_len)) true]
    (fun h => by
      obtain ⟨_, _, _, _, _, _, _, _, _, _, _, h9, h10, h11⟩ := SSKDF_HMAC_ret1 h
      exact fail_free_of_three h9 h10 h11)
    (fun hf => SSKDF_HMAC_valid hW md buf sec out_len secret_len info info_len salt salt_len w
      hout ho hbuf hsec hpos hlc hic hn (fail_free_three hf).1 (fail_free_three hf).2.1
      (fail_free_three hf).2.2)
    (md.hmac_length _ _) hle rfl
  simpa only [hbe, hmac_block] using h

theorem KBKDF_CTR_single {W : Nat} (hW : W = 32 ∨ W = 64) (md : EVP_MD) (buf sec : List Nat)
    (out_len secret_len : Nat) (info : List Nat) (info_len : Nat) (w : World)
    (hout : 0 < out_len) (hle : out_len ≤ md.md_size) (hbuf : out_len ≤ buf.length)
    (hsec : 0 < secret_len) :
    single_block_run
      (KBKDF_CTR W (some buf) out_len (some md) (some sec) secret_len info info_len w) w 6
      [Event.alloc (some w.next), Event.HMAC_Init_ex w.next (some (sec.take secret_len)) true]
      (kbkdf_events w.next [0, 0, 0, 1] (info.take info_len))
      [Event.free w.next]
      (md.hmac (sec.take secret_len) ([0, 0, 0, 1] ++ info.take info_len))
      md.md_size out_len buf := by
  have hpos : 0 < md.md_size := by omega
  have hlc := single_block_length_check hW hout hle md.md_size_le
  have hn := (single_block_count hout hle).symm
  have ho : out_len < 2 ^ W := by
    have := md.md_size_le
    rcases two_pow_cases hW with h | h <;> simp only [EVP_MAX_MD_SIZE] at this <;> omega
  have hbe : CRYPTO_store_u32_be 1 = [0, 0, 0, 1] := by decide
  have h := single_block_of_valid 2 [Event.alloc (some w.next),
      Event.HMAC_Init_ex w.next (some (sec.take secret_len)) true]
    (fun h => by
      obtain ⟨_, _, _, _, _, _, _, _, _, _, h9, h10⟩ := KBKDF_CTR_ret1 h
      exact fail_free_of_two h9 h10)
    (fun hf => KBKDF_CTR_valid hW md buf sec out_len secret_len info info_len w hout ho hbuf
      hsec hpos hlc hn (fail_free_two hf).1 (fail_free_two hf).2)
    (md.hmac_length _ _) hle rfl
  simpa only [hbe, kbkdf_block] using h

/-- C2: on valid input with `0 < out_len ≤ h_len` (for the SSKDF entry points
also `4 + secret_len + info_len ≤ 2^32 - 1`), each entry point succeeds
exactly when no library call fails, and then it has made exactly one block
computation, with counter bytes `00 00 00 01`, followed by one copy of the first
`out_len` bytes of that block into `out_key` (the whole block when
`out_len = h_len`). -/
theorem C2_single_block {W : Nat} (hW : W = 32 ∨ W = 64) (md : EVP_MD) (buf sec : List Nat)
    (out_len secret_len : Nat) (info : List Nat) (info_len : Nat) (salt : List Nat)
    (salt_len : Nat) (w : World)
    (hout : 0 < out_len) (hle : out_len ≤ md.md_size) (hbuf : out_len ≤ buf.length)
    (hsec : 0 < secret_len) :
    (secret_len < 2 ^ W → info_len < 2 ^ W → 4 + secret_len + info_len ≤ UINT32_MAX →
    single_block_run
      (SSKDF_DIGEST W (some buf) out_len (some md) (some sec) secret_len info info_len w) w 8
      [Event.alloc (some w.next), Event.alloc (some (w.next + 1))]
      (digest_events (w.next + 1) [0, 0, 0, 1] (sec.take secret_len) (info.take info_len))
      [Event.free (w.next + 1), Event.free w.next]
      (md.hash ([0, 0, 0, 1] ++ sec.take secret_len ++ info.take info_len))
      md.md_size out_len buf ∧
    single_block_run
      (SSKDF_HMAC W (some buf) out_len (some md) (some sec) secret_len info info_len
        salt salt_len w) w 8
      [Event.alloc (some w.next), Event.alloc (some (w.next + 1)),
        Event.HMAC_Init_ex (w.next + 1) (some (salt.take salt_len)) true]
      (hmac_events (w.next + 1) [0, 0, 0, 1] (sec.take secret_len) (info.take info_len))
      [Event.free (w.next + 1), Event.free w.next]
      (md.hmac (salt.take salt_len) ([0, 0, 0, 1] ++ sec.take secret_len ++ info.take info_len))
      md.md_size out_len buf) ∧
    single_block_run
      (KBKDF_CTR W (some buf) out_len (some md) (some sec) secret_len info info_len w) w 6
      [Event.alloc (some w.next), Event.HMAC_Init_ex w.next (some (sec.take secret_len)) true]
      (kbkdf_events w.next [0, 0, 0, 1] (info.take info_len))
      [Event.free w.next]
      (md.hmac (sec.take secret_len) ([0, 0, 0, 1] ++ info.take info_len))
      md.md_size out_len buf :=
  ⟨fun hs hi hsum =>
    ⟨SSKDF_DIGEST_single hW md buf sec out_len secret_len info info_len w hout hle hbuf hsec hs
        hi hsum,
      SSKDF_HMAC_single hW md buf sec out_len secret_len info info_len salt salt_len w hout hle
        hbuf hsec hs hi hsum⟩,
    KBKDF_CTR_single hW md buf sec out_len secret_len info info_len w hout hle hbuf hsec⟩

/-- C2 at a concrete input: `out_len = h_len = 2`, one untruncated block. -/
theorem C2_witness :
    (single_block_run
      (SSKDF_DIGEST 64 (some [9, 9, 9]) 2 (some (toy_md 2 (by decide))) (some [1, 2, 3]) 3
        [7] 1 calm) calm 8
      [Event.alloc (some calm.next), Event.alloc (some (calm.next + 1))]
      (digest_events (calm.next + 1) [0, 0, 0, 1] ([1, 2, 3].take 3) ([7].take 1))
      [Event.free (calm.next + 1), Event.free calm.next]
      ((toy_md 2 (by decide)).hash ([0, 0, 0, 1] ++ [1, 2, 3].take 3 ++ [7].take 1))
      (toy_md 2 (by decide)).md_size 2 [9, 9, 9] ∧
    single_block_run
      (SSKDF_HMAC 64 (some [9, 9, 9]) 2 (some (toy_md 2 (by decide))) (some [1, 2, 3]) 3
        [7] 1 [5, 5] 2 calm) calm 8
      [Event.alloc (some calm.next), Event.alloc (some (calm.next + 1)),
        Event.HMAC_Init_ex (calm.next + 1) (some ([5, 5].take 2)) true]
      (hmac_events (calm.next + 1) [0, 0, 0, 1] ([1, 2, 3].take 3) ([7].take 1))
      [Event.free (calm.next + 1), Event.free calm.next]
      ((toy_md 2 (by decide)).hmac ([5, 5].take 2)
        ([0, 0, 0, 1] ++ [1, 2, 3].take 3 ++ [7].take 1))
      (toy_md 2 (by decide)).md_size 2 [9, 9, 9]) ∧
    single_block_run
      (KBKDF_CTR 64 (some [9, 9, 9]) 2 (some (toy_md 2 (by decide))) (some [1, 2, 3]) 3
        [7] 1 calm) calm 6
      [Event.alloc (some calm.next), Event.HMAC_Init_ex calm.next (some ([1, 2, 3].take 3)) true]
      (kbkdf_events calm.next [0, 0, 0, 1] ([7].take 1))
      [Event.free calm.next]
      ((toy_md 2 (by decide)).hmac ([1, 2, 3].take 3) ([0, 0, 0, 1] ++ [7].take 1))
      (toy_md 2 (by decide)).md_size 2 [9, 9, 9] :=
  have h := C2_single_block (W := 64) (Or.inr rfl) (toy_md 2 (by decide)) [9, 9, 9] [1, 2, 3]
    2 3 [7] 1 [5, 5] 2 calm (by decide) (by decide) (by decide) (by decide)
  ⟨h.1 (by norm_num) (by norm_num) (by decide), h.2⟩

/-- C3: the digest variant's `compute`, when it returns 1, has reset the hash
object, initialised it and fed exactly the 4 counter bytes, then the secret, then
the info, and finalised: `out` holds `Hash(counter ‖ secret ‖ info)`.  A
successful `SSKDF_DIGEST` therefore outputs the truncated key stream of the blocks
`Hash(BE32(i) ‖ secret ‖ info)`, `i = 1, 2, ...`; with a 32-byte hash, a 32-byte
secret of `0x01`, empty info and `out_len = 32` the output is
`Hash(00 00 00 01 ‖ secret)`. -/
theorem C3_digest_block {W : Nat} (hW : W = 32 ∨ W = 64) (md : EVP_MD) :
    (∀ (vaddr : Nat) (m : EVP_MD_CTX) (o : List Nat) (cap : Nat) (ctr sec : List Nat)
        (secret_len : Nat) (info : List Nat) (info_len : Nat) (w : World),
      (sskdf_variant_digest_compute
        (some { data := some { addr := vaddr, digest := some md, ctx := some m } })
        (some o) cap (some ctr) (some sec) secret_len info info_len w).1 ≠ 0 →
      (sskdf_variant_digest_compute
        (some { data := some { addr := vaddr, digest := some md, ctx := some m } })
        (some o) cap (some ctr) (some sec) secret_len info info_len w).2.2.1
        = some (write_block o
            (md.hash (ctr.take 4 ++ sec.take secret_len ++ info.take info_len))) ∧
      (sskdf_variant_digest_compute
        (some { data := some { addr := vaddr, digest := some md, ctx := some m } })
        (some o) cap (some ctr) (some sec) secret_len info info_len w).2.2.2.trace
        = w.trace ++ [Event.EVP_MD_CTX_reset m.addr, Event.EVP_DigestInit_ex m.addr,
            Event.EVP_DigestUpdate m.addr (ctr.take 4),
            Event.EVP_DigestUpdate m.addr (sec.take secret_len),
            Event.EVP_DigestUpdate m.addr (info.take info_len),
            Event.EVP_DigestFinal m.addr]) ∧
    (∀ (buf : List Nat) (out_len : Nat) (sec : List Nat) (secret_len : Nat) (info : List Nat)
        (info_len : Nat) (w : World), out_len < 2 ^ W → out_len ≤ buf.length →
      (SSKDF_DIGEST W (some buf) out_len (some md) (some sec) secret_len info info_len w).1
        = Outcome.ret 1 →
      (SSKDF_DIGEST W (some buf) out_len (some md) (some sec) secret_len info info_len w).2.1
        = some ((key_stream
            (fun i => md.hash (CRYPTO_store_u32_be i ++ sec.take secret_len ++ info.take info_len))
            ⌈(out_len : ℚ) / (md.md_size : ℚ)⌉₊).take out_len ++ buf.drop out_len) ∧
      (SSKDF_DIGEST W (some buf) out_len (some md) (some sec) secret_len info info_len
          w).2.2.trace
        = w.trace ++ [Event.alloc (some w.next), Event.alloc (some (w.next + 1))] ++
          loop_events (fun i => digest_events (w.next + 1) (CRYPTO_store_u32_be i)
              (sec.take secret_len) (info.take info_len))
            (fun i => md.hash (CRYPTO_store_u32_be i ++ sec.take secret_len ++ info.take info_len))
            out_len md.md_size 0 ⌈(out_len : ℚ) / (md.md_size : ℚ)⌉₊ ++
          [Event.free (w.next + 1), Event.free w.next]) ∧
    (md.md_size = 32 → ∀ (buf : List Nat) (w : World), 32 ≤ buf.length →
      (SSKDF_DIGEST W (some buf) 32 (some md) (some (List.replicate 32 1)) 32 [] 0 w).1
        = Outcome.ret 1 →
      (SSKDF_DIGEST W (some buf) 32 (some md) (some (List.replicate 32 1)) 32 [] 0 w).2.1
        = some (md.hash ([0, 0, 0, 1] ++ List.replicate 32 1) ++ buf.drop 32)) := by
  refine ⟨?_, ?_, ?_⟩
  · intro vaddr m o cap ctr sec secret_len info info_len w hne
    rcases digest_compute_cases md vaddr m o cap ctr sec secret_len info info_len w _ rfl with
      ⟨h1, _⟩ | ⟨_, h2⟩
    · exact absurd h1 hne
    · rw [h2]
      exact ⟨rfl, rfl⟩
  · intro buf out_len sec secret_len info info_len w ho hbuf h
    obtain ⟨_, hpos, hout, htr⟩ := SSKDF_DIGEST_success hW ho hbuf h
    rw [ceil_div_eq _ _ hpos]
    exact ⟨hout, htr⟩
  · intro h32 buf w hbuf h
    have hs := SSKDF_DIGEST_single hW md buf (List.replicate 32 1) 32 32 [] 0 w (by omega)
      (by omega) hbuf (by omega) (two_pow_gt hW (by decide)) (two_pow_gt hW (by decide))
      (by decide)
    have := (hs.2 h).2.2 h32.symm
    simpa using this

/-- C3 at a concrete input: scenario A with a toy 32-byte hash. -/
theorem C3_witness :
    (SSKDF_DIGEST 64 (some (List.replicate 40 9)) 32 (some (toy_md 32 (by decide)))
        (some (List.replicate 32 1)) 32 [] 0 calm).2.1
      = some ((toy_md 32 (by decide)).hash ([0, 0, 0, 1] ++ List.replicate 32 1) ++
          (List.replicate 40 9).drop 32) :=
  (C3_digest_block (W := 64) (Or.inr rfl) (toy_md 32 (by decide))).2.2 rfl
    (List.replicate 40 9) calm (by decide) (by decide)

/-- C4: `SSKDF_VARIANT_HMAC_CTX_init` hands the salt to `HMAC_Init_ex` as the key,
unmodified (also when empty); every `compute` that returns 1 has re-initialised
with the existing key (no key supplied) and fed counter, secret, info in that
order, leaving `KeyedHash(key, counter ‖ secret ‖ info)` in `out`.  A successful
`SSKDF_HMAC` supplies a key exactly once and outputs the truncated key stream of
the blocks `KeyedHash(salt, BE32(i) ‖ secret ‖ info)`; with `h_len = 32` and
`out_len = 64` that is block 1 followed by block 2. -/
theorem C4_hmac_block {W : Nat} (hW : W = 32 ∨ W = 64) (md : EVP_MD) :
    (∀ (c0 : SSKDF_VARIANT_CTX SSKDF_VARIANT_HMAC_CTX) (salt : List Nat) (w : World),
      (SSKDF_VARIANT_HMAC_CTX_init (some c0) (some md) salt salt.length w).1 ≠ 0 →
      (SSKDF_VARIANT_HMAC_CTX_init (some c0) (some md) salt salt.length w).2.1
        = some { data := some { addr := w.next,
                                ctx := some { addr := w.next + 1, md := some md,
                                              key := salt, data := [] } } } ∧
      (SSKDF_VARIANT_HMAC_CTX_init (some c0) (some md) salt salt.length w).2.2.trace
        = w.trace ++ [Event.alloc (some w.next), Event.alloc (some (w.next + 1)),
            Event.HMAC_Init_ex (w.next + 1) (some salt) true]) ∧
    (∀ (vaddr a : Nat) (key x o : List Nat) (cap : Nat) (ctr sec : List Nat)
        (secret_len : Nat) (info : List Nat) (info_len : Nat) (w : World),
      (sskdf_variant_hmac_compute
        (some { data := some { addr := vaddr,
                               ctx := some { addr := a, md := some md, key := key, data := x } } })
        (some o) cap (some ctr) (some sec) secret_len info info_len w).1 ≠ 0 →
      (sskdf_variant_hmac_compute
        (some { data := some { addr := vaddr,
                               ctx := some { addr := a, md := some md, key := key, data := x } } })
        (some o) cap (some ctr) (some sec) secret_len info info_len w)
        = (1,
           some { data := some { addr := vaddr,
                                 ctx := some { addr := a, md := some md, key := key,
                                               data := [] } } },
           some (write_block o
             (md.hmac key (ctr.take 4 ++ sec.take secret_len ++ info.take info_len))),
           w.advance 5 [Event.HMAC_Init_ex a none false, Event.HMAC_Update a (ctr.take 4),
             Event.HMAC_Update a (sec.take secret_len), Event.HMAC_Update a (info.take info_len),
             Event.HMAC_Final a])) ∧
    (∀ (buf : List Nat) (out_len : Nat) (sec : List Nat) (secret_len : Nat) (info : List Nat)
        (info_len : Nat) (salt : List Nat) (w : World),
      out_len < 2 ^ W → out_len ≤ buf.length →
      (SSKDF_HMAC W (some buf) out_len (some md) (some sec) secret_len info info_len
        salt salt.length w).1 = Outcome.ret 1 →
      (SSKDF_HMAC W (some buf) out_len (some md) (some sec) secret_len info info_len
          salt salt.length w).2.1
        = some ((key_stream
            (fun i => md.hmac salt
              (CRYPTO_store_u32_be i ++ sec.take secret_len ++ info.take info_len))
            ⌈(out_len : ℚ) / (md.md_size : ℚ)⌉₊).take out_len ++ buf.drop out_len) ∧
      (SSKDF_HMAC W (some buf) out_len (some md) (some sec) secret_len info info_len
          salt salt.length w).2.2.trace
        = w.trace ++ [Event.alloc (some w.next), Event.alloc (some (w.next + 1)),
            Event.HMAC_Init_ex (w.next + 1) (some salt) true] ++
          loop_events (fun i => hmac_events (w.next + 1) (CRYPTO_store_u32_be i)
              (sec.take secret_len) (info.take info_len))
            (fun i => md.hmac salt
              (CRYPTO_store_u32_be i ++ sec.take secret_len ++ info.take info_len))
            out_len md.md_size 0 ⌈(out_len : ℚ) / (md.md_size : ℚ)⌉₊ ++
          [Event.free (w.next + 1), Event.free w.next] ∧
      ((SSKDF_HMAC W (some buf) out_len (some md) (some sec) secret_len info info_len
          salt salt.length w).2.2.trace).countP Event.keyed_init
        = w.trace.countP Event.keyed_init + 1) ∧
    (md.md_size = 32 → ∀ (buf sec : List Nat) (secret_len : Nat) (info : List Nat)
        (info_len : Nat) (salt : List Nat) (w : World), 64 ≤ buf.length →
      (SSKDF_HMAC W (some buf) 64 (some md) (some sec) secret_len info info_len
        salt salt.length w).1 = Outcome.ret 1 →
      (SSKDF_HMAC W (some buf) 64 (some md) (some sec) secret_len info info_len
          salt salt.length w).2.1
        = some (md.hmac salt ([0, 0, 0, 1] ++ sec.take secret_len ++ info.take info_len) ++
            md.hmac salt ([0, 0, 0, 2] ++ sec.take secret_len ++ info.take info_len) ++
            buf.drop 64)) := by
  refine ⟨?_, ?_, ?_, ?_⟩
  · intro c0 salt w hne
    rcases hmac_ctx_init_cases c0 md salt salt.length w with h | h
    · exact absurd h hne
    · rw [h]
      simp [hmac_ctx_with]
  · intro vaddr a key x o cap ctr sec secret_len info info_len w hne
    rcases hmac_compute_cases md vaddr a key x o cap ctr sec secret_len info info_len w _ rfl
      with ⟨h1, _⟩ | ⟨_, h2⟩
    · exact absurd h1 hne
    · rw [h2]
      rfl
  · intro buf out_len sec secret_len info info_len salt w ho hbuf h
    obtain ⟨_, hpos, hout, htr⟩ := SSKDF_HMAC_success hW ho hbuf h
    rw [ceil_div_eq _ _ hpos]
    simp only [List.take_length] at hout htr
    refine ⟨hout, htr, ?_⟩
    rw [htr]
    simp only [List.countP_append]
    rw [loop_events_countP_zero _ _ _ _ _ (by intro v; simp [hmac_events, Event.keyed_init])
      (by intro off bytes; rfl)]
    simp [Event.keyed_init]
  · intro h32 buf sec secret_len info info_len salt w hbuf h
    have ho : 64 < 2 ^ W := two_pow_gt hW (by decide)
    obtain ⟨_, hpos, hout, _⟩ := SSKDF_HMAC_success hW ho hbuf h
    rw [hout, h32]
    have hbe1 : CRYPTO_store_u32_be 1 = [0, 0, 0, 1] := by decide
    have hbe2 : CRYPTO_store_u32_be 2 = [0, 0, 0, 2] := by decide
    have hl := md.hmac_length
    simp only [List.take_length, Nat.reduceAdd, Nat.reduceSub, Nat.reduceDiv, key_stream,
      hmac_block, List.nil_append, hbe1, hbe2]
    rw [List.take_of_length_le (by simp [hl, h32])]

/-- C4 at a concrete input: scenario B with a toy 32-byte keyed hash and a salt
of 16 zero bytes. -/
theorem C4_witness :
    (SSKDF_HMAC 64 (some (List.replicate 70 9)) 64 (some (toy_md 32 (by decide)))
        (some [1, 2, 3]) 3 [7, 8] 2 (List.replicate 16 0) (List.replicate 16 0).length calm).2.1
      = some ((toy_md 32 (by decide)).hmac (List.replicate 16 0)
            ([0, 0, 0, 1] ++ [1, 2, 3].take 3 ++ [7, 8].take 2) ++
          (toy_md 32 (by decide)).hmac (List.replicate 16 0)
            ([0, 0, 0, 2] ++ [1, 2, 3].take 3 ++ [7, 8].take 2) ++
          (List.replicate 70 9).drop 64) :=
  (C4_hmac_block (W := 64) (Or.inr rfl) (toy_md 32 (by decide))).2.2.2 rfl
    (List.replicate 70 9) [1, 2, 3] 3 [7, 8] 2 (List.replicate 16 0) calm (by decide)
    (by decide)

/-- C5: a successful `KBKDF_CTR` has keyed the keyed hash with the secret exactly
once, and every block computation re-initialises without a key and feeds only the
counter and the info: the output is the truncated key stream of the blocks
`KeyedHash(secret, BE32(i) ‖ info)`, and no `HMAC_Update` of the call carries
anything but a counter or the info.  With a 20-byte keyed hash and
`out_len = 20` the output is exactly `KeyedHash(K, 00 00 00 01 ‖ L)`. -/
theorem C5_kbkdf_block {W : Nat} (hW : W = 32 ∨ W = 64) (md : EVP_MD) :
    (∀ (buf : List Nat) (out_len : Nat) (sec : List Nat) (secret_len : Nat) (info : List Nat)
        (info_len : Nat) (w : World), out_len < 2 ^ W → out_len ≤ buf.length →
      (KBKDF_CTR W (some buf) out_len (some md) (some sec) secret_len info info_len w).1
        = Outcome.ret 1 →
      (KBKDF_CTR W (some buf) out_len (some md) (some sec) secret_len info info_len w).2.1
        = some ((key_stream
            (fun i => md.hmac (sec.take secret_len) (CRYPTO_store_u32_be i ++ info.take info_len))
            ⌈(out_len : ℚ) / (md.md_size : ℚ)⌉₊).take out_len ++ buf.drop out_len) ∧
      (KBKDF_CTR W (some buf) out_len (some md) (some sec) secret_len info info_len w).2.2.trace
        = w.trace ++ [Event.alloc (some w.next),
            Event.HMAC_Init_ex w.next (some (sec.take secret_len)) true] ++
          loop_events (fun i => [Event.HMAC_Init_ex w.next none false,
              Event.HMAC_Update w.next (CRYPTO_store_u32_be i),
              Event.HMAC_Update w.next (info.take info_len), Event.HMAC_Final w.next])
            (fun i => md.hmac (sec.take secret_len) (CRYPTO_store_u32_be i ++ info.take info_len))
            out_len md.md_size 0 ⌈(out_len : ℚ) / (md.md_size : ℚ)⌉₊ ++
          [Event.free w.next] ∧
      (∀ e ∈ ((KBKDF_CTR W (some buf) out_len (some md) (some sec) secret_len info info_len
          w).2.2.trace).drop w.trace.length, ∀ a d, e = Event.HMAC_Update a d →
        d = info.take info_len ∨ ∃ i, d = CRYPTO_store_u32_be i) ∧
      ((KBKDF_CTR W (some buf) out_len (some md) (some sec) secret_len info info_len
          w).2.2.trace).countP Event.keyed_init
        = w.trace.countP Event.keyed_init + 1) ∧
    (md.md_size = 20 → ∀ (buf K L : List Nat) (w : World), 20 ≤ buf.length →
      (KBKDF_CTR W (some buf) 20 (some md) (some K) K.length L L.length w).1 = Outcome.ret 1 →
      (KBKDF_CTR W (some buf) 20 (some md) (some K) K.length L L.length w).2.1
        = some (md.hmac K ([0, 0, 0, 1] ++ L) ++ buf.drop 20)) := by
  refine ⟨?_, ?_⟩
  · intro buf out_len sec secret_len info info_len w ho hbuf h
    obtain ⟨_, hpos, hout, htr⟩ := KBKDF_CTR_success hW ho hbuf h
    rw [ceil_div_eq _ _ hpos]
    refine ⟨hout, htr, ?_, ?_⟩
    · rw [htr]
      intro e he a d hed
      simp only [List.append_assoc, List.drop_left] at he
      subst hed
      have hloop := loop_events_forall
        (fun e => ∀ a d, e = Event.HMAC_Update a d →
          d = info.take info_len ∨ ∃ i, d = CRYPTO_store_u32_be i)
        (fun v => kbkdf_events w.next (CRYPTO_store_u32_be v) (info.take info_len))
        (kbkdf_block md (sec.take secret_len) (info.take info_len)) out_len md.md_size
        (by
          intro v e he a d hed
          subst hed
          simp only [kbkdf_events, List.mem_cons, Event.HMAC_Update.injEq, List.mem_singleton,
            reduceCtorEq, false_or, or_false, List.not_mem_nil] at he
          rcases he with ⟨_, rfl⟩ | ⟨_, rfl⟩
          · exact Or.inr ⟨v, rfl⟩
          · exact Or.inl rfl)
        (by intro off bytes a d hed; cases hed)
        ((out_len + md.md_size - 1) / md.md_size) 0
      simp only [List.mem_append, List.mem_cons, reduceCtorEq, List.not_mem_nil, or_false,
        false_or] at he
      exact hloop _ he a d rfl
    · rw [htr]
      simp only [List.countP_append]
      rw [loop_events_countP_zero _ _ _ _ _ (by intro v; simp [kbkdf_events, Event.keyed_init])
        (by intro off bytes; rfl)]
      simp [Event.keyed_init]
  · intro h20 buf K L w hbuf h
    have hs := KBKDF_CTR_single hW md buf K 20 K.length L L.length w (by omega)
      (by omega) hbuf (by
        obtain ⟨_, _, _, _, _, hsec, _⟩ := KBKDF_CTR_ret1 h
        obtain ⟨_, _, _, _, _, _, _, h5, _⟩ := KBKDF_CTR_ret1 h
        exact h5)
    have := (hs.2 h).2.2 h20.symm
    simpa using this

/-- C5 at a concrete input: scenario C with a toy 20-byte keyed hash. -/
theorem C5_witness :
    (KBKDF_CTR 64 (some (List.replicate 24 9)) 20 (some (toy_md 20 (by decide)))
        (some [1, 2, 3]) [1, 2, 3].length [7, 8] [7, 8].length calm).2.1
      = some ((toy_md 20 (by decide)).hmac [1, 2, 3] ([0, 0, 0, 1] ++ [7, 8]) ++
          (List.replicate 24 9).drop 20) :=
  (C5_kbkdf_block (W := 64) (Or.inr rfl) (toy_md 20 (by decide))).2 rfl
    (List.replicate 24 9) [1, 2, 3] [7, 8] calm (by decide) (by decide)

/-- C6 fails as stated: with a toy 2-byte keyed hash, the non-empty secret
`[128, 128]`, info `[1, 2]` and `out_len = 1`, `KBKDF_CTR(secret, info)` and
`SSKDF_HMAC(secret, info, salt = secret)` both succeed and write the same byte. -/
theorem C6_counterexample :
    ([128, 128] : List Nat) ≠ [] ∧ 0 < 1 ∧
    (KBKDF_CTR 64 (some [9]) 1 (some (toy_md 2 (by decide))) (some [128, 128]) 2 [1, 2] 2
      calm).1 = Outcome.ret 1 ∧
    (SSKDF_HMAC 64 (some [9]) 1 (some (toy_md 2 (by decide))) (some [128, 128]) 2 [1, 2] 2
      [128, 128] 2 calm).1 = Outcome.ret 1 ∧
    (KBKDF_CTR 64 (some [9]) 1 (some (toy_md 2 (by decide))) (some [128, 128]) 2 [1, 2] 2
      calm).2.1 =
    (SSKDF_HMAC 64 (some [9]) 1 (some (toy_md 2 (by decide))) (some [128, 128]) 2 [1, 2] 2
      [128, 128] 2 calm).2.1 := by
  decide

/-- C6 as amended: for a non-empty secret, `KBKDF_CTR(secret, info)` and
`SSKDF_HMAC(secret, info, salt = secret)` hash different messages in every block
(`BE32(i) ‖ info` against `BE32(i) ‖ secret ‖ info`) under the same key; when
both succeed their outputs differ exactly when the two truncated key streams
differ. -/
theorem C6_payload_shapes_differ {W : Nat} (hW : W = 32 ∨ W = 64) (md : EVP_MD)
    (buf sec info : List Nat) (out_len : Nat) (w1 w2 : World)
    (hsec : sec ≠ []) (ho : out_len < 2 ^ W) (hbuf : out_len ≤ buf.length)
    (h1 : (KBKDF_CTR W (some buf) out_len (some md) (some sec) sec.length info info.length
      w1).1 = Outcome.ret 1)
    (h2 : (SSKDF_HMAC W (some buf) out_len (some md) (some sec) sec.length info info.length
      sec sec.length w2).1 = Outcome.ret 1) :
    (∀ i, CRYPTO_store_u32_be i ++ info ≠ CRYPTO_store_u32_be i ++ sec ++ info) ∧
    ((KBKDF_CTR W (some buf) out_len (some md) (some sec) sec.length info info.length w1).2.1 ≠
      (SSKDF_HMAC W (some buf) out_len (some md) (some sec) sec.length info info.length
        sec sec.length w2).2.1 ↔
      (key_stream (fun i => md.hmac sec (CRYPTO_store_u32_be i ++ info))
          ⌈(out_len : ℚ) / (md.md_size : ℚ)⌉₊).take out_len ≠
        (key_stream (fun i => md.hmac sec (CRYPTO_store_u32_be i ++ sec ++ info))
          ⌈(out_len : ℚ) / (md.md_size : ℚ)⌉₊).take out_len) := by
  refine ⟨?_, ?_⟩
  · intro i h
    have hl := congrArg List.length h
    simp only [List.length_append] at hl
    have : sec.length = 0 := by omega
    exact hsec (List.length_eq_zero.mp this)
  · obtain ⟨_, hpos, ho1, _⟩ := KBKDF_CTR_success hW ho hbuf h1
    obtain ⟨_, _, ho2, _⟩ := SSKDF_HMAC_success hW ho hbuf h2
    rw [ho1, ho2, ceil_div_eq _ _ hpos]
    simp only [List.take_length, ne_eq, Option.some.injEq, List.append_left_inj]
    rfl

/-- C6 (amended) at a concrete input where the outputs do differ. -/
theorem C6_witness :
    (KBKDF_CTR 64 (some [9, 9, 9]) 3 (some (toy_md 2 (by decide))) (some [1, 2, 3])
      [1, 2, 3].length [7] [7].length calm).2.1 ≠
    (SSKDF_HMAC 64 (some [9, 9, 9]) 3 (some (toy_md 2 (by decide))) (some [1, 2, 3])
      [1, 2, 3].length [7] [7].length [1, 2, 3] [1, 2, 3].length calm).2.1 :=
  (C6_payload_shapes_differ (W := 64) (Or.inr rfl) (toy_md 2 (by decide)) [9, 9, 9] [1, 2, 3]
    [7] 3 calm calm (by decide) (by norm_num) (by decide) (by decide) (by decide)).2.mpr
    (by
      rw [ceil_div_eq _ _ (by decide)]
      decide)

/-- C7: each of `KBKDF_CTR`, `SSKDF_DIGEST` and `SSKDF_HMAC` returns 0 whenever
`secret_len = 0` or `out_len = 0`, whatever the other arguments and the world;
`out_key` is handed back unchanged and the calls recorded are allocations,
releases and keyed initialisations only: no block computation, no copy. -/
theorem C7_empty_secret_or_output_rejected (W : Nat) (out_key : Option (List Nat))
    (out_len : Nat) (digest : Option EVP_MD) (secret : Option (List Nat)) (secret_len : Nat)
    (info : List Nat) (info_len : Nat) (salt : List Nat) (salt_len : Nat) (w : World)
    (h : secret_len = 0 ∨ out_len = 0) :
    ((KBKDF_CTR W out_key out_len digest secret secret_len info info_len w).1 = Outcome.ret 0 ∧
      (KBKDF_CTR W out_key out_len digest secret secret_len info info_len w).2.1 = out_key ∧
      (KBKDF_CTR W out_key out_len digest secret secret_len info info_len w).2.2.trace
        = w.trace) ∧
    ((SSKDF_DIGEST W out_key out_len digest secret secret_len info info_len w).1
        = Outcome.ret 0 ∧
      (SSKDF_DIGEST W out_key out_len digest secret secret_len info info_len w).2.1 = out_key ∧
      ∃ evs, (SSKDF_DIGEST W out_key out_len digest secret secret_len info info_len w).2.2.trace
          = w.trace ++ evs ∧ ∀ e ∈ evs, Event.block_work e = false) ∧
    ((SSKDF_HMAC W out_key out_len digest secret secret_len info info_len salt salt_len w).1
        = Outcome.ret 0 ∧
      (SSKDF_HMAC W out_key out_len digest secret secret_len info info_len salt salt_len w).2.1
        = out_key ∧
      ∃ evs, (SSKDF_HMAC W out_key out_len digest secret secret_len info info_len salt
          salt_len w).2.2.trace = w.trace ++ evs ∧ ∀ e ∈ evs, Event.block_work e = false) := by
  have hbad : ∀ b, early_failure W b out_key out_len digest secret secret_len info_len := by
    intro b
    rcases h with h | h
    · exact Or.inr (Or.inr (Or.inr (Or.inl h)))
    · exact Or.inr (Or.inr (Or.inl h))
  refine ⟨?_, SSKDF_DIGEST_early W out_key out_len digest secret secret_len info info_len w
    (Or.inl (hbad true)), SSKDF_HMAC_early W out_key out_len digest secret secret_len info
    info_len salt salt_len w (Or.inl (hbad true))⟩
  have hz : out_len = 0 ∨ secret_len = 0 := h.symm
  rcases out_key with _ | buf <;> rcases secret with _ | sec <;>
    simp [KBKDF_CTR, hz, HMAC_CTX_free, World.release]

/-- C7 at a concrete input: a non-null secret of length 0. -/
theorem C7_witness :
    (KBKDF_CTR 64 (some [9, 9]) 2 (some (toy_md 2 (by decide))) (some [1]) 0 [7] 1 calm).1
      = Outcome.ret 0 ∧
    (SSKDF_DIGEST 64 (some [9, 9]) 2 (some (toy_md 2 (by decide))) (some [1]) 0 [7] 1 calm).1
      = Outcome.ret 0 ∧
    (SSKDF_HMAC 64 (some [9, 9]) 2 (some (toy_md 2 (by decide))) (some [1]) 0 [7] 1 [5] 1
      calm).1 = Outcome.ret 0 :=
  have h := C7_empty_secret_or_output_rejected 64 (some [9, 9]) 2 (some (toy_md 2 (by decide)))
    (some [1]) 0 [7] 1 [5] 1 calm (Or.inl rfl)
  ⟨h.1.1, h.2.1.1, h.2.2.1⟩

theorem counter_space_check {W : Nat} (hW : W = 32 ∨ W = 64) {out_len h_len : Nat}
    (ho : out_len < 2 ^ W) (hpos : 0 < h_len) (hmax : h_len ≤ EVP_MAX_MD_SIZE)
    (hc : ⌈(out_len : ℚ) / (h_len : ℚ)⌉₊ > UINT32_MAX) :
    length_check_fails W out_len h_len = true := by
  have hh : h_len < 2 ^ W := by
    rcases two_pow_cases hW with h | h <;> simp only [EVP_MAX_MD_SIZE] at hmax <;> omega
  rw [length_check_fails_iff hW ho hh hpos]
  right
  rw [← ceil_div_eq _ _ hpos]
  exact hc

/-- C8: when `ceil(out_len / h_len) > 2^32 - 1` for the output size `h_len > 0` of
the digest, `SSKDF_DIGEST`, `SSKDF_HMAC` and `KBKDF_CTR` return 0, `out_key` is
unchanged and no block computation or copy is recorded; the SSKDF engine itself,
run with a variant whose size is `h_len`, returns 0 before the loop with context,
`out_key` and world unchanged. -/
theorem C8_counter_space_bound {W : Nat} (hW : W = 32 ∨ W = 64) (md : EVP_MD)
    (out_key : Option (List Nat)) (out_len : Nat) (secret : Option (List Nat))
    (secret_len : Nat) (info : List Nat) (info_len : Nat) (salt : List Nat) (salt_len : Nat)
    (w : World) (ho : out_len < 2 ^ W) (hpos : 0 < md.md_size)
    (hc : ⌈(out_len : ℚ) / (md.md_size : ℚ)⌉₊ > 2 ^ 32 - 1) :
    ((SSKDF_DIGEST W out_key out_len (some md) secret secret_len info info_len w).1
        = Outcome.ret 0 ∧
      (SSKDF_DIGEST W out_key out_len (some md) secret secret_len info info_len w).2.1
        = out_key ∧
      ∃ evs, (SSKDF_DIGEST W out_key out_len (some md) secret secret_len info info_len
          w).2.2.trace = w.trace ++ evs ∧ ∀ e ∈ evs, Event.block_work e = false) ∧
    ((SSKDF_HMAC W out_key out_len (some md) secret secret_len info info_len salt salt_len
        w).1 = Outcome.ret 0 ∧
      (SSKDF_HMAC W out_key out_len (some md) secret secret_len info info_len salt salt_len
        w).2.1 = out_key ∧
      ∃ evs, (SSKDF_HMAC W out_key out_len (some md) secret secret_len info info_len salt
          salt_len w).2.2.trace = w.trace ++ evs ∧ ∀ e ∈ evs, Event.block_work e = false) ∧
    ((KBKDF_CTR W out_key out_len (some md) secret secret_len info info_len w).1
        = Outcome.ret 0 ∧
      (KBKDF_CTR W out_key out_len (some md) secret secret_len info info_len w).2.1
        = out_key ∧
      ∃ evs, (KBKDF_CTR W out_key out_len (some md) secret secret_len info info_len
          w).2.2.trace = w.trace ++ evs ∧ ∀ e ∈ evs, Event.block_work e = false) ∧
    (∀ (α : Type) (variant : SSKDF_VARIANT α) (c : SSKDF_VARIANT_CTX α),
      variant.size (some c) = md.md_size →
      SSKDF W variant (some c) out_key out_len secret secret_len info info_len w
        = (Outcome.ret 0, some c, out_key, w)) := by
  have hlc : length_check_fails W out_len md.md_size = true :=
    counter_space_check hW ho hpos md.md_size_le (by simpa [UINT32_MAX] using hc)
  have hbad : ∀ b, early_failure W b out_key out_len (some md) secret secret_len info_len :=
    fun b => Or.inr (Or.inr (Or.inr (Or.inr (Or.inr ⟨md, rfl, Or.inr (Or.inl hlc)⟩))))
  refine ⟨SSKDF_DIGEST_early W out_key out_len (some md) secret secret_len info info_len w
      (Or.inl (hbad true)),
    SSKDF_HMAC_early W out_key out_len (some md) secret secret_len info info_len salt salt_len
      w (Or.inl (hbad true)),
    KBKDF_CTR_early W out_key out_len (some md) secret secret_len info info_len w
      (Or.inl (hbad false)), ?_⟩
  intro α variant c hsize
  have he := SSKDF_early W variant c out_key out_len secret secret_len info info_len w
    (Or.inr (Or.inr (Or.inr (Or.inr (Or.inr (Or.inl (by rw [hsize]; exact hlc)))))))
  have h1 := he.1.resolve_right (fun h => h.1 (by rw [hsize]; exact md.md_size_le))
  exact Prod.ext h1 he.2

/-- C8 at a concrete input: `out_len = 2^40` with 2-byte blocks on a 64-bit
platform asks for `2^39` blocks. -/
theorem C8_witness :
    (SSKDF_DIGEST 64 (some [9, 9]) 1099511627776 (some (toy_md 2 (by decide))) (some [1]) 1
      [7] 1 calm).1 = Outcome.ret 0 ∧
    (SSKDF_HMAC 64 (some [9, 9]) 1099511627776 (some (toy_md 2 (by decide))) (some [1]) 1
      [7] 1 [5] 1 calm).2.1 = some [9, 9] ∧
    (KBKDF_CTR 64 (some [9, 9]) 1099511627776 (some (toy_md 2 (by decide))) (some [1]) 1
      [7] 1 calm).1 = Outcome.ret 0 :=
  have h := C8_counter_space_bound (W := 64) (Or.inr rfl) (toy_md 2 (by decide)) (some [9, 9])
    1099511627776 (some [1]) 1 [7] 1 [5] 1 calm (by norm_num) (by decide)
    (by
      rw [ceil_div_eq _ _ (by decide)]
      decide)
  ⟨h.1.1, h.2.1.2.1, h.2.2.1.1⟩

/-- C9: with `size_t` arithmetic modulo `2^W`, the length check of both engines
fails exactly when `out_len + h_len` overflows or `ceil(out_len / h_len)` exceeds
`2^32 - 1`; when it passes there was no overflow, the wrapped `n` is at most
`2^32 - 1` and equals the exact ceiling.  The engines leave before the loop when
the check fails, and otherwise run the loop with that `n`. -/
theorem C9_length_check {W : Nat} (hW : W = 32 ∨ W = 64) (out_len h_len : Nat)
    (ho : out_len < 2 ^ W) (hh : h_len < 2 ^ W) (hpos : 0 < h_len) :
    (length_check_fails W out_len h_len = true ↔
      (2 ^ W ≤ out_len + h_len ∨ ⌈(out_len : ℚ) / (h_len : ℚ)⌉₊ > 2 ^ 32 - 1)) ∧
    (length_check_fails W out_len h_len = false →
      out_len + h_len < 2 ^ W ∧ n_blocks W out_len h_len ≤ 2 ^ 32 - 1 ∧
      n_blocks W out_len h_len = ⌈(out_len : ℚ) / (h_len : ℚ)⌉₊) ∧
    (∀ (α : Type) (variant : SSKDF_VARIANT α) (c : SSKDF_VARIANT_CTX α)
        (out_key secret : Option (List Nat)) (secret_len : Nat) (info : List Nat)
        (info_len : Nat) (w : World), variant.size (some c) = h_len →
      length_check_fails W out_len h_len = true →
      (SSKDF W variant (some c) out_key out_len secret secret_len info info_len w).1
        ≠ Outcome.ret 1 ∧
      (SSKDF W variant (some c) out_key out_len secret secret_len info info_len w).2
        = (some c, out_key, w)) ∧
    (∀ (α : Type) (variant : SSKDF_VARIANT α) (c : SSKDF_VARIANT_CTX α)
        (buf sec : List Nat) (secret_len : Nat) (info : List Nat)
        (info_len : Nat) (w : World), variant.size (some c) = h_len →
      h_len ≤ EVP_MAX_MD_SIZE → 0 < out_len → 0 < secret_len →
      length_check_fails W out_len h_len = false →
      input_check_fails W secret_len info_len = false →
      ∃ r, r = SSKDF_loop W variant out_len h_len ⌈(out_len : ℚ) / (h_len : ℚ)⌉₊ (some sec)
            secret_len info info_len ⌈(out_len : ℚ) / (h_len : ℚ)⌉₊ 0 0
            (w.uninit EVP_MAX_MD_SIZE) (some c) buf w ∧
        SSKDF W variant (some c) (some buf) out_len (some sec) secret_len info info_len w
          = (r.1, r.2.1, some r.2.2.1, r.2.2.2)) ∧
    (∀ (md : EVP_MD) (out_key secret : Option (List Nat)) (secret_len : Nat) (info : List Nat)
        (info_len : Nat) (w : World), md.md_size = h_len →
      length_check_fails W out_len h_len = true →
      (KBKDF_CTR W out_key out_len (some md) secret secret_len info info_len w).1
        = Outcome.ret 0 ∧
      (KBKDF_CTR W out_key out_len (some md) secret secret_len info info_len w).2.1
        = out_key ∧
      ∃ evs, (KBKDF_CTR W out_key out_len (some md) secret secret_len info info_len
          w).2.2.trace = w.trace ++ evs ∧ ∀ e ∈ evs, Event.block_work e = false) ∧
    (∀ (md : EVP_MD) (buf sec : List Nat) (secret_len : Nat) (info : List Nat)
        (info_len : Nat) (w : World), md.md_size = h_len →
      0 < out_len → 0 < secret_len → w.fail w.tick = false → w.fail (w.tick + 1) = false →
      length_check_fails W out_len h_len = false →
      ∃ r, r = KBKDF_loop W out_len h_len ⌈(out_len : ℚ) / (h_len : ℚ)⌉₊ info info_len
            ⌈(out_len : ℚ) / (h_len : ℚ)⌉₊ 0 0
            (World.uninit
              { w with tick := w.tick + 2,
                       trace := w.trace ++ [Event.alloc (some w.next),
                         Event.HMAC_Init_ex w.next (some (sec.take secret_len)) true],
                       next := w.next + 1, live := w.next :: w.live } EVP_MAX_MD_SIZE)
            { addr := w.next, md := some md, key := sec.take secret_len, data := [] } buf
            { w with tick := w.tick + 2,
                     trace := w.trace ++ [Event.alloc (some w.next),
                       Event.HMAC_Init_ex w.next (some (sec.take secret_len)) true],
                     next := w.next + 1, live := w.next :: w.live } ∧
        (KBKDF_CTR W (some buf) out_len (some md) (some sec) secret_len info info_len w).1
          = r.1 ∧
        (KBKDF_CTR W (some buf) out_len (some md) (some sec) secret_len info info_len w).2.1
          = some r.2.2.1) := by
  have hA := length_check_fails_iff hW ho hh hpos
  have hB : length_check_fails W out_len h_len = false →
      out_len + h_len < 2 ^ W ∧ n_blocks W out_len h_len ≤ 2 ^ 32 - 1 ∧
      n_blocks W out_len h_len = ⌈(out_len : ℚ) / (h_len : ℚ)⌉₊ := by
    intro hlc
    have h1 := hA.not.mp (by simp [hlc])
    push_neg at h1
    have h2 := n_blocks_exact hW hpos h1.1
    rw [h2, ceil_div_eq _ _ hpos]
    exact ⟨h1.1, by simpa [UINT32_MAX] using h1.2, rfl⟩
  refine ⟨?_, hB, ?_, ?_, ?_, ?_⟩
  · rw [hA, ceil_div_eq _ _ hpos]
    simp [UINT32_MAX]
  · intro α variant c out_key secret secret_len info info_len w hsize hlc
    have he := SSKDF_early W variant c out_key out_len secret secret_len info info_len w
      (Or.inr (Or.inr (Or.inr (Or.inr (Or.inr (Or.inl (by rw [hsize]; exact hlc)))))))
    refine ⟨?_, he.2⟩
    rcases he.1 with h | h
    · rw [h]; simp
    · rw [h.2]; simp
  · intro α variant c buf sec secret_len info info_len w hsize hmax hout hsec hlc hic
    have hr := SSKDF_reaches_loop W variant c buf sec out_len secret_len info info_len w hout
      hsec (by rw [hsize]; exact hpos) (by rw [hsize]; exact hmax) (by rw [hsize]; exact hlc)
      hic
    rw [hsize, (hB hlc).2.2] at hr
    exact ⟨_, rfl, hr⟩
  · intro md out_key secret secret_len info info_len w hsize hlc
    exact KBKDF_CTR_early W out_key out_len (some md) secret secret_len info info_len w
      (Or.inl (Or.inr (Or.inr (Or.inr (Or.inr (Or.inr
        ⟨md, rfl, Or.inr (Or.inl (by rw [hsize]; exact hlc))⟩))))))
  · intro md buf sec secret_len info info_len w hsize hout hsec ha0 ha1 hlc
    have hr := KBKDF_CTR_reaches_loop W md buf sec out_len secret_len info info_len w hout
      hsec (by rw [hsize]; exact hpos) (by rw [hsize]; exact hlc) ha0 ha1
    rw [hsize, (hB hlc).2.2] at hr
    exact ⟨_, rfl, hr.1, hr.2⟩

/-- C9 at a concrete input: 100 bytes from 32-byte blocks on a 64-bit platform. -/
theorem C9_witness :
    100 + 32 < 2 ^ 64 ∧ n_blocks 64 100 32 ≤ 2 ^ 32 - 1 ∧
    n_blocks 64 100 32 = ⌈((100 : Nat) : ℚ) / ((32 : Nat) : ℚ)⌉₊ :=
  (C9_length_check (W := 64) (Or.inr rfl) 100 32 (by norm_num) (by norm_num)
    (by decide)).2.1 (by decide)

/-- C10: with `size_t` arithmetic modulo `2^W`, the input-length check of the
SSKDF engine (overflow guard, then the cap) fails exactly when the integer
`4 + secret_len + info_len` exceeds `2^32 - 1`; the guard fires exactly on
overflow, and when it does not fire the machine sum is the exact sum.  The
engine returns before the loop, changing nothing, whenever the exact sum exceeds
`2^32 - 1`, and runs the loop when it does not and the other checks pass. -/
theorem C10_input_length_check {W : Nat} (hW : W = 32 ∨ W = 64) (secret_len info_len : Nat)
    (hs : secret_len < 2 ^ W) (hi : info_len < 2 ^ W) :
    (input_check_fails W secret_len info_len = true ↔
      4 + secret_len + info_len > 2 ^ 32 - 1) ∧
    (input_overflow_guard W secret_len info_len = true ↔
      2 ^ W ≤ 4 + secret_len + info_len) ∧
    (input_overflow_guard W secret_len info_len = false →
      size_add W (size_add W 4 secret_len) info_len = 4 + secret_len + info_len) ∧
    (∀ (α : Type) (variant : SSKDF_VARIANT α) (c : SSKDF_VARIANT_CTX α)
        (out_key : Option (List Nat)) (out_len : Nat) (secret : Option (List Nat))
        (info : List Nat) (w : World),
      4 + secret_len + info_len > 2 ^ 32 - 1 →
      (SSKDF W variant (some c) out_key out_len secret secret_len info info_len w).1
        ≠ Outcome.ret 1 ∧
      (SSKDF W variant (some c) out_key out_len secret secret_len info info_len w).2
        = (some c, out_key, w)) ∧
    (∀ (α : Type) (variant : SSKDF_VARIANT α) (c : SSKDF_VARIANT_CTX α)
        (buf : List Nat) (out_len : Nat) (sec info : List Nat) (w : World),
      0 < out_len → 0 < secret_len → 0 < variant.size (some c) →
      variant.size (some c) ≤ EVP_MAX_MD_SIZE →
      length_check_fails W out_len (variant.size (some c)) = false →
      4 + secret_len + info_len ≤ 2 ^ 32 - 1 →
      ∃ r, r = SSKDF_loop W variant out_len (variant.size (some c))
            (n_blocks W out_len (variant.size (some c))) (some sec) secret_len info info_len
            (n_blocks W out_len (variant.size (some c))) 0 0
            (w.uninit EVP_MAX_MD_SIZE) (some c) buf w ∧
        SSKDF W variant (some c) (some buf) out_len (some sec) secret_len info info_len w
          = (r.1, r.2.1, some r.2.2.1, r.2.2.2)) := by
  have hA := input_check_fails_iff hW hs hi
  have hG := input_guard_iff hW hs hi
  refine ⟨by rw [hA]; simp [UINT32_MAX], hG, ?_, ?_, ?_⟩
  · intro hg
    have := hG.not.mp (by simp [hg])
    exact input_sum_exact (by omega)
  · intro α variant c out_key out_len secret info w hsum
    have hic : input_check_fails W secret_len info_len = true :=
      hA.mpr (by simpa [UINT32_MAX] using hsum)
    have he := SSKDF_early W variant c out_key out_len secret secret_len info info_len w
      (Or.inr (Or.inr (Or.inr (Or.inr (Or.inr (Or.inr hic))))))
    refine ⟨?_, he.2⟩
    rcases he.1 with h | h
    · rw [h]; simp
    · rw [h.2]; simp
  · intro α variant c buf out_len sec info w hout hsec hpos hmax hlc hsum
    have hic : input_check_fails W secret_len info_len = false := by
      have := hA.not
      rw [Bool.not_eq_true] at this
      rw [this]
      simp only [UINT32_MAX]
      omega
    exact ⟨_, rfl, SSKDF_reaches_loop W variant c buf sec out_len secret_len info info_len w
      hout hsec hpos hmax hlc hic⟩

/-- C10 at a concrete input on a 32-bit platform, where the sum wraps around:
`secret_len = 2^32 - 4` and `info_len = 8` give the machine sum 8, and the check
fails. -/
theorem C10_witness :
    input_check_fails 32 4294967292 8 = true ∧
    size_add 32 (size_add 32 4 4294967292) 8 = 8 :=
  ⟨(C10_input_length_check (W := 32) (Or.inl rfl) 4294967292 8 (by norm_num)
      (by norm_num)).1.mpr (by norm_num), by decide⟩

/-! ## Failing block computations -/

theorem digest_compute_fail (md : EVP_MD) (vaddr : Nat) (m : EVP_MD_CTX)
    (o : List Nat) (out_len : Nat) (ctr sec : List Nat) (secret_len : Nat)
    (info : List Nat) (info_len : Nat) (w : World)
    (h : (sskdf_variant_digest_compute
      (some { data := some { addr := vaddr, digest := some md, ctx := some m } })
      (some o) out_len (some ctr) (some sec) secret_len info info_len w).1 = 0) :
    ∃ j, j < 6 ∧ (∀ k, k < j → w.fail (w.tick + k) = false) ∧ w.fail (w.tick + j) = true ∧
      (sskdf_variant_digest_compute
        (some { data := some { addr := vaddr, digest := some md, ctx := some m } })
        (some o) out_len (some ctr) (some sec) secret_len info info_len w).2.2.2
        = w.advance (j + 1)
          ((digest_events m.addr (ctr.take 4) (sec.take secret_len) (info.take info_len)).take
            (j + 1)) := by
  cases h0 : w.fail w.tick
  swap
  · exact ⟨0, by omega, by intro k hk; omega, by simpa using h0, by
      simp [sskdf_variant_digest_compute, reset_fail h0, digest_events]⟩
  cases h1 : w.fail (w.tick + 1)
  swap
  · refine ⟨1, by omega, ?_, h1, by
      simp [sskdf_variant_digest_compute, reset_ok h0, digest_init_fail, h1, digest_events]⟩
    intro k hk
    have : k = 0 := by omega
    subst this; simpa using h0
  cases h2 : w.fail (w.tick + 1 + 1)
  swap
  · refine ⟨2, by omega, ?_, h2, by
      simp [sskdf_variant_digest_compute, reset_ok h0, digest_init_ok, h1, digest_update_fail,
        h2, digest_events]⟩
    intro k hk
    have : k = 0 ∨ k = 1 := by omega
    rcases this with rfl | rfl
    · simpa using h0
    · exact h1
  cases h3 : w.fail (w.tick + 1 + 1 + 1)
  swap
  · refine ⟨3, by omega, ?_, h3, by
      simp [sskdf_variant_digest_compute, reset_ok h0, digest_init_ok, h1, digest_update_ok,
        digest_update_fail, h2, h3, digest_events]⟩
    intro k hk
    have : k = 0 ∨ k = 1 ∨ k = 2 := by omega
    rcases this with rfl | rfl | rfl
    · simpa using h0
    · exact h1
    · exact h2
  cases h4 : w.fail (w.tick + 1 + 1 + 1 + 1)
  swap
  · refine ⟨4, by omega, ?_, h4, by
      simp [sskdf_variant_digest_compute, reset_ok h0, digest_init_ok, h1, digest_update_ok,
        digest_update_fail, h2, h3, h4, digest_events]⟩
    intro k hk
    have : k = 0 ∨ k = 1 ∨ k = 2 ∨ k = 3 := by omega
    rcases this with rfl | rfl | rfl | rfl
    · simpa using h0
    · exact h1
    · exact h2
    · exact h3
  cases h5 : w.fail (w.tick + 1 + 1 + 1 + 1 + 1)
  swap
  · refine ⟨5, by omega, ?_, h5, by
      simp [sskdf_variant_digest_compute, reset_ok h0, digest_init_ok, h1, digest_update_ok,
        digest_final_fail, h2, h3, h4, h5, digest_events]⟩
    intro k hk
    have : k = 0 ∨ k = 1 ∨ k = 2 ∨ k = 3 ∨ k = 4 := by omega
    rcases this with rfl | rfl | rfl | rfl | rfl
    · simpa using h0
    · exact h1
    · exact h2
    · exact h3
    · exact h4
  · exfalso
    simp [sskdf_variant_digest_compute, reset_ok h0, digest_init_ok, h1,
      digest_update_ok, digest_final_ok, h2, h3, h4, h5] at h

theorem hmac_compute_fail (md : EVP_MD) (vaddr a : Nat) (key x : List Nat)
    (o : List Nat) (out_len : Nat) (ctr sec : List Nat) (secret_len : Nat)
    (info : List Nat) (info_len : Nat) (w : World)
    (h : (sskdf_variant_hmac_compute
      (some { data := some { addr := vaddr,
                             ctx := some { addr := a, md := some md, key := key, data := x } } })
      (some o) out_len (some ctr) (some sec) secret_len info info_len w).1 = 0) :
    ∃ j, j < 5 ∧ (∀ k, k < j → w.fail (w.tick + k) = false) ∧ w.fail (w.tick + j) = true ∧
      (sskdf_variant_hmac_compute
        (some { data := some { addr := vaddr,
                               ctx := some { addr := a, md := some md, key := key, data := x } } })
        (some o) out_len (some ctr) (some sec) secret_len info info_len w).2.2.2
        = w.advance (j + 1)
          ((hmac_events a (ctr.take 4) (sec.take secret_len) (info.take info_len)).take
            (j + 1)) := by
  cases h0 : w.fail w.tick
  swap
  · exact ⟨0, by omega, by intro k hk; omega, by simpa using h0, by
      simp [sskdf_variant_hmac_compute, hmac_init_fail h0, hmac_events]⟩
  cases h1 : w.fail (w.tick + 1)
  swap
  · refine ⟨1, by omega, ?_, h1, by
      simp [sskdf_variant_hmac_compute, hmac_reinit_ok h0, hmac_update_fail, h1, hmac_events]⟩
    intro k hk
    have : k = 0 := by omega
    subst this; simpa using h0
  cases h2 : w.fail (w.tick + 1 + 1)
  swap
  · refine ⟨2, by omega, ?_, h2, by
      simp [sskdf_variant_hmac_compute, hmac_reinit_ok h0, hmac_update_ok, h1,
        hmac_update_fail, h2, hmac_events]⟩
    intro k hk
    have : k = 0 ∨ k = 1 := by omega
    rcases this with rfl | rfl
    · simpa using h0
    · exact h1
  cases h3 : w.fail (w.tick + 1 + 1 + 1)
  swap
  · refine ⟨3, by omega, ?_, h3, by
      simp [sskdf_variant_hmac_compute, hmac_reinit_ok h0, hmac_update_ok, h1,
        hmac_update_fail, h2, h3, hmac_events]⟩
    intro k hk
    have : k = 0 ∨ k = 1 ∨ k = 2 := by omega
    rcases this with rfl | rfl | rfl
    · simpa using h0
    · exact h1
    · exact h2
  cases h4 : w.fail (w.tick + 1 + 1 + 1 + 1)
  swap
  · refine ⟨4, by omega, ?_, h4, by
      simp [sskdf_variant_hmac_compute, hmac_reinit_ok h0, hmac_update_ok, h1,
        hmac_final_fail, h2, h3, h4, hmac_events]⟩
    intro k hk
    have : k = 0 ∨ k = 1 ∨ k = 2 ∨ k = 3 := by omega
    rcases this with rfl | rfl | rfl | rfl
    · simpa using h0
    · exact h1
    · exact h2
    · exact h3
  · exfalso
    simp [sskdf_variant_hmac_compute, hmac_reinit_ok h0, hmac_update_ok, h1,
      hmac_final_ok, h2, h3, h4] at h

theorem kbkdf_step_fail (md : EVP_MD) (a : Nat) (key x : List Nat)
    (info : List Nat) (info_len : Nat) (v : Nat) (prev : List Nat) (w : World)
    (h : (kbkdf_step info info_len v { addr := a, md := some md, key := key, data := x } prev
      w).1 = false) :
    ∃ j, j < 4 ∧ (∀ k, k < j → w.fail (w.tick + k) = false) ∧ w.fail (w.tick + j) = true ∧
      (kbkdf_step info info_len v { addr := a, md := some md, key := key, data := x } prev
        w).2.2.2
        = w.advance (j + 1)
          ((kbkdf_events a (CRYPTO_store_u32_be v) (info.take info_len)).take (j + 1)) := by
  cases h0 : w.fail w.tick
  swap
  · exact ⟨0, by omega, by intro k hk; omega, by simpa using h0, by
      simp [kbkdf_step, hmac_init_fail h0, kbkdf_events]⟩
  cases h1 : w.fail (w.tick + 1)
  swap
  · refine ⟨1, by omega, ?_, h1, by
      simp [kbkdf_step, hmac_reinit_ok h0, hmac_update_fail, h1, kbkdf_events,
        store_u32_be_take]⟩
    intro k hk
    have : k = 0 := by omega
    subst this; simpa using h0
  cases h2 : w.fail (w.tick + 1 + 1)
  swap
  · refine ⟨2, by omega, ?_, h2, by
      simp [kbkdf_step, hmac_reinit_ok h0, hmac_update_ok, h1, hmac_update_fail, h2,
        kbkdf_events, store_u32_be_take]⟩
    intro k hk
    have : k = 0 ∨ k = 1 := by omega
    rcases this with rfl | rfl
    · simpa using h0
    · exact h1
  cases h3 : w.fail (w.tick + 1 + 1 + 1)
  swap
  · refine ⟨3, by omega, ?_, h3, by
      simp [kbkdf_step, hmac_reinit_ok h0, hmac_update_ok, h1, hmac_final_fail, h2, h3,
        kbkdf_events, store_u32_be_take]⟩
    intro k hk
    have : k = 0 ∨ k = 1 ∨ k = 2 := by omega
    rcases this with rfl | rfl | rfl
    · simpa using h0
    · exact h1
    · exact h2
  · exfalso
    simp [kbkdf_step, hmac_reinit_ok h0, hmac_update_ok, h1, hmac_final_ok, h2, h3] at h

theorem digest_step_fail_spec (md : EVP_MD) (vaddr a : Nat) (h_len : Nat)
    (sec : List Nat) (secret_len : Nat) (info : List Nat) (info_len : Nat) :
    StepFailSpec (sskdf_step SSKDF_VARIANT_DIGEST h_len (some sec) secret_len info info_len)
      (fun c => ∃ m : EVP_MD_CTX, m.addr = a ∧
        c = digest_ctx_with { addr := vaddr, digest := some md, ctx := none } m) 6
      (fun v => digest_events a (CRYPTO_store_u32_be v) (sec.take secret_len)
        (info.take info_len)) := by
  refine ⟨?_⟩
  rintro v s prev w ⟨m, rfl, rfl⟩ hf
  have hz : (sskdf_variant_digest_compute
      (some { data := some { addr := vaddr, digest := some md, ctx := some m } })
      (some prev) h_len (some (CRYPTO_store_u32_be v)) (some sec) secret_len info info_len
      w).1 = 0 := by
    simpa [sskdf_step, SSKDF_VARIANT_DIGEST, digest_ctx_with] using hf
  obtain ⟨j, hj, h1, h2, h3⟩ := digest_compute_fail md vaddr m prev h_len
    (CRYPTO_store_u32_be v) sec secret_len info info_len w hz
  refine ⟨j, hj, h1, h2, ?_⟩
  simp only [store_u32_be_take] at h3
  simpa [sskdf_step, SSKDF_VARIANT_DIGEST, digest_ctx_with] using h3

theorem hmac_step_fail_spec (md : EVP_MD) (vaddr a : Nat) (key : List Nat) (h_len : Nat)
    (sec : List Nat) (secret_len : Nat) (info : List Nat) (info_len : Nat) :
    StepFailSpec (sskdf_step SSKDF_VARIANT_HMAC h_len (some sec) secret_len info info_len)
      (fun c => ∃ x : List Nat,
        c = hmac_ctx_with { addr := vaddr, ctx := none }
          { addr := a, md := some md, key := key, data := x }) 5
      (fun v => hmac_events a (CRYPTO_store_u32_be v) (sec.take secret_len)
        (info.take info_len)) := by
  refine ⟨?_⟩
  rintro v s prev w ⟨x, rfl⟩ hf
  have hz : (sskdf_variant_hmac_compute
      (some { data := some { addr := vaddr,
                             ctx := some { addr := a, md := some md, key := key, data := x } } })
      (some prev) h_len (some (CRYPTO_store_u32_be v)) (some sec) secret_len info info_len
      w).1 = 0 := by
    simpa [sskdf_step, SSKDF_VARIANT_HMAC, hmac_ctx_with] using hf
  obtain ⟨j, hj, h1, h2, h3⟩ := hmac_compute_fail md vaddr a key x prev h_len
    (CRYPTO_store_u32_be v) sec secret_len info info_len w hz
  refine ⟨j, hj, h1, h2, ?_⟩
  simp only [store_u32_be_take] at h3
  simpa [sskdf_step, SSKDF_VARIANT_HMAC, hmac_ctx_with] using h3

theorem kbkdf_step_fail_spec (md : EVP_MD) (a : Nat) (key : List Nat)
    (info : List Nat) (info_len : Nat) :
    StepFailSpec (kbkdf_step info info_len)
      (fun c => ∃ x : List Nat, c = { addr := a, md := some md, key := key, data := x }) 4
      (fun v => kbkdf_events a (CRYPTO_store_u32_be v) (info.take info_len)) := by
  refine ⟨?_⟩
  rintro v s prev w ⟨x, rfl⟩ hf
  exact kbkdf_step_fail md a key x info info_len v prev w hf

/-- The block loop that returns 0: some iteration `i + k` was the first to fail,
at its library call number `j`; the `k` iterations before it ran completely and
copied their full blocks, and nothing was computed or copied afterwards. -/
theorem block_loop_fail_spec {σ : Type} {W : Nat}
    {step : Nat → σ → List Nat → World → Bool × σ × List Nat × World}
    {Inv : σ → Prop} {post : σ} {cost : Nat} {blk : Nat → List Nat} {evs : Nat → List Event}
    (hs : StepSpec step Inv post cost blk evs) (hf : StepFailSpec step Inv cost evs)
    {out_len h_len n : Nat} (hpos : 0 < h_len) (ho : out_len < 2 ^ W)
    (hn : n = (out_len + h_len - 1) / h_len) (hn32 : n ≤ UINT32_MAX)
    (hblk : ∀ v, (blk v).length = h_len) :
    ∀ (fuel i : Nat) (prev : List Nat) (s : σ) (out : List Nat) (w : World)
      (s1 : σ) (out1 : List Nat) (w1 : World),
      n ≤ i + fuel → i ≤ n → out_len ≤ out.length → Inv s →
      block_loop W step out_len h_len n fuel i (min (i * h_len) out_len) prev s out w =
        (Outcome.ret 0, s1, out1, w1) →
      ∃ k j, k < n - i ∧ j < cost ∧
        (∀ t, t < k * cost + j → w.fail (w.tick + t) = false) ∧
        w.fail (w.tick + (k * cost + j)) = true ∧
        w1 = w.advance (k * cost + (j + 1))
          (loop_events evs blk out_len h_len i k ++ (evs (i + k + 1)).take (j + 1)) ∧
        out1 = out.take (i * h_len) ++ blocks_from blk i k ++ out.drop ((i + k) * h_len) := by
  intro fuel
  induction fuel with
  | zero =>
    intro i prev s out w s1 out1 w1 hfu hi hlen hinv hrun
    have hin : ¬ i < n := by omega
    simp [block_loop, hin] at hrun
  | succ fuel ih =>
    intro i prev s out w s1 out1 w1 hfu hi hlen hinv hrun
    by_cases hlt : i < n
    swap
    · rw [block_loop] at hrun
      simp [hlt] at hrun
    have hd : i * h_len < out_len := (ceil_iter_lt hpos).mp (hn ▸ hlt)
    have hmin : min (i * h_len) out_len = i * h_len := by omega
    have hv : (i + 1) % 2 ^ 32 = i + 1 := Nat.mod_eq_of_lt (by simp only [UINT32_MAX] at hn32; omega)
    have hsub : size_sub W out_len (i * h_len) = out_len - i * h_len :=
      size_sub_exact (by omega) ho
    have htodo : (if h_len > out_len - i * h_len then out_len - i * h_len else h_len) =
        min h_len (out_len - i * h_len) := by
      split <;> omega
    have hmul : (i + 1) * h_len = i * h_len + h_len := by rw [Nat.add_mul, Nat.one_mul]
    have hadd : size_add W (i * h_len) (min h_len (out_len - i * h_len)) =
        min ((i + 1) * h_len) out_len := by
      rw [size_add_exact (by omega), hmul]; omega
    rw [hmin, block_loop] at hrun
    simp only [hlt, if_true, hv, hsub, htodo, hadd] at hrun
    rcases hs.cases (i + 1) s prev w hinv with ⟨hf1, _⟩ | ⟨hok1, hok2⟩
    · obtain ⟨j, hj, hj1, hj2, hj3⟩ := hf.fails (i + 1) s prev w hinv hf1
      rcases hstep : step (i + 1) s prev w with ⟨b, s2, p2, w2⟩
      rw [hstep] at hf1 hj3 hrun
      simp only at hf1 hj3
      subst hf1
      simp only [Prod.mk.injEq, true_and] at hrun
      obtain ⟨_, rfl, rfl⟩ := hrun
      refine ⟨0, j, by omega, hj, by simpa using hj1, by simpa using hj2, ?_, ?_⟩
      · rw [hj3]; simp [loop_events]
      · simp [blocks_from]
    · rw [hok2] at hrun
      simp only [log_eq, advance_advance, Nat.add_zero] at hrun
      have htl : min h_len (out_len - i * h_len) ≤ (blk (i + 1)).length := by
        rw [hblk]; omega
      have hsrc : min h_len (out_len - i * h_len) ≤
          (write_block prev (blk (i + 1))).length := by simp [write_block]; omega
      have hlen1 : (OPENSSL_memcpy out (i * h_len) (write_block prev (blk (i + 1)))
          (min h_len (out_len - i * h_len))).length = out.length :=
        memcpy_length (by omega) hsrc
      obtain ⟨k, j, hk, hj, hj1, hj2, hw, hout⟩ :=
        ih (i + 1) (write_block prev (blk (i + 1))) post
          (OPENSSL_memcpy out (i * h_len) (write_block prev (blk (i + 1)))
            (min h_len (out_len - i * h_len)))
          (w.advance cost (evs (i + 1) ++ [Event.memcpy (i * h_len)
            ((write_block prev (blk (i + 1))).take (min h_len (out_len - i * h_len)))]))
          s1 out1 w1 (by omega) (by omega) (by omega) hs.post_inv hrun
      have hnext : (i + 1) * h_len < out_len :=
        (ceil_iter_lt hpos).mp (by rw [← hn]; omega)
      have hfull : min h_len (out_len - i * h_len) = h_len := by
        rw [hmul] at hnext; omega
      have hcost : (k + 1) * cost = cost + k * cost := by rw [Nat.add_mul, Nat.one_mul]; omega
      refine ⟨k + 1, j, by omega, hj, ?_, ?_, ?_, ?_⟩
      · intro t ht
        by_cases htc : t < cost
        · exact hok1 t htc
        · have := hj1 (t - cost) (by rw [hcost] at ht; omega)
          simp only [advance_fail, advance_tick] at this
          rw [← this]; congr 1; omega
      · simp only [advance_fail, advance_tick] at hj2
        rw [← hj2]; congr 1; rw [hcost]; omega
      · have e_idx : i + 1 + k + 1 = i + (k + 1) + 1 := by omega
        have e_c : cost + (k * cost + (j + 1)) = (k + 1) * cost + (j + 1) := by
          rw [hcost]; omega
        rw [hw]
        simp only [advance_advance, loop_events, write_block_take htl, List.append_assoc,
          e_idx, e_c]
      · have e_idx : (i + 1 + k) * h_len = (i + (k + 1)) * h_len := by
          congr 1; omega
        have hle2 : i * h_len + h_len ≤ (i + (k + 1)) * h_len := by
          rw [Nat.add_mul, Nat.add_mul, Nat.one_mul]; omega
        have hwb : (write_block prev (blk (i + 1))).take h_len = blk (i + 1) := by
          rw [write_block_take (hblk (i + 1)).ge, List.take_of_length_le (hblk (i + 1)).le]
        rw [hfull] at hsrc
        rw [hout, hmul, hfull, memcpy_take (by omega) hsrc, hwb,
          e_idx, memcpy_drop (by omega) hsrc hle2]
        simp only [blocks_from, List.append_assoc]

/-- Whatever happens, `sskdf_variant_digest_compute` leaves the context pointing
at the same record and the same hash object. -/
theorem digest_compute_shape (md : EVP_MD) (vaddr : Nat) (m : EVP_MD_CTX)
    (o : List Nat) (out_len : Nat) (ctr sec : List Nat) (secret_len : Nat)
    (info : List Nat) (info_len : Nat) (w : World) :
    ∃ m' : EVP_MD_CTX, m'.addr = m.addr ∧
      (sskdf_variant_digest_compute
        (some { data := some { addr := vaddr, digest := some md, ctx := some m } })
        (some o) out_len (some ctr) (some sec) secret_len info info_len w).2.1
        = some { data := some { addr := vaddr, digest := some md, ctx := some m' } } := by
  cases h0 : w.fail w.tick
  swap
  · exact ⟨m, rfl, by simp [sskdf_variant_digest_compute, reset_fail h0, digest_ctx_with]⟩
  cases h1 : w.fail (w.tick + 1)
  swap
  · exact ⟨{ addr := m.addr, digest := none, data := [] }, rfl, by
      simp [sskdf_variant_digest_compute, reset_ok h0, digest_init_fail, h1, digest_ctx_with]⟩
  cases h2 : w.fail (w.tick + 1 + 1)
  swap
  · exact ⟨{ addr := m.addr, digest := some md, data := [] }, rfl, by
      simp [sskdf_variant_digest_compute, reset_ok h0, digest_init_ok, h1, digest_update_fail,
        h2, digest_ctx_with]⟩
  cases h3 : w.fail (w.tick + 1 + 1 + 1)
  swap
  · exact ⟨{ addr := m.addr, digest := some md, data := ctr.take 4 }, rfl, by
      simp [sskdf_variant_digest_compute, reset_ok h0, digest_init_ok, h1, digest_update_ok,
        digest_update_fail, h2, h3, digest_ctx_with]⟩
  cases h4 : w.fail (w.tick + 1 + 1 + 1 + 1)
  swap
  · exact ⟨{ addr := m.addr, digest := some md, data := ctr.take 4 ++ sec.take secret_len },
      rfl, by
      simp [sskdf_variant_digest_compute, reset_ok h0, digest_init_ok, h1, digest_update_ok,
        digest_update_fail, h2, h3, h4, digest_ctx_with]⟩
  cases h5 : w.fail (w.tick + 1 + 1 + 1 + 1 + 1)
  swap
  · exact ⟨{ addr := m.addr, digest := some md,
             data := ctr.take 4 ++ sec.take secret_len ++ info.take info_len }, rfl, by
      simp [sskdf_variant_digest_compute, reset_ok h0, digest_init_ok, h1, digest_update_ok,
        digest_final_fail, h2, h3, h4, h5, digest_ctx_with]⟩
  · exact ⟨{ addr := m.addr, digest := none, data := [] }, rfl, by
      simp [sskdf_variant_digest_compute, reset_ok h0, digest_init_ok, h1, digest_update_ok,
        digest_final_ok, h2, h3, h4, h5, digest_ctx_with]⟩

/-- Whatever happens, `sskdf_variant_hmac_compute` leaves the context pointing at
the same record and the same keyed-hash object, with its algorithm and key. -/
theorem hmac_compute_shape (md : EVP_MD) (vaddr a : Nat) (key x : List Nat)
    (o : List Nat) (out_len : Nat) (ctr sec : List Nat) (secret_len : Nat)
    (info : List Nat) (info_len : Nat) (w : World) :
    ∃ x' : List Nat,
      (sskdf_variant_hmac_compute
        (some { data := some { addr := vaddr,
                               ctx := some { addr := a, md := some md, key := key, data := x } } })
        (some o) out_len (some ctr) (some sec) secret_len info info_len w).2.1
        = some { data := some { addr := vaddr,
                                ctx := some { addr := a, md := some md, key := key,
                                              data := x' } } } := by
  cases h0 : w.fail w.tick
  swap
  · exact ⟨x, by simp [sskdf_variant_hmac_compute, hmac_init_fail h0, hmac_ctx_with]⟩
  cases h1 : w.fail (w.tick + 1)
  swap
  · exact ⟨[], by
      simp [sskdf_variant_hmac_compute, hmac_reinit_ok h0, hmac_update_fail, h1,
        hmac_ctx_with]⟩
  cases h2 : w.fail (w.tick + 1 + 1)
  swap
  · exact ⟨ctr.take 4, by
      simp [sskdf_variant_hmac_compute, hmac_reinit_ok h0, hmac_update_ok, h1,
        hmac_update_fail, h2, hmac_ctx_with]⟩
  cases h3 : w.fail (w.tick + 1 + 1 + 1)
  swap
  · exact ⟨ctr.take 4 ++ sec.take secret_len, by
      simp [sskdf_variant_hmac_compute, hmac_reinit_ok h0, hmac_update_ok, h1,
        hmac_update_fail, h2, h3, hmac_ctx_with]⟩
  cases h4 : w.fail (w.tick + 1 + 1 + 1 + 1)
  swap
  · exact ⟨ctr.take 4 ++ sec.take secret_len ++ info.take info_len, by
      simp [sskdf_variant_hmac_compute, hmac_reinit_ok h0, hmac_update_ok, h1,
        hmac_final_fail, h2, h3, h4, hmac_ctx_with]⟩
  · exact ⟨[], by
      simp [sskdf_variant_hmac_compute, hmac_reinit_ok h0, hmac_update_ok, h1,
        hmac_final_ok, h2, h3, h4, hmac_ctx_with]⟩

/-- Whatever happens, a block computation of `KBKDF_CTR` leaves the keyed-hash
object at its address, with its algorithm and key. -/
theorem kbkdf_step_shape (md : EVP_MD) (a : Nat) (key x : List Nat)
    (info : List Nat) (info_len : Nat) (v : Nat) (prev : List Nat) (w : World) :
    ∃ x' : List Nat,
      (kbkdf_step info info_len v { addr := a, md := some md, key := key, data := x } prev
        w).2.1 = { addr := a, md := some md, key := key, data := x' } := by
  cases h0 : w.fail w.tick
  swap
  · exact ⟨x, by simp [kbkdf_step, hmac_init_fail h0]⟩
  cases h1 : w.fail (w.tick + 1)
  swap
  · exact ⟨[], by simp [kbkdf_step, hmac_reinit_ok h0, hmac_update_fail, h1]⟩
  cases h2 : w.fail (w.tick + 1 + 1)
  swap
  · exact ⟨CRYPTO_store_u32_be v, by
      simp [kbkdf_step, hmac_reinit_ok h0, hmac_update_ok, h1, hmac_update_fail, h2,
        store_u32_be_take]⟩
  cases h3 : w.fail (w.tick + 1 + 1 + 1)
  swap
  · exact ⟨CRYPTO_store_u32_be v ++ info.take info_len, by
      simp [kbkdf_step, hmac_reinit_ok h0, hmac_update_ok, h1, hmac_final_fail, h2, h3,
        store_u32_be_take]⟩
  · exact ⟨[], by
      simp [kbkdf_step, hmac_reinit_ok h0, hmac_update_ok, h1, hmac_final_ok, h2, h3]⟩

theorem block_loop_inv {σ : Type} (W : Nat)
    (step : Nat → σ → List Nat → World → Bool × σ × List Nat × World) (Inv : σ → Prop)
    (out_len h_len n : Nat)
    (hpres : ∀ v s prev w, Inv s → Inv (step v s prev w).2.1) :
    ∀ (fuel i done : Nat) (prev : List Nat) (s : σ) (out : List Nat) (w : World), Inv s →
      Inv (block_loop W step out_len h_len n fuel i done prev s out w).2.1 := by
  intro fuel
  induction fuel with
  | zero =>
    intro i done prev s out w hinv
    rw [block_loop]
    split <;> exact hinv
  | succ fuel ih =>
    intro i done prev s out w hinv
    rw [block_loop]
    split
    · have h1 := hpres ((i + 1) % 2 ^ 32) s prev w hinv
      rcases hstep : step ((i + 1) % 2 ^ 32) s prev w with ⟨b, s1, p1, w1⟩
      rw [hstep] at h1
      cases b
      · exact h1
      · exact ih _ _ _ _ _ _ h1
    · exact hinv

/-- The SSKDF engine on arguments that pass every check, with the failing runs
spelled out: either it succeeds (as in `SSKDF_spec`), or block computation
`k + 1` fails at its library call `j`, after `k` complete blocks were copied. -/
theorem SSKDF_run {α : Type} {W : Nat} (hW : W = 32 ∨ W = 64) (variant : SSKDF_VARIANT α)
    (c : SSKDF_VARIANT_CTX α) (buf sec : List Nat) (out_len secret_len : Nat)
    (info : List Nat) (info_len : Nat) (w : World)
    {Inv : Option (SSKDF_VARIANT_CTX α) → Prop} {post : Option (SSKDF_VARIANT_CTX α)}
    {cost : Nat} {blk : Nat → List Nat} {evs : Nat → List Event} {h_len n : Nat}
    (hsize : variant.size (some c) = h_len)
    (hs : StepSpec (sskdf_step variant h_len (some sec) secret_len info info_len)
      Inv post cost blk evs)
    (hf : StepFailSpec (sskdf_step variant h_len (some sec) secret_len info info_len)
      Inv cost evs)
    (hpres : ∀ v s prev w, Inv s →
      Inv (sskdf_step variant h_len (some sec) secret_len info info_len v s prev w).2.1)
    (hinv : Inv (some c)) (hblk : ∀ v, (blk v).length = h_len)
    (hout : 0 < out_len) (ho : out_len < 2 ^ W) (hbuf : out_len ≤ buf.length)
    (hsec : 0 < secret_len) (hpos : 0 < h_len) (hmax : h_len ≤ EVP_MAX_MD_SIZE)
    (hlc : length_check_fails W out_len h_len = false)
    (hic : input_check_fails W secret_len info_len = false)
    (hn : n = (out_len + h_len - 1) / h_len) :
    ((∀ k, k < n * cost → w.fail (w.tick + k) = false) ∧
      SSKDF W variant (some c) (some buf) out_len (some sec) secret_len info info_len w =
        (Outcome.ret 1, post,
          some ((key_stream blk n).take out_len ++ buf.drop out_len),
          w.advance (n * cost) (loop_events evs blk out_len h_len 0 n))) ∨
    (∃ ctx1 k j, Inv ctx1 ∧ k < n ∧ j < cost ∧
      (∀ t, t < k * cost + j → w.fail (w.tick + t) = false) ∧
      w.fail (w.tick + (k * cost + j)) = true ∧
      SSKDF W variant (some c) (some buf) out_len (some sec) secret_len info info_len w =
        (Outcome.ret 0, ctx1, some (key_stream blk k ++ buf.drop (k * h_len)),
          w.advance (k * cost + (j + 1))
            (loop_events evs blk out_len h_len 0 k ++ (evs (k + 1)).take (j + 1)))) := by
  rcases SSKDF_spec hW variant c buf sec out_len secret_len info info_len w hsize hs hinv hblk
    hout ho hbuf hsec hpos hmax hlc hic hn with h | ⟨ctx1, out1, w1, h1, _⟩
  · exact Or.inl h
  · right
    obtain ⟨hsum, hnb, hn32⟩ := length_check_passes hW ho hpos hmax hlc
    have hr := SSKDF_reaches_loop W variant c buf sec out_len secret_len info info_len w hout
      hsec (by rw [hsize]; exact hpos) (by rw [hsize]; exact hmax) (by rw [hsize]; exact hlc)
      hic
    rw [hsize, hnb, ← hn, SSKDF_loop_eq] at hr
    rw [h1] at hr
    simp only [Prod.mk.injEq, Option.some.injEq] at hr
    obtain ⟨e1, e2, e3, e4⟩ := hr
    have hloop : block_loop W (sskdf_step variant h_len (some sec) secret_len info info_len)
        out_len h_len n n 0 (min (0 * h_len) out_len) (w.uninit EVP_MAX_MD_SIZE) (some c) buf w
        = (Outcome.ret 0, ctx1, out1, w1) := by
      simp only [Nat.zero_mul, Nat.zero_min]
      exact Prod.ext e1.symm (Prod.ext e2.symm (Prod.ext e3.symm e4.symm))
    obtain ⟨k, j, hk, hj, hj1, hj2, hw, ho1⟩ := block_loop_fail_spec hs hf hpos ho hn
      (hn ▸ hn32) hblk n 0 (w.uninit EVP_MAX_MD_SIZE) (some c) buf w ctx1 out1 w1 (by omega)
      (by omega) hbuf hinv hloop
    have hi1 := block_loop_inv W (sskdf_step variant h_len (some sec) secret_len info info_len)
      Inv out_len h_len n hpres n 0 (min (0 * h_len) out_len) (w.uninit EVP_MAX_MD_SIZE) (some c)
      buf w hinv
    rw [hloop] at hi1
    refine ⟨ctx1, k, j, hi1, by omega, hj, hj1, hj2, ?_⟩
    rw [h1, hw, ho1]
    simp [key_stream_eq_blocks_from]

theorem SSKDF_DIGEST_run {W : Nat} (hW : W = 32 ∨ W = 64) (md : EVP_MD) (buf sec : List Nat)
    (out_len secret_len : Nat) (info : List Nat) (info_len : Nat) (w : World) {n : Nat}
    (hout : 0 < out_len) (ho : out_len < 2 ^ W) (hbuf : out_len ≤ buf.length)
    (hsec : 0 < secret_len) (hpos : 0 < md.md_size)
    (hlc : length_check_fails W out_len md.md_size = false)
    (hic : input_check_fails W secret_len info_len = false)
    (hn : n = (out_len + md.md_size - 1) / md.md_size)
    (ha0 : w.fail w.tick = false) (ha1 : w.fail (w.tick + 1) = false) :
    loop_run (SSKDF_DIGEST W (some buf) out_len (some md) (some sec) secret_len info info_len w)
      w 2 [Event.alloc (some w.next), Event.alloc (some (w.next + 1))]
      [Event.free (w.next + 1), Event.free w.next] 6
      (fun v => digest_events (w.next + 1) (CRYPTO_store_u32_be v) (sec.take secret_len)
        (info.take info_len))
      (digest_block md (sec.take secret_len) (info.take info_len)) out_len md.md_size n buf := by
  have hspec := SSKDF_run hW SSKDF_VARIANT_DIGEST
    { data := some { addr := w.next, digest := some md,
                     ctx := some { addr := w.next + 1, digest := none, data := [] } } }
    buf sec out_len secret_len info info_len
    { w with tick := w.tick + 2,
             trace := w.trace ++ [Event.alloc (some w.next), Event.alloc (some (w.next + 1))],
             next := w.next + 2, live := (w.next + 1) :: w.next :: w.live }
    (by simp [SSKDF_VARIANT_DIGEST, sskdf_variant_digest_size, EVP_MD_size] :
      SSKDF_VARIANT_DIGEST.size _ = md.md_size)
    (digest_step_spec md w.next (w.next + 1) md.md_size sec secret_len info info_len)
    (digest_step_fail_spec md w.next (w.next + 1) md.md_size sec secret_len info info_len)
    (by
      rintro v s prev w' ⟨m, hm, rfl⟩
      obtain ⟨m', hm', he⟩ := digest_compute_shape md w.next m prev md.md_size
        (CRYPTO_store_u32_be v) sec secret_len info info_len w'
      exact ⟨m', by rw [hm', hm], by
        simpa [sskdf_step, SSKDF_VARIANT_DIGEST, digest_ctx_with] using he⟩)
    ⟨_, rfl, rfl⟩ (fun v => md.hash_length _) hout ho hbuf hsec hpos md.md_size_le hlc hic hn
  have hfree : ∀ t, t < 2 → w.fail (w.tick + t) = false := fail_free_of_two ha0 ha1
  unfold SSKDF_DIGEST
  rw [digest_ctx_init_ok _ md w ha0 ha1]
  simp only [digest_ctx_with] at hspec ⊢
  rcases hspec with ⟨h1, h2⟩ | ⟨ctx1, k, j, ⟨m, hm, rfl⟩, hk, hj, hj1, hj2, h2⟩
  · left
    rw [h2]
    refine ⟨by simp, ?_, by simp, ?_⟩
    · intro t ht
      by_cases ht2 : t < 2
      · exact hfree t ht2
      · have := h1 (t - 2) (by omega)
        simp only [] at this
        rw [← this]; congr 1; omega
    · simp [SSKDF_VARIANT_DIGEST_CTX_cleanup, EVP_MD_CTX_free, World.release]
  · right
    rw [h2]
    refine ⟨by simp, k, j, hk, hj, ?_, ?_, by simp, ?_⟩
    · intro t ht
      by_cases ht2 : t < 2
      · exact hfree t ht2
      · have := hj1 (t - 2) (by omega)
        simp only [] at this
        rw [← this]; congr 1; omega
    · rw [← hj2]; congr 1; omega
    · simp [SSKDF_VARIANT_DIGEST_CTX_cleanup, EVP_MD_CTX_free, World.release, hm,
        digest_ctx_with]

theorem SSKDF_HMAC_run {W : Nat} (hW : W = 32 ∨ W = 64) (md : EVP_MD) (buf sec : List Nat)
    (out_len secret_len : Nat) (info : List Nat) (info_len : Nat) (salt : List Nat)
    (salt_len : Nat) (w : World) {n : Nat}
    (hout : 0 < out_len) (ho : out_len < 2 ^ W) (hbuf : out_len ≤ buf.length)
    (hsec : 0 < secret_len) (hpos : 0 < md.md_size)
    (hlc : length_check_fails W out_len md.md_size = false)
    (hic : input_check_fails W secret_len info_len = false)
    (hn : n = (out_len + md.md_size - 1) / md.md_size)
    (ha0 : w.fail w.tick = false) (ha1 : w.fail (w.tick + 1) = false)
    (ha2 : w.fail (w.tick + 2) = false) :
    loop_run (SSKDF_HMAC W (some buf) out_len (some md) (some sec) secret_len info info_len
        salt salt_len w)
      w 3 [Event.alloc (some w.next), Event.alloc (some (w.next + 1)),
        Event.HMAC_Init_ex (w.next + 1) (some (salt.take salt_len)) true]
      [Event.free (w.next + 1), Event.free w.next] 5
      (fun v => hmac_events (w.next + 1) (CRYPTO_store_u32_be v) (sec.take secret_len)
        (info.take info_len))
      (hmac_block md (salt.take salt_len) (sec.take secret_len) (info.take info_len))
      out_len md.md_size n buf := by
  have hspec := SSKDF_run hW SSKDF_VARIANT_HMAC
    { data := some { addr := w.next,
                     ctx := some { addr := w.next + 1, md := some md,
                                   key := salt.take salt_len, data := [] } } }
    buf sec out_len secret_len info info_len
    { w with tick := w.tick + 3,
             trace := w.trace ++ [Event.alloc (some w.next), Event.alloc (some (w.next + 1)),
               Event.HMAC_Init_ex (w.next + 1) (some (salt.take salt_len)) true],
             next := w.next + 2, live := (w.next + 1) :: w.next :: w.live }
    (by simp [SSKDF_VARIANT_HMAC, sskdf_variant_hmac_size, HMAC_size, EVP_MD_size] :
      SSKDF_VARIANT_HMAC.size _ = md.md_size)
    (hmac_step_spec md w.next (w.next + 1) (salt.take salt_len) md.md_size sec secret_len
      info info_len)
    (hmac_step_fail_spec md w.next (w.next + 1) (salt.take salt_len) md.md_size sec secret_len
      info info_len)
    (by
      rintro v s prev w' ⟨x, rfl⟩
      obtain ⟨x', he⟩ := hmac_compute_shape md w.next (w.next + 1) (salt.take salt_len) x prev
        md.md_size (CRYPTO_store_u32_be v) sec secret_len info info_len w'
      exact ⟨x', by simpa [sskdf_step, SSKDF_VARIANT_HMAC, hmac_ctx_with] using he⟩)
    ⟨_, rfl⟩ (fun v => md.hmac_length _ _) hout ho hbuf hsec hpos md.md_size_le hlc hic hn
  have hfree : ∀ t, t < 3 → w.fail (w.tick + t) = false := fail_free_of_three ha0 ha1 ha2
  unfold SSKDF_HMAC
  rw [hmac_ctx_init_ok _ md salt salt_len w ha0 ha1 ha2]
  simp only [hmac_ctx_with] at hspec ⊢
  rcases hspec with ⟨h1, h2⟩ | ⟨ctx1, k, j, ⟨x, rfl⟩, hk, hj, hj1, hj2, h2⟩
  · left
    rw [h2]
    refine ⟨by simp, ?_, by simp, ?_⟩
    · intro t ht
      by_cases ht2 : t < 3
      · exact hfree t ht2
      · have := h1 (t - 3) (by omega)
        simp only [] at this
        rw [← this]; congr 1; omega
    · simp [SSKDF_VARIANT_HMAC_CTX_cleanup, HMAC_CTX_free, World.release]
  · right
    rw [h2]
    refine ⟨by simp, k, j, hk, hj, ?_, ?_, by simp, ?_⟩
    · intro t ht
      by_cases ht2 : t < 3
      · exact hfree t ht2
      · have := hj1 (t - 3) (by omega)
        simp only [] at this
        rw [← this]; congr 1; omega
    · rw [← hj2]; congr 1; omega
    · simp [SSKDF_VARIANT_HMAC_CTX_cleanup, HMAC_CTX_free, World.release, hmac_ctx_with]

theorem KBKDF_CTR_unfold {W : Nat} (hW : W = 32 ∨ W = 64) (md : EVP_MD) (buf sec : List Nat)
    (out_len secret_len : Nat) (info : List Nat) (info_len : Nat) (w : World) {n : Nat}
    (hout : 0 < out_len) (ho : out_len < 2 ^ W)
    (hsec : 0 < secret_len) (hpos : 0 < md.md_size)
    (hlc : length_check_fails W out_len md.md_size = false)
    (hn : n = (out_len + md.md_size - 1) / md.md_size)
    (ha0 : w.fail w.tick = false) (ha1 : w.fail (w.tick + 1) = false)
    (r : Nat) (m2 : HMAC_CTX) (b : List Nat) (w3 : World)
    (h : block_loop W (kbkdf_step info info_len) out_len md.md_size n n 0 0
          (World.uninit
            { w with tick := w.tick + 2,
                     trace := w.trace ++ [Event.alloc (some w.next),
                       Event.HMAC_Init_ex w.next (some (sec.take secret_len)) true],
                     next := w.next + 1, live := w.next :: w.live } EVP_MAX_MD_SIZE)
          { addr := w.next, md := some md, key := sec.take secret_len, data := [] } buf
          { w with tick := w.tick + 2,
                   trace := w.trace ++ [Event.alloc (some w.next),
                     Event.HMAC_Init_ex w.next (some (sec.take secret_len)) true],
                   next := w.next + 1, live := w.next :: w.live } = (Outcome.ret r, m2, b, w3)) :
    KBKDF_CTR W (some buf) out_len (some md) (some sec) secret_len info info_len w =
      (Outcome.ret r, some b, HMAC_CTX_free (some m2) w3) := by
  obtain ⟨hsum, hnb, hn32⟩ := length_check_passes hW ho hpos md.md_size_le hlc
  simp only [KBKDF_CTR, HMAC_CTX_new, malloc_ok ha0]
  rw [hmac_init_key_ok (by simpa using ha1)]
  simp only [HMAC_size, EVP_MD_size, hnb, ← hn, KBKDF_loop_eq]
  simp only [hout.ne', hsec.ne', hpos.ne', hlc, World.advance, Nat.add_assoc, or_self,
    if_false, List.append_assoc, List.singleton_append, Bool.false_eq_true, Nat.reduceAdd]
  rw [h]

theorem KBKDF_CTR_run {W : Nat} (hW : W = 32 ∨ W = 64) (md : EVP_MD) (buf sec : List Nat)
    (out_len secret_len : Nat) (info : List Nat) (info_len : Nat) (w : World) {n : Nat}
    (hout : 0 < out_len) (ho : out_len < 2 ^ W) (hbuf : out_len ≤ buf.length)
    (hsec : 0 < secret_len) (hpos : 0 < md.md_size)
    (hlc : length_check_fails W out_len md.md_size = false)
    (hn : n = (out_len + md.md_size - 1) / md.md_size)
    (ha0 : w.fail w.tick = false) (ha1 : w.fail (w.tick + 1) = false) :
    loop_run (KBKDF_CTR W (some buf) out_len (some md) (some sec) secret_len info info_len w)
      w 2 [Event.alloc (some w.next),
        Event.HMAC_Init_ex w.next (some (sec.take secret_len)) true]
      [Event.free w.next] 4
      (fun v => kbkdf_events w.next (CRYPTO_store_u32_be v) (info.take info_len))
      (kbkdf_block md (sec.take secret_len) (info.take info_len)) out_len md.md_size n buf := by
  obtain ⟨hsum, hnb, hn32⟩ := length_check_passes hW ho hpos md.md_size_le hlc
  have hnpos : 0 < n := by
    rw [hn]; exact (ceil_iter_lt hpos).mpr (by simpa using hout)
  have hfree : ∀ t, t < 2 → w.fail (w.tick + t) = false := fail_free_of_two ha0 ha1
  have key := block_loop_spec hW
    (kbkdf_step_spec md w.next (sec.take secret_len) info info_len) hpos ho hn (hn ▸ hn32)
    (fun v => md.hmac_length _ _) n 0
    (World.uninit
      { w with tick := w.tick + 2,
               trace := w.trace ++ [Event.alloc (some w.next),
                 Event.HMAC_Init_ex w.next (some (sec.take secret_len)) true],
               next := w.next + 1, live := w.next :: w.live } EVP_MAX_MD_SIZE)
    { addr := w.next, md := some md, key := sec.take secret_len, data := [] } buf
    { w with tick := w.tick + 2,
             trace := w.trace ++ [Event.alloc (some w.next),
               Event.HMAC_Init_ex w.next (some (sec.take secret_len)) true],
             next := w.next + 1, live := w.next :: w.live }
    (by omega) (by omega) hbuf ⟨_, rfl⟩
  simp only [Nat.zero_mul, Nat.zero_min, Nat.sub_zero, List.take_zero, List.nil_append,
    hnpos, if_true] at key
  rcases key with ⟨h1, h2⟩ | ⟨s1, out1, w1, h2, h3, h4, h5⟩
  · left
    rw [KBKDF_CTR_unfold hW md buf sec out_len secret_len info info_len w hout ho hsec hpos hlc
      hn ha0 ha1 1 _ _ _ h2, key_stream_eq_blocks_from]
    refine ⟨rfl, ?_, rfl, ?_⟩
    · intro t ht
      by_cases ht2 : t < 2
      · exact hfree t ht2
      · have := h1 (t - 2) (by omega)
        rw [← this]; congr 1; omega
    · simp [HMAC_CTX_free, World.release]
  · right
    have hloop : block_loop W (kbkdf_step info info_len) out_len md.md_size n n 0
        (min (0 * md.md_size) out_len)
        (World.uninit
          { w with tick := w.tick + 2,
                   trace := w.trace ++ [Event.alloc (some w.next),
                     Event.HMAC_Init_ex w.next (some (sec.take secret_len)) true],
                   next := w.next + 1, live := w.next :: w.live } EVP_MAX_MD_SIZE)
        { addr := w.next, md := some md, key := sec.take secret_len, data := [] } buf
        { w with tick := w.tick + 2,
                 trace := w.trace ++ [Event.alloc (some w.next),
                   Event.HMAC_Init_ex w.next (some (sec.take secret_len)) true],
                 next := w.next + 1, live := w.next :: w.live } = (Outcome.ret 0, s1, out1, w1) := by
      simp only [Nat.zero_mul, Nat.zero_min]
      exact h2
    obtain ⟨k, j, hk, hj, hj1, hj2, hw, ho1⟩ := block_loop_fail_spec
      (kbkdf_step_spec md w.next (sec.take secret_len) info info_len)
      (kbkdf_step_fail_spec md w.next (sec.take secret_len) info info_len) hpos ho hn
      (hn ▸ hn32) (fun v => md.hmac_length _ _) n 0 _ _ buf _ s1 out1 w1 (by omega)
      (by omega) hbuf ⟨_, rfl⟩ hloop
    have hi1 := block_loop_inv W (kbkdf_step info info_len)
      (fun c => ∃ x, c = { addr := w.next, md := some md, key := sec.take secret_len, data := x })
      out_len md.md_size n
      (by
        rintro v s prev w' ⟨x, rfl⟩
        exact kbkdf_step_shape md w.next (sec.take secret_len) x info info_len v prev w')
      n 0 (min (0 * md.md_size) out_len)
      (World.uninit
        { w with tick := w.tick + 2,
                 trace := w.trace ++ [Event.alloc (some w.next),
                   Event.HMAC_Init_ex w.next (some (sec.take secret_len)) true],
                 next := w.next + 1, live := w.next :: w.live } EVP_MAX_MD_SIZE)
      { addr := w.next, md := some md, key := sec.take secret_len, data := [] } buf
      { w with tick := w.tick + 2,
               trace := w.trace ++ [Event.alloc (some w.next),
                 Event.HMAC_Init_ex w.next (some (sec.take secret_len)) true],
               next := w.next + 1, live := w.next :: w.live } ⟨_, rfl⟩
    rw [hloop] at hi1
    obtain ⟨x, rfl⟩ := hi1
    rw [KBKDF_CTR_unfold hW md buf sec out_len secret_len info info_len w hout ho hsec hpos hlc
      hn ha0 ha1 0 _ _ _ h2, hw, ho1]
    refine ⟨rfl, k, j, by omega, hj, ?_, ?_, by simp [key_stream_eq_blocks_from], ?_⟩
    · intro t ht
      by_cases ht2 : t < 2
      · exact hfree t ht2
      · have := hj1 (t - 2) (by omega)
        rw [← this]
        show w.fail (w.tick + t) = w.fail (w.tick + 2 + (t - 2))
        congr 1; omega
    · rw [← hj2]
      show w.fail (w.tick + (2 + k * 4 + j)) = w.fail (w.tick + 2 + (k * 4 + j))
      congr 1; omega
    · simp [HMAC_CTX_free, World.release]

/-! ## Copies and counters in a trace -/

theorem copies_append (a b : List Event) : copies (a ++ b) = copies a ++ copies b := by
  induction a with
  | nil => rfl
  | cons e es ih => cases e <;> simp [copies, ih]

theorem copies_of_no_block_work {evs : List Event}
    (h : ∀ e ∈ evs, Event.block_work e = false) : copies evs = [] := by
  induction evs with
  | nil => rfl
  | cons e es ih =>
    have he := h e (List.mem_cons_self _ _)
    have hes := ih (fun e he => h e (List.mem_cons_of_mem _ he))
    cases e <;> simp_all [copies, Event.block_work]

theorem copies_take {evs : List Event} (h : copies evs = []) (j : Nat) :
    copies (evs.take j) = [] := by
  induction evs generalizing j with
  | nil => simp [copies]
  | cons e es ih =>
    cases j with
    | zero => rfl
    | succ j => cases e <;> simp_all [copies]

theorem copies_loop_events {evs : Nat → List Event} (hevs : ∀ v, copies (evs v) = [])
    (blk : Nat → List Nat) (out_len h_len : Nat) :
    ∀ k i, copies (loop_events evs blk out_len h_len i k) =
      (List.range' i k).map (iteration_copy blk out_len h_len) := by
  intro k
  induction k with
  | zero => intro i; rfl
  | succ k ih =>
    intro i
    simp [loop_events, copies_append, hevs, copies, ih, List.range'_succ, iteration_copy]

theorem iteration_copy_bound {blk : Nat → List Nat} {out_len h_len n : Nat}
    (hblk : ∀ v, (blk v).length = h_len) (hpos : 0 < h_len)
    (hn : n = (out_len + h_len - 1) / h_len) {i : Nat} (hi : i < n) :
    i * h_len < out_len ∧
    (iteration_copy blk out_len h_len i).1 = i * h_len ∧
    (iteration_copy blk out_len h_len i).2.length = min h_len (out_len - i * h_len) ∧
    0 < min h_len (out_len - i * h_len) ∧
    (i + 1 < n → min h_len (out_len - i * h_len) = h_len) ∧
    i * h_len + min h_len (out_len - i * h_len) = min ((i + 1) * h_len) out_len := by
  have h1 : i * h_len < out_len := (ceil_iter_lt hpos).mp (hn ▸ hi)
  refine ⟨h1, rfl, by simp [iteration_copy, hblk], by omega, ?_, ?_⟩
  · intro h2
    have h3 : (i + 1) * h_len < out_len := (ceil_iter_lt hpos).mp (hn ▸ h2)
    rw [Nat.add_mul] at h3
    omega
  · rw [Nat.add_mul]
    omega

theorem copies_within {blk : Nat → List Nat} {out_len h_len n : Nat}
    (hblk : ∀ v, (blk v).length = h_len) (hpos : 0 < h_len)
    (hn : n = (out_len + h_len - 1) / h_len) {k : Nat} (hk : k ≤ n) :
    ∀ c ∈ (List.range' 0 k).map (iteration_copy blk out_len h_len),
      c.1 + c.2.length ≤ out_len := by
  intro c hc
  simp only [List.mem_map, List.mem_range'_1] at hc
  obtain ⟨i, ⟨_, hi⟩, rfl⟩ := hc
  obtain ⟨h1, h2, h3, _, _, h6⟩ := iteration_copy_bound hblk hpos hn (i := i) (by omega)
  rw [h2, h3, h6]
  exact Nat.min_le_right _ _

theorem copies_tile {blk : Nat → List Nat} {out_len h_len n : Nat}
    (hblk : ∀ v, (blk v).length = h_len) (hpos : 0 < h_len)
    (hn : n = (out_len + h_len - 1) / h_len) :
    ∀ k i, i + k ≤ n →
      tiles ((List.range' i k).map (iteration_copy blk out_len h_len))
        (min (i * h_len) out_len) (min ((i + k) * h_len) out_len) := by
  intro k
  induction k with
  | zero =>
    intro i _
    simp only [List.range'_zero, List.map_nil, tiles, Nat.add_zero]
  | succ k ih =>
    intro i hi
    obtain ⟨h1, h2, h3, h4, h5, h6⟩ := iteration_copy_bound hblk hpos hn (i := i) (by omega)
    simp only [List.range'_succ, List.map_cons, tiles]
    rw [Nat.min_eq_left h1.le, h3, h6]
    refine ⟨h2, h4, ?_⟩
    have := ih (i + 1) (by omega)
    rw [show i + 1 + k = i + (k + 1) by omega] at this
    exact this

theorem counters_of_no_block_work {evs : List Event}
    (h : ∀ e ∈ evs, Event.block_work e = false) : counters evs = [] := by
  induction evs with
  | nil => rfl
  | cons e es ih =>
    have he := h e (List.mem_cons_self _ _)
    have hes := ih (fun e he => h e (List.mem_cons_of_mem _ he))
    cases e with
    | HMAC_Init_ex p key g =>
      cases key with
      | none => simp [Event.block_work] at he
      | some k => simp [counters, hes]
    | EVP_DigestInit_ex p => simp [Event.block_work] at he
    | _ => simp_all [counters, Event.block_work]

/-! ## Every path of the entry points -/

theorem SSKDF_DIGEST_cases {W : Nat} (hW : W = 32 ∨ W = 64) (out_key : Option (List Nat))
    (out_len : Nat) (ho : out_len < 2 ^ W)
    (hbuf : ∀ buf, out_key = some buf → out_len ≤ buf.length)
    (digest : Option EVP_MD) (secret : Option (List Nat)) (secret_len : Nat) (info : List Nat)
    (info_len : Nat) (w : World) :
    ((early_failure W true out_key out_len digest secret secret_len info_len ∨
        w.fail w.tick = true ∨ w.fail (w.tick + 1) = true) ∧
      early_run (SSKDF_DIGEST W out_key out_len digest secret secret_len info info_len w) w
        out_key) ∨
    (∃ buf md sec, out_key = some buf ∧ digest = some md ∧ secret = some sec ∧
      ¬ early_failure W true out_key out_len digest secret secret_len info_len ∧
      0 < out_len ∧ out_len ≤ buf.length ∧ 0 < md.md_size ∧
      loop_run (SSKDF_DIGEST W out_key out_len digest secret secret_len info info_len w)
        w 2 [Event.alloc (some w.next), Event.alloc (some (w.next + 1))]
        [Event.free (w.next + 1), Event.free w.next] 6
        (fun v => digest_events (w.next + 1) (CRYPTO_store_u32_be v) (sec.take secret_len)
          (info.take info_len))
        (digest_block md (sec.take secret_len) (info.take info_len)) out_len md.md_size
        ((out_len + md.md_size - 1) / md.md_size) buf) := by
  by_cases hb : early_failure W true out_key out_len digest secret secret_len info_len ∨
      w.fail w.tick = true ∨ w.fail (w.tick + 1) = true
  · exact Or.inl ⟨hb,
      SSKDF_DIGEST_early W out_key out_len digest secret secret_len info info_len w hb⟩
  · right
    push_neg at hb
    obtain ⟨he, h0, h1⟩ := hb
    obtain ⟨buf, md, sec, rfl, rfl, rfl, h4, h5, h6, h7, h8⟩ := not_early_failure he
    exact ⟨buf, md, sec, rfl, rfl, rfl, he, h4, hbuf buf rfl, h6,
      SSKDF_DIGEST_run hW md buf sec out_len secret_len info info_len w h4 ho (hbuf buf rfl)
        h5 h6 h7 (h8 rfl) rfl (by simpa using h0) (by simpa using h1)⟩

theorem SSKDF_HMAC_cases {W : Nat} (hW : W = 32 ∨ W = 64) (out_key : Option (List Nat))
    (out_len : Nat) (ho : out_len < 2 ^ W)
    (hbuf : ∀ buf, out_key = some buf → out_len ≤ buf.length)
    (digest : Option EVP_MD) (secret : Option (List Nat)) (secret_len : Nat) (info : List Nat)
    (info_len : Nat) (salt : List Nat) (salt_len : Nat) (w : World) :
    ((early_failure W true out_key out_len digest secret secret_len info_len ∨
        w.fail w.tick = true ∨ w.fail (w.tick + 1) = true ∨ w.fail (w.tick + 2) = true) ∧
      early_run (SSKDF_HMAC W out_key out_len digest secret secret_len info info_len salt
        salt_len w) w out_key) ∨
    (∃ buf md sec, out_key = some buf ∧ digest = some md ∧ secret = some sec ∧
      ¬ early_failure W true out_key out_len digest secret secret_len info_len ∧
      0 < out_len ∧ out_len ≤ buf.length ∧ 0 < md.md_size ∧
      loop_run (SSKDF_HMAC W out_key out_len digest secret secret_len info info_len salt
          salt_len w)
        w 3 [Event.alloc (some w.next), Event.alloc (some (w.next + 1)),
          Event.HMAC_Init_ex (w.next + 1) (some (salt.take salt_len)) true]
        [Event.free (w.next + 1), Event.free w.next] 5
        (fun v => hmac_events (w.next + 1) (CRYPTO_store_u32_be v) (sec.take secret_len)
          (info.take info_len))
        (hmac_block md (salt.take salt_len) (sec.take secret_len) (info.take info_len))
        out_len md.md_size ((out_len + md.md_size - 1) / md.md_size) buf) := by
  by_cases hb : early_failure W true out_key out_len digest secret secret_len info_len ∨
      w.fail w.tick = true ∨ w.fail (w.tick + 1) = true ∨ w.fail (w.tick + 2) = true
  · exact Or.inl ⟨hb,
      SSKDF_HMAC_early W out_key out_len digest secret secret_len info info_len salt salt_len
        w hb⟩
  · right
    push_neg at hb
    obtain ⟨he, h0, h1, h2⟩ := hb
    obtain ⟨buf, md, sec, rfl, rfl, rfl, h4, h5, h6, h7, h8⟩ := not_early_failure he
    exact ⟨buf, md, sec, rfl, rfl, rfl, he, h4, hbuf buf rfl, h6,
      SSKDF_HMAC_run hW md buf sec out_len secret_len info info_len salt salt_len w h4 ho
        (hbuf buf rfl) h5 h6 h7 (h8 rfl) rfl (by simpa using h0) (by simpa using h1)
        (by simpa using h2)⟩

theorem KBKDF_CTR_cases {W : Nat} (hW : W = 32 ∨ W = 64) (out_key : Option (List Nat))
    (out_len : Nat) (ho : out_len < 2 ^ W)
    (hbuf : ∀ buf, out_key = some buf → out_len ≤ buf.length)
    (digest : Option EVP_MD) (secret : Option (List Nat)) (secret_len : Nat) (info : List Nat)
    (info_len : Nat) (w : World) :
    ((early_failure W false out_key out_len digest secret secret_len info_len ∨
        w.fail w.tick = true ∨ w.fail (w.tick + 1) = true) ∧
      early_run (KBKDF_CTR W out_key out_len digest secret secret_len info info_len w) w
        out_key) ∨
    (∃ buf md sec, out_key = some buf ∧ digest = some md ∧ secret = some sec ∧
      ¬ early_failure W false out_key out_len digest secret secret_len info_len ∧
      0 < out_len ∧ out_len ≤ buf.length ∧ 0 < md.md_size ∧
      loop_run (KBKDF_CTR W out_key out_len digest secret secret_len info info_len w)
        w 2 [Event.alloc (some w.next),
          Event.HMAC_Init_ex w.next (some (sec.take secret_len)) true]
        [Event.free w.next] 4
        (fun v => kbkdf_events w.next (CRYPTO_store_u32_be v) (info.take info_len))
        (kbkdf_block md (sec.take secret_len) (info.take info_len)) out_len md.md_size
        ((out_len + md.md_size - 1) / md.md_size) buf) := by
  by_cases hb : early_failure W false out_key out_len digest secret secret_len info_len ∨
      w.fail w.tick = true ∨ w.fail (w.tick + 1) = true
  · exact Or.inl ⟨hb,
      KBKDF_CTR_early W out_key out_len digest secret secret_len info info_len w hb⟩
  · right
    push_neg at hb
    obtain ⟨he, h0, h1⟩ := hb
    obtain ⟨buf, md, sec, rfl, rfl, rfl, h4, h5, h6, h7, _⟩ := not_early_failure he
    exact ⟨buf, md, sec, rfl, rfl, rfl, he, h4, hbuf buf rfl, h6,
      KBKDF_CTR_run hW md buf sec out_len secret_len info info_len w h4 ho (hbuf buf rfl)
        h5 h6 h7 rfl (by simpa using h0) (by simpa using h1)⟩

theorem ceil_covers {out_len h_len n : Nat} (hpos : 0 < h_len)
    (hn : n = (out_len + h_len - 1) / h_len) : out_len ≤ n * h_len := by
  have := (@ceil_iter_lt out_len h_len n hpos).not.mp (by omega)
  omega

theorem early_run_writes_within {r : Outcome × Option (List Nat) × World} {w : World}
    {out_key : Option (List Nat)} (out_len : Nat) (h : early_run r w out_key) :
    writes_within r w out_len out_key := by
  obtain ⟨h0, h1, evs, htr, hev⟩ := h
  have hc := copies_of_no_block_work hev
  refine ⟨evs, htr, by simp [hc], ?_, ?_, ?_⟩
  · intro buf hb
    exact ⟨buf, by rw [h1, hb], rfl, rfl⟩
  · intro hb
    exact ⟨by rw [h1, hb], hc⟩
  · intro h
    rw [h0] at h
    cases h

theorem loop_run_copies {r : Outcome × Option (List Nat) × World} {w : World} {a : Nat}
    {pre post : List Event} {cost : Nat} {evs : Nat → List Event} {blk : Nat → List Nat}
    {out_len h_len n : Nat} {buf : List Nat}
    (h : loop_run r w a pre post cost evs blk out_len h_len n buf)
    (hpre : copies pre = []) (hpost : copies post = []) (hevs : ∀ v, copies (evs v) = []) :
    ∃ new m, r.2.2.trace = w.trace ++ new ∧ m ≤ n ∧ (r.1 = Outcome.ret 1 → m = n) ∧
      copies new = (List.range' 0 m).map (iteration_copy blk out_len h_len) := by
  rcases h with ⟨_, _, _, htr⟩ | ⟨h0, k, j, hk, hj, _, _, _, htr⟩
  · refine ⟨pre ++ loop_events evs blk out_len h_len 0 n ++ post, n, ?_, le_refl _,
      fun _ => rfl, ?_⟩
    · rw [htr]; simp only [List.append_assoc]
    · simp [copies_append, hpre, hpost, copies_loop_events hevs]
  · refine ⟨pre ++ loop_events evs blk out_len h_len 0 k ++ (evs (k + 1)).take (j + 1) ++ post,
      k, ?_, hk.le, ?_, ?_⟩
    · rw [htr]; simp only [List.append_assoc]
    · intro h; rw [h0] at h; cases h
    · simp [copies_append, hpre, hpost, copies_loop_events hevs, copies_take (hevs _)]

theorem loop_run_writes_within {r : Outcome × Option (List Nat) × World} {w : World} {a : Nat}
    {pre post : List Event} {cost : Nat} {evs : Nat → List Event} {blk : Nat → List Nat}
    {out_len h_len n : Nat} {buf : List Nat}
    (h : loop_run r w a pre post cost evs blk out_len h_len n buf)
    (hblk : ∀ v, (blk v).length = h_len) (hpos : 0 < h_len)
    (hn : n = (out_len + h_len - 1) / h_len) (hbuf : out_len ≤ buf.length)
    (hpre : copies pre = []) (hpost : copies post = []) (hevs : ∀ v, copies (evs v) = []) :
    writes_within r w out_len (some buf) := by
  have hhi := ceil_covers hpos hn
  obtain ⟨new, m, htr, hm, hmn, hc⟩ := loop_run_copies h hpre hpost hevs
  refine ⟨new, htr, by rw [hc]; exact copies_within hblk hpos hn hm, ?_, by simp, ?_⟩
  · intro buf' hb
    cases hb
    rcases h with ⟨_, _, ho, _⟩ | ⟨_, k, j, hk, _, _, _, ho, _⟩
    · refine ⟨_, ho, ?_, ?_⟩
      · simp [key_stream_length hblk]
        omega
      · exact List.drop_left' (by simp [key_stream_length hblk]; omega)
    · have hk1 : k * h_len < out_len := (ceil_iter_lt hpos).mp (hn ▸ hk)
      refine ⟨_, ho, ?_, ?_⟩
      · simp [key_stream_length hblk]
        omega
      · rw [List.drop_append_eq_append_drop, List.drop_of_length_le
          (by rw [key_stream_length hblk]; omega), key_stream_length hblk, List.drop_drop,
          List.nil_append]
        congr 1
        omega
  · intro h1
    rw [hc, hmn h1]
    have := copies_tile hblk hpos hn n 0 (by omega)
    simpa [Nat.min_eq_right hhi] using this

theorem loop_run_flag {r : Outcome × Option (List Nat) × World} {w : World} {a : Nat}
    {pre post : List Event} {cost : Nat} {evs : Nat → List Event} {blk : Nat → List Nat}
    {out_len h_len n : Nat} {buf : List Nat}
    (h : loop_run r w a pre post cost evs blk out_len h_len n buf) :
    r.1 = Outcome.ret 1 ∨ r.1 = Outcome.ret 0 := by
  rcases h with ⟨h1, _⟩ | ⟨h0, _⟩
  · exact Or.inl h1
  · exact Or.inr h0

theorem loop_run_success_iff {r : Outcome × Option (List Nat) × World} {w : World} {a : Nat}
    {pre post : List Event} {cost : Nat} {evs : Nat → List Event} {blk : Nat → List Nat}
    {out_len h_len n : Nat} {buf : List Nat}
    (h : loop_run r w a pre post cost evs blk out_len h_len n buf) :
    r.1 = Outcome.ret 1 ↔ ∀ t, t < a + n * cost → w.fail (w.tick + t) = false := by
  rcases h with ⟨h1, hfree, _⟩ | ⟨h0, k, j, hk, hj, _, hfail, _⟩
  · exact ⟨fun _ => hfree, fun _ => h1⟩
  · constructor
    · intro h; rw [h0] at h; cases h
    · intro hfree
      have hlt : a + k * cost + j < a + n * cost := by
        have : (k + 1) * cost ≤ n * cost := Nat.mul_le_mul_right cost hk
        rw [Nat.succ_mul] at this
        omega
      rw [hfree _ hlt] at hfail
      cases hfail

theorem first_failure_unique {cost k j k1 j1 : Nat} (hj : j < cost) (hj1 : j1 < cost)
    (h : k * cost + j = k1 * cost + j1) : k = k1 ∧ j = j1 := by
  have hc : 0 < cost := by omega
  have e1 : (k * cost + j) / cost = k := by
    rw [Nat.add_comm, Nat.add_mul_div_right _ _ hc, Nat.div_eq_of_lt hj, Nat.zero_add]
  have e2 : (k1 * cost + j1) / cost = k1 := by
    rw [Nat.add_comm, Nat.add_mul_div_right _ _ hc, Nat.div_eq_of_lt hj1, Nat.zero_add]
  have hk : k = k1 := by rw [← e1, ← e2, h]
  subst hk
  exact ⟨rfl, by omega⟩

theorem loop_run_failure {r : Outcome × Option (List Nat) × World} {w : World} {a : Nat}
    {pre post : List Event} {cost : Nat} {evs : Nat → List Event} {blk : Nat → List Nat}
    {out_len h_len n : Nat} {buf : List Nat}
    (h : loop_run r w a pre post cost evs blk out_len h_len n buf)
    {k j : Nat} (hk : k < n) (hj : j < cost)
    (hfree : ∀ t, t < a + k * cost + j → w.fail (w.tick + t) = false)
    (hfail : w.fail (w.tick + (a + k * cost + j)) = true) :
    r.1 = Outcome.ret 0 ∧
    r.2.1 = some (key_stream blk k ++ buf.drop (k * h_len)) ∧
    r.2.2.trace = w.trace ++ pre ++ loop_events evs blk out_len h_len 0 k ++
      (evs (k + 1)).take (j + 1) ++ post := by
  rcases h with ⟨_, hfree1, _⟩ | ⟨h0, k1, j1, hk1, hj1, hfree1, hfail1, ho, htr⟩
  · have hlt : a + k * cost + j < a + n * cost := by
      have : (k + 1) * cost ≤ n * cost := Nat.mul_le_mul_right cost hk
      rw [Nat.succ_mul] at this
      omega
    rw [hfree1 _ hlt] at hfail
    cases hfail
  · have heq : k * cost + j = k1 * cost + j1 := by
      rcases Nat.lt_trichotomy (a + k * cost + j) (a + k1 * cost + j1) with h | h | h
      · rw [hfree1 _ h] at hfail; cases hfail
      · omega
      · rw [hfree _ h] at hfail1; cases hfail1
    obtain ⟨rfl, rfl⟩ := first_failure_unique hj hj1 heq
    exact ⟨h0, ho, htr⟩

theorem valid_not_early {W : Nat} {b : Bool} {buf : List Nat} {out_len : Nat} {md : EVP_MD}
    {sec : List Nat} {secret_len info_len : Nat}
    (h1 : 0 < out_len) (h2 : 0 < secret_len) (h3 : 0 < md.md_size)
    (h4 : length_check_fails W out_len md.md_size = false)
    (h5 : b = true → input_check_fails W secret_len info_len = false) :
    ¬ early_failure W b (some buf) out_len (some md) (some sec) secret_len info_len := by
  unfold early_failure
  push_neg
  refine ⟨by simp, by simp, by omega, by omega, by simp, ?_⟩
  intro md' hmd
  cases hmd
  exact ⟨by omega, by simp [h4], fun hb => by simp [h5 hb]⟩

theorem SSKDF_DIGEST_success_iff {W : Nat} (hW : W = 32 ∨ W = 64)
    (out_key : Option (List Nat)) (out_len : Nat) (ho : out_len < 2 ^ W)
    (hbuf : ∀ buf, out_key = some buf → out_len ≤ buf.length)
    (digest : Option EVP_MD) (secret : Option (List Nat)) (secret_len : Nat) (info : List Nat)
    (info_len : Nat) (w : World) :
    ((SSKDF_DIGEST W out_key out_len digest secret secret_len info info_len w).1 = Outcome.ret 1
        ∨ (SSKDF_DIGEST W out_key out_len digest secret secret_len info info_len w).1
          = Outcome.ret 0) ∧
    ((SSKDF_DIGEST W out_key out_len digest secret secret_len info info_len w).1 = Outcome.ret 1
      ↔ ¬ early_failure W true out_key out_len digest secret secret_len info_len ∧
        ∃ md, digest = some md ∧
          ∀ t, t < 2 + (out_len + md.md_size - 1) / md.md_size * 6 →
            w.fail (w.tick + t) = false) := by
  rcases SSKDF_DIGEST_cases hW out_key out_len ho hbuf digest secret secret_len info info_len w
    with ⟨hb, he, _⟩ | ⟨buf, md, sec, rfl, rfl, rfl, hne, _, _, _, hrun⟩
  · refine ⟨Or.inr he, ?_⟩
    rw [he]
    refine ⟨fun h => (by cases h), ?_⟩
    rintro ⟨hne, md, _, hfree⟩
    rcases hb with h | h | h
    · exact absurd h hne
    · have := hfree 0 (by omega)
      rw [Nat.add_zero, h] at this
      cases this
    · rw [hfree 1 (by omega)] at h
      cases h
  · refine ⟨loop_run_flag hrun, ?_⟩
    rw [loop_run_success_iff hrun]
    exact ⟨fun h => ⟨hne, md, rfl, h⟩, fun ⟨_, md', hmd, h⟩ => by cases hmd; exact h⟩

theorem SSKDF_HMAC_success_iff {W : Nat} (hW : W = 32 ∨ W = 64)
    (out_key : Option (List Nat)) (out_len : Nat) (ho : out_len < 2 ^ W)
    (hbuf : ∀ buf, out_key = some buf → out_len ≤ buf.length)
    (digest : Option EVP_MD) (secret : Option (List Nat)) (secret_len : Nat) (info : List Nat)
    (info_len : Nat) (salt : List Nat) (salt_len : Nat) (w : World) :
    ((SSKDF_HMAC W out_key out_len digest secret secret_len info info_len salt salt_len w).1
          = Outcome.ret 1
        ∨ (SSKDF_HMAC W out_key out_len digest secret secret_len info info_len salt salt_len
          w).1 = Outcome.ret 0) ∧
    ((SSKDF_HMAC W out_key out_len digest secret secret_len info info_len salt salt_len w).1
        = Outcome.ret 1
      ↔ ¬ early_failure W true out_key out_len digest secret secret_len info_len ∧
        ∃ md, digest = some md ∧
          ∀ t, t < 3 + (out_len + md.md_size - 1) / md.md_size * 5 →
            w.fail (w.tick + t) = false) := by
  rcases SSKDF_HMAC_cases hW out_key out_len ho hbuf digest secret secret_len info info_len
    salt salt_len w with ⟨hb, he, _⟩ | ⟨buf, md, sec, rfl, rfl, rfl, hne, _, _, _, hrun⟩
  · refine ⟨Or.inr he, ?_⟩
    rw [he]
    refine ⟨fun h => (by cases h), ?_⟩
    rintro ⟨hne, md, _, hfree⟩
    rcases hb with h | h | h | h
    · exact absurd h hne
    · have := hfree 0 (by omega)
      rw [Nat.add_zero, h] at this
      cases this
    · rw [hfree 1 (by omega)] at h
      cases h
    · rw [hfree 2 (by omega)] at h
      cases h
  · refine ⟨loop_run_flag hrun, ?_⟩
    rw [loop_run_success_iff hrun]
    exact ⟨fun h => ⟨hne, md, rfl, h⟩, fun ⟨_, md', hmd, h⟩ => by cases hmd; exact h⟩

theorem KBKDF_CTR_success_iff {W : Nat} (hW : W = 32 ∨ W = 64)
    (out_key : Option (List Nat)) (out_len : Nat) (ho : out_len < 2 ^ W)
    (hbuf : ∀ buf, out_key = some buf → out_len ≤ buf.length)
    (digest : Option EVP_MD) (secret : Option (List Nat)) (secret_len : Nat) (info : List Nat)
    (info_len : Nat) (w : World) :
    ((KBKDF_CTR W out_key out_len digest secret secret_len info info_len w).1 = Outcome.ret 1
        ∨ (KBKDF_CTR W out_key out_len digest secret secret_len info info_len w).1
          = Outcome.ret 0) ∧
    ((KBKDF_CTR W out_key out_len digest secret secret_len info info_len w).1 = Outcome.ret 1
      ↔ ¬ early_failure W false out_key out_len digest secret secret_len info_len ∧
        ∃ md, digest = some md ∧
          ∀ t, t < 2 + (out_len + md.md_size - 1) / md.md_size * 4 →
            w.fail (w.tick + t) = false) := by
  rcases KBKDF_CTR_cases hW out_key out_len ho hbuf digest secret secret_len info info_len w
    with ⟨hb, he, _⟩ | ⟨buf, md, sec, rfl, rfl, rfl, hne, _, _, _, hrun⟩
  · refine ⟨Or.inr he, ?_⟩
    rw [he]
    refine ⟨fun h => (by cases h), ?_⟩
    rintro ⟨hne, md, _, hfree⟩
    rcases hb with h | h | h
    · exact absurd h hne
    · have := hfree 0 (by omega)
      rw [Nat.add_zero, h] at this
      cases this
    · rw [hfree 1 (by omega)] at h
      cases h
  · refine ⟨loop_run_flag hrun, ?_⟩
    rw [loop_run_success_iff hrun]
    exact ⟨fun h => ⟨hne, md, rfl, h⟩, fun ⟨_, md', hmd, h⟩ => by cases hmd; exact h⟩

/-! ## Outputs of two calls -/

theorem early_failure_buf {W : Nat} {b : Bool} (buf1 buf2 : List Nat) {out_len : Nat}
    {digest : Option EVP_MD} {secret : Option (List Nat)} {secret_len info_len : Nat} :
    early_failure W b (some buf1) out_len digest secret secret_len info_len ↔
      early_failure W b (some buf2) out_len digest secret secret_len info_len := by
  simp [early_failure]

theorem flag_eq_of_iff {a b : Outcome} {P Q : Prop}
    (ha : a = Outcome.ret 1 ∨ a = Outcome.ret 0) (hb : b = Outcome.ret 1 ∨ b = Outcome.ret 0)
    (h1 : a = Outcome.ret 1 ↔ P) (h2 : b = Outcome.ret 1 ↔ Q) (hPQ : P ↔ Q) : a = b := by
  rcases ha with ha | ha <;> rcases hb with hb | hb
  · rw [ha, hb]
  · exact absurd (h2.mpr (hPQ.mp (h1.mp ha))) (by rw [hb]; simp)
  · exact absurd (h1.mpr (hPQ.mpr (h2.mp hb))) (by rw [ha]; simp)
  · rw [ha, hb]

theorem key_stream_le (blk : Nat → List Nat) {n1 n2 : Nat} (h : n1 ≤ n2) :
    ∃ rest, key_stream blk n2 = key_stream blk n1 ++ rest := by
  induction n2 with
  | zero =>
    have : n1 = 0 := by omega
    subst this
    exact ⟨[], by simp⟩
  | succ n ih =>
    rcases Nat.lt_or_ge n1 (n + 1) with h1 | h1
    · obtain ⟨rest, hr⟩ := ih (by omega)
      exact ⟨rest ++ blk (n + 1), by rw [key_stream, hr, List.append_assoc]⟩
    · have : n1 = n + 1 := by omega
      subst this
      exact ⟨[], by simp⟩

theorem prefix_of_outputs {blk : Nat → List Nat} {h_len L1 L2 : Nat} {buf1 buf2 o1 o2 : List Nat}
    (hblk : ∀ v, (blk v).length = h_len) (hpos : 0 < h_len) (h12 : L1 ≤ L2)
    (e1 : o1 = (key_stream blk ((L1 + h_len - 1) / h_len)).take L1 ++ buf1.drop L1)
    (e2 : o2 = (key_stream blk ((L2 + h_len - 1) / h_len)).take L2 ++ buf2.drop L2) :
    o1.take L1 = o2.take L1 ∧ (o1.take L1).length = L1 := by
  have hc1 : L1 ≤ (L1 + h_len - 1) / h_len * h_len := ceil_covers hpos rfl
  have hc2 : L2 ≤ (L2 + h_len - 1) / h_len * h_len := ceil_covers hpos rfl
  have hmono : (L1 + h_len - 1) / h_len ≤ (L2 + h_len - 1) / h_len :=
    Nat.div_le_div_right (by omega)
  obtain ⟨rest, hrest⟩ := key_stream_le blk hmono
  have t1 : o1.take L1 = (key_stream blk ((L1 + h_len - 1) / h_len)).take L1 := by
    rw [e1, List.take_append_of_le_length (by simp [key_stream_length hblk]; omega),
      List.take_take, Nat.min_self]
  have t2 : o2.take L1 = (key_stream blk ((L1 + h_len - 1) / h_len)).take L1 := by
    rw [e2, List.take_append_of_le_length (by simp [key_stream_length hblk]; omega),
      List.take_take, Nat.min_eq_left h12, hrest,
      List.take_append_of_le_length (by rw [key_stream_length hblk]; omega)]
  refine ⟨by rw [t1, t2], ?_⟩
  rw [t1, List.length_take, key_stream_length hblk]
  omega

theorem SSKDF_DIGEST_prefix {W : Nat} (hW : W = 32 ∨ W = 64) {buf1 buf2 : List Nat}
    {L1 L2 : Nat} (h12 : L1 ≤ L2) (ho : L2 < 2 ^ W) (hb1 : L1 ≤ buf1.length)
    (hb2 : L2 ≤ buf2.length) {digest : Option EVP_MD} {secret : Option (List Nat)}
    {secret_len : Nat} {info : List Nat} {info_len : Nat} {w1 w2 : World}
    (h1 : (SSKDF_DIGEST W (some buf1) L1 digest secret secret_len info info_len w1).1
      = Outcome.ret 1)
    (h2 : (SSKDF_DIGEST W (some buf2) L2 digest secret secret_len info info_len w2).1
      = Outcome.ret 1) :
    ∃ o1 o2,
      (SSKDF_DIGEST W (some buf1) L1 digest secret secret_len info info_len w1).2.1 = some o1 ∧
      (SSKDF_DIGEST W (some buf2) L2 digest secret secret_len info info_len w2).2.1 = some o2 ∧
      o1.take L1 = o2.take L1 ∧ (o1.take L1).length = L1 := by
  obtain ⟨_, md, sec, _, rfl, rfl, _⟩ := SSKDF_DIGEST_ret1 h1
  obtain ⟨_, hpos, e1, _⟩ := SSKDF_DIGEST_success hW (by omega) hb1 h1
  obtain ⟨_, _, e2, _⟩ := SSKDF_DIGEST_success hW ho hb2 h2
  exact ⟨_, _, e1, e2, prefix_of_outputs (fun v => md.hash_length _) hpos h12 rfl rfl⟩

theorem SSKDF_HMAC_prefix {W : Nat} (hW : W = 32 ∨ W = 64) {buf1 buf2 : List Nat}
    {L1 L2 : Nat} (h12 : L1 ≤ L2) (ho : L2 < 2 ^ W) (hb1 : L1 ≤ buf1.length)
    (hb2 : L2 ≤ buf2.length) {digest : Option EVP_MD} {secret : Option (List Nat)}
    {secret_len : Nat} {info : List Nat} {info_len : Nat} {salt : List Nat} {salt_len : Nat}
    {w1 w2 : World}
    (h1 : (SSKDF_HMAC W (some buf1) L1 digest secret secret_len info info_len salt salt_len
      w1).1 = Outcome.ret 1)
    (h2 : (SSKDF_HMAC W (some buf2) L2 digest secret secret_len info info_len salt salt_len
      w2).1 = Outcome.ret 1) :
    ∃ o1 o2,
      (SSKDF_HMAC W (some buf1) L1 digest secret secret_len info info_len salt salt_len
        w1).2.1 = some o1 ∧
      (SSKDF_HMAC W (some buf2) L2 digest secret secret_len info info_len salt salt_len
        w2).2.1 = some o2 ∧
      o1.take L1 = o2.take L1 ∧ (o1.take L1).length = L1 := by
  obtain ⟨_, md, sec, _, rfl, rfl, _⟩ := SSKDF_HMAC_ret1 h1
  obtain ⟨_, hpos, e1, _⟩ := SSKDF_HMAC_success hW (by omega) hb1 h1
  obtain ⟨_, _, e2, _⟩ := SSKDF_HMAC_success hW ho hb2 h2
  exact ⟨_, _, e1, e2, prefix_of_outputs (fun v => md.hmac_length _ _) hpos h12 rfl rfl⟩

theorem KBKDF_CTR_prefix {W : Nat} (hW : W = 32 ∨ W = 64) {buf1 buf2 : List Nat}
    {L1 L2 : Nat} (h12 : L1 ≤ L2) (ho : L2 < 2 ^ W) (hb1 : L1 ≤ buf1.length)
    (hb2 : L2 ≤ buf2.length) {digest : Option EVP_MD} {secret : Option (List Nat)}
    {secret_len : Nat} {info : List Nat} {info_len : Nat} {w1 w2 : World}
    (h1 : (KBKDF_CTR W (some buf1) L1 digest secret secret_len info info_len w1).1
      = Outcome.ret 1)
    (h2 : (KBKDF_CTR W (some buf2) L2 digest secret secret_len info info_len w2).1
      = Outcome.ret 1) :
    ∃ o1 o2,
      (KBKDF_CTR W (some buf1) L1 digest secret secret_len info info_len w1).2.1 = some o1 ∧
      (KBKDF_CTR W (some buf2) L2 digest secret secret_len info info_len w2).2.1 = some o2 ∧
      o1.take L1 = o2.take L1 ∧ (o1.take L1).length = L1 := by
  obtain ⟨_, md, sec, _, rfl, rfl, _⟩ := KBKDF_CTR_ret1 h1
  obtain ⟨_, hpos, e1, _⟩ := KBKDF_CTR_success hW (by omega) hb1 h1
  obtain ⟨_, _, e2, _⟩ := KBKDF_CTR_success hW ho hb2 h2
  exact ⟨_, _, e1, e2, prefix_of_outputs (fun v => md.hmac_length _ _) hpos h12 rfl rfl⟩

/-! ## Context set-up that fails -/

theorem digest_ctx_init_failed (ctx : Option (SSKDF_VARIANT_CTX SSKDF_VARIANT_DIGEST_CTX))
    (digest : Option EVP_MD) (w : World)
    (h : (SSKDF_VARIANT_DIGEST_CTX_init ctx digest w).1 = 0) :
    (SSKDF_VARIANT_DIGEST_CTX_init ctx digest w).2.1 = ctx ∧
    (SSKDF_VARIANT_DIGEST_CTX_init ctx digest w).2.2.live = w.live ∧
    ∃ evs, (SSKDF_VARIANT_DIGEST_CTX_init ctx digest w).2.2.trace = w.trace ++ evs ∧
      releases_what_it_allocated evs := by
  rcases ctx with _ | c
  · exact ⟨rfl, rfl, [], by simp [SSKDF_VARIANT_DIGEST_CTX_init, EVP_MD_CTX_free, World.release],
      fun a => rfl⟩
  rcases digest with _ | md
  · exact ⟨rfl, rfl, [], by simp [SSKDF_VARIANT_DIGEST_CTX_init, EVP_MD_CTX_free, World.release],
      fun a => rfl⟩
  cases h0 : w.fail w.tick
  swap
  · refine ⟨by simp [SSKDF_VARIANT_DIGEST_CTX_init, malloc_fail h0],
      by simp [SSKDF_VARIANT_DIGEST_CTX_init, malloc_fail h0, EVP_MD_CTX_free, World.release,
        World.advance],
      [Event.alloc none], by
        simp [SSKDF_VARIANT_DIGEST_CTX_init, malloc_fail h0, EVP_MD_CTX_free, World.release,
          World.advance], fun a => by simp⟩
  cases h1 : w.fail (w.tick + 1)
  swap
  · have e : SSKDF_VARIANT_DIGEST_CTX_init (some c) (some md) w =
        (0, some c, { w with tick := w.tick + 2,
                             trace := w.trace ++ [Event.alloc (some w.next), Event.alloc none,
                               Event.free w.next],
                             next := w.next + 1, live := w.live }) := by
      simp only [SSKDF_VARIANT_DIGEST_CTX_init, malloc_ok h0, EVP_MD_CTX_new]
      rw [malloc_fail (by simpa using h1)]
      simp [EVP_MD_CTX_free, World.release, World.advance, Nat.add_assoc]
    rw [e]
    refine ⟨rfl, rfl, _, rfl, fun a => ?_⟩
    by_cases ha : w.next = a <;> simp [List.count_cons, ha]
  · rw [digest_ctx_init_ok c md w h0 h1] at h
    cases h

theorem hmac_ctx_init_failed (ctx : Option (SSKDF_VARIANT_CTX SSKDF_VARIANT_HMAC_CTX))
    (digest : Option EVP_MD) (salt : List Nat) (salt_len : Nat) (w : World)
    (h : (SSKDF_VARIANT_HMAC_CTX_init ctx digest salt salt_len w).1 = 0) :
    (SSKDF_VARIANT_HMAC_CTX_init ctx digest salt salt_len w).2.1 = ctx ∧
    (SSKDF_VARIANT_HMAC_CTX_init ctx digest salt salt_len w).2.2.live = w.live ∧
    ∃ evs, (SSKDF_VARIANT_HMAC_CTX_init ctx digest salt salt_len w).2.2.trace = w.trace ++ evs ∧
      releases_what_it_allocated evs := by
  rcases ctx with _ | c
  · exact ⟨rfl, rfl, [], by simp [SSKDF_VARIANT_HMAC_CTX_init, HMAC_CTX_free, World.release],
      fun a => rfl⟩
  rcases digest with _ | md
  · exact ⟨rfl, rfl, [], by simp [SSKDF_VARIANT_HMAC_CTX_init, HMAC_CTX_free, World.release],
      fun a => rfl⟩
  cases h0 : w.fail w.tick
  swap
  · refine ⟨by simp [SSKDF_VARIANT_HMAC_CTX_init, malloc_fail h0],
      by simp [SSKDF_VARIANT_HMAC_CTX_init, malloc_fail h0, HMAC_CTX_free, World.release,
        World.advance],
      [Event.alloc none], by
        simp [SSKDF_VARIANT_HMAC_CTX_init, malloc_fail h0, HMAC_CTX_free, World.release,
          World.advance], fun a => by simp⟩
  cases h1 : w.fail (w.tick + 1)
  swap
  · have e : SSKDF_VARIANT_HMAC_CTX_init (some c) (some md) salt salt_len w =
        (0, some c, { w with tick := w.tick + 2,
                             trace := w.trace ++ [Event.alloc (some w.next), Event.alloc none,
                               Event.free w.next],
                             next := w.next + 1, live := w.live }) := by
      simp only [SSKDF_VARIANT_HMAC_CTX_init, malloc_ok h0, HMAC_CTX_new]
      rw [malloc_fail (by simpa using h1)]
      simp [HMAC_CTX_free, World.release, World.advance, Nat.add_assoc]
    rw [e]
    refine ⟨rfl, rfl, _, rfl, fun a => ?_⟩
    by_cases ha : w.next = a <;> simp [List.count_cons, ha]
  cases h2 : w.fail (w.tick + 2)
  swap
  · have e : SSKDF_VARIANT_HMAC_CTX_init (some c) (some md) salt salt_len w =
        (0, some c, { w with tick := w.tick + 3,
                             trace := w.trace ++ [Event.alloc (some w.next),
                               Event.alloc (some (w.next + 1)),
                               Event.HMAC_Init_ex (w.next + 1) (some (salt.take salt_len)) true,
                               Event.free (w.next + 1), Event.free w.next],
                             next := w.next + 2, live := w.live }) := by
      simp only [SSKDF_VARIANT_HMAC_CTX_init, malloc_ok h0, HMAC_CTX_new]
      rw [malloc_ok (by simpa using h1)]
      simp only []
      rw [hmac_init_fail (by simpa using h2)]
      simp [HMAC_CTX_free, World.release, World.advance, Nat.add_assoc]
    rw [e]
    refine ⟨rfl, rfl, _, rfl, fun a => ?_⟩
    by_cases ha : w.next = a <;> by_cases hb : w.next + 1 = a <;>
      simp [List.count_cons, ha, hb]
  · rw [hmac_ctx_init_ok c md salt salt_len w h0 h1 h2] at h
    cases h

/-! ## Counters and offsets of a run -/

theorem store_u32_be_inj {a b : Nat} (ha : a < 2 ^ 32) (hb : b < 2 ^ 32)
    (h : CRYPTO_store_u32_be a = CRYPTO_store_u32_be b) : a = b := by
  simp only [CRYPTO_store_u32_be, List.cons.injEq, and_true] at h
  obtain ⟨h1, h2, h3, h4⟩ := h
  omega

theorem counters_nodup {m : Nat} (hm : m ≤ UINT32_MAX) :
    ((List.range' 1 m).map CRYPTO_store_u32_be).Nodup := by
  refine List.Nodup.map_on ?_ (List.nodup_range' 1 m)
  intro x hx y hy h
  simp only [List.mem_range'_1, UINT32_MAX] at hx hy hm
  exact store_u32_be_inj (by omega) (by omega) h

theorem counters_loop_events {evs : Nat → List Event}
    (hevs : ∀ v o b rest,
      counters (evs v ++ Event.memcpy o b :: rest) = CRYPTO_store_u32_be v :: counters rest)
    (blk : Nat → List Nat) (out_len h_len : Nat) :
    ∀ k i rest, counters (loop_events evs blk out_len h_len i k ++ rest) =
      (List.range' (i + 1) k).map CRYPTO_store_u32_be ++ counters rest := by
  intro k
  induction k with
  | zero => intro i rest; rfl
  | succ k ih =>
    intro i rest
    simp only [loop_events, List.append_assoc, List.singleton_append, hevs, ih,
      List.range'_succ, List.map_cons, List.cons_append, List.nil_append]

theorem early_run_counts_up {r : Outcome × Option (List Nat) × World} {w : World}
    {out_key : Option (List Nat)} (n : Nat) (h : early_run r w out_key) : counts_up r w n := by
  obtain ⟨h0, _, evs, htr, hev⟩ := h
  refine ⟨evs, 0, htr, Nat.zero_le _, Nat.zero_le _, ?_, ?_, ?_, ?_⟩
  · intro h; rw [h0] at h; cases h
  · rw [counters_of_no_block_work hev]; rfl
  · rw [counters_of_no_block_work hev]; exact List.nodup_nil
  · intro i hi; omega

theorem loop_run_counts_up {r : Outcome × Option (List Nat) × World} {w : World} {a : Nat}
    {pre post : List Event} {cost : Nat} {evs : Nat → List Event} {blk : Nat → List Nat}
    {out_len h_len n : Nat} {buf : List Nat}
    (h : loop_run r w a pre post cost evs blk out_len h_len n buf) (hn32 : n ≤ UINT32_MAX)
    (hpre : ∀ rest, counters (pre ++ rest) = counters rest)
    (hevs : ∀ v o b rest,
      counters (evs v ++ Event.memcpy o b :: rest) = CRYPTO_store_u32_be v :: counters rest)
    (hpost : counters post = [])
    (htail : ∀ v j, j < cost →
      counters ((evs v).take (j + 1) ++ post) = [] ∨
      counters ((evs v).take (j + 1) ++ post) = [CRYPTO_store_u32_be v]) :
    counts_up r w n := by
  have hwrap : ∀ m, m ≤ n → ∀ i, i < m → (i + 1) % 2 ^ 32 = i + 1 ∧ (i + 1) % 2 ^ 32 ≠ 0 := by
    intro m hm i hi
    simp only [UINT32_MAX] at hn32
    have : (i + 1) % 2 ^ 32 = i + 1 := Nat.mod_eq_of_lt (by norm_num; omega)
    exact ⟨this, by rw [this]; omega⟩
  rcases h with ⟨h1, _, _, htr⟩ | ⟨h0, k, j, hk, hj, _, _, _, htr⟩
  · have hc : counters (pre ++ loop_events evs blk out_len h_len 0 n ++ post) =
        (List.range' 1 n).map CRYPTO_store_u32_be := by
      rw [List.append_assoc, hpre, counters_loop_events hevs, hpost, List.append_nil]
    refine ⟨pre ++ loop_events evs blk out_len h_len 0 n ++ post, n, ?_, le_refl _, hn32,
      fun _ => rfl, hc, ?_, hwrap n (le_refl _)⟩
    · rw [htr]; simp only [List.append_assoc]
    · rw [hc]; exact counters_nodup hn32
  · have hc0 : counters (pre ++ loop_events evs blk out_len h_len 0 k ++
          (evs (k + 1)).take (j + 1) ++ post) =
        (List.range' 1 k).map CRYPTO_store_u32_be ++
          counters ((evs (k + 1)).take (j + 1) ++ post) := by
      rw [List.append_assoc, List.append_assoc, hpre, counters_loop_events hevs]
    have hflag : r.1 = Outcome.ret 1 → False := by
      intro h; rw [h0] at h; cases h
    rcases htail (k + 1) j hj with ht | ht
    · rw [ht, List.append_nil] at hc0
      refine ⟨_, k, ?_, hk.le, by omega, fun h => (hflag h).elim, hc0, ?_, hwrap k hk.le⟩
      · rw [htr]; simp only [List.append_assoc]
      · rw [hc0]; exact counters_nodup (by omega)
    · have hc1 : counters (pre ++ loop_events evs blk out_len h_len 0 k ++
            (evs (k + 1)).take (j + 1) ++ post) =
          (List.range' 1 (k + 1)).map CRYPTO_store_u32_be := by
        rw [hc0, ht, List.range'_concat, List.map_append]
        simp [Nat.add_comm]
      refine ⟨_, k + 1, ?_, hk, by omega, fun h => (hflag h).elim, hc1, ?_, hwrap (k + 1) hk⟩
      · rw [htr]; simp only [List.append_assoc]
      · rw [hc1]; exact counters_nodup (by omega)

theorem early_run_loop_safe {r : Outcome × Option (List Nat) × World} {w : World}
    {out_key : Option (List Nat)} (W : Nat) (blk : Nat → List Nat) (out_len h_len n : Nat)
    (h : early_run r w out_key) : loop_safe W r w blk out_len h_len n := by
  obtain ⟨h0, _, evs, htr, hev⟩ := h
  refine ⟨evs, 0, htr, Nat.zero_le _, ?_, ?_, ?_⟩
  · intro h; rw [h0] at h; cases h
  · rw [copies_of_no_block_work hev]; rfl
  · intro i hi; omega

theorem loop_run_loop_safe {r : Outcome × Option (List Nat) × World} {w : World} {a : Nat}
    {pre post : List Event} {cost : Nat} {evs : Nat → List Event} {blk : Nat → List Nat}
    {out_len h_len n : Nat} {buf : List Nat} {W : Nat}
    (h : loop_run r w a pre post cost evs blk out_len h_len n buf)
    (hblk : ∀ v, (blk v).length = h_len) (hpos : 0 < h_len) (hmax : h_len ≤ EVP_MAX_MD_SIZE)
    (hn : n = (out_len + h_len - 1) / h_len) (ho : out_len < 2 ^ W)
    (hpre : copies pre = []) (hpost : copies post = []) (hevs : ∀ v, copies (evs v) = []) :
    loop_safe W r w blk out_len h_len n := by
  obtain ⟨new, m, htr, hm, hmn, hc⟩ := loop_run_copies h hpre hpost hevs
  refine ⟨new, m, htr, hm, hmn, hc, ?_⟩
  intro i hi
  obtain ⟨h1, h2, h3, h4, h5, _⟩ := iteration_copy_bound hblk hpos hn (i := i) (by omega)
  have hsub : size_sub W out_len (i * h_len) = out_len - i * h_len :=
    size_sub_exact h1.le ho
  refine ⟨h2, h1, hsub, ?_, by rw [h3]; exact h4, by rw [h3]; exact Nat.min_le_left _ _, hmax,
    fun hlast => by rw [h3]; exact h5 hlast⟩
  rw [h3, hsub]
  split_ifs with hgt
  · exact Nat.min_eq_right (by omega)
  · exact Nat.min_eq_left (by omega)

theorem counters_digest_events (a : Nat) (c sec info : List Nat) (o : Nat) (b : List Nat)
    (rest : List Event) :
    counters (digest_events a c sec info ++ Event.memcpy o b :: rest) = c :: counters rest := by
  simp [digest_events, counters]

theorem counters_hmac_events (a : Nat) (c sec info : List Nat) (o : Nat) (b : List Nat)
    (rest : List Event) :
    counters (hmac_events a c sec info ++ Event.memcpy o b :: rest) = c :: counters rest := by
  simp [hmac_events, counters]

theorem counters_kbkdf_events (a : Nat) (c info : List Nat) (o : Nat) (b : List Nat)
    (rest : List Event) :
    counters (kbkdf_events a c info ++ Event.memcpy o b :: rest) = c :: counters rest := by
  simp [kbkdf_events, counters]

theorem counters_digest_tail (a : Nat) (c sec info : List Nat) (x y : Nat) (j : Nat)
    (hj : j < 6) :
    counters ((digest_events a c sec info).take (j + 1) ++ [Event.free x, Event.free y]) = [] ∨
    counters ((digest_events a c sec info).take (j + 1) ++ [Event.free x, Event.free y])
      = [c] := by
  interval_cases j <;> simp [digest_events, counters]

theorem counters_hmac_tail (a : Nat) (c sec info : List Nat) (x y : Nat) (j : Nat)
    (hj : j < 5) :
    counters ((hmac_events a c sec info).take (j + 1) ++ [Event.free x, Event.free y]) = [] ∨
    counters ((hmac_events a c sec info).take (j + 1) ++ [Event.free x, Event.free y])
      = [c] := by
  interval_cases j <;> simp [hmac_events, counters]

theorem counters_kbkdf_tail (a : Nat) (c info : List Nat) (x : Nat) (j : Nat) (hj : j < 4) :
    counters ((kbkdf_events a c info).take (j + 1) ++ [Event.free x]) = [] ∨
    counters ((kbkdf_events a c info).take (j + 1) ++ [Event.free x]) = [c] := by
  interval_cases j <;> simp [kbkdf_events, counters]

theorem counters_skip_alloc (p : Option Nat) (rest : List Event) :
    counters (Event.alloc p :: rest) = counters rest := by
  simp [counters]

theorem counters_skip_keying (p : Nat) (key : List Nat) (g : Bool) (rest : List Event) :
    counters (Event.HMAC_Init_ex p (some key) g :: rest) = counters rest := by
  simp [counters]

/-! ## The engine with and without assertions -/

/-- C11 fails as stated for `KBKDF_CTR`: with a 1-byte secret and
`info_len = 2^32` (so that `4 + secret_len + info_len > 2^32 - 1`) the call
succeeds in a world where no library call fails; `kbkdf.c` has no input-length
check. -/
theorem C11_counterexample :
    4 + 1 + 4294967296 > 2 ^ 32 - 1 ∧
    (KBKDF_CTR 64 (some [9]) 1 (some (toy_md 2 (by decide))) (some [1]) 1
      (List.replicate 4294967296 0) 4294967296 calm).1 = Outcome.ret 1 :=
  ⟨by norm_num,
    (KBKDF_CTR_single (W := 64) (Or.inr rfl) (toy_md 2 (by decide)) [9] [1] 1 1
      (List.replicate 4294967296 0) 4294967296 calm (by decide) (by decide) (by decide)
      (by decide)).1.mpr (fun _ _ => rfl)⟩

/-- C11 as amended: when `4 + secret_len + info_len` exceeds `2^32 - 1` (overflow
of `size_t` included), `SSKDF_DIGEST` and `SSKDF_HMAC` return 0 whatever the other
arguments; `KBKDF_CTR` makes no such check and, on arguments that pass its own
checks, returns 1 whenever none of its `2 + 4 n` library calls fails. -/
theorem C11_input_length_check_only_in_sskdf {W : Nat} (hW : W = 32 ∨ W = 64)
    (secret_len info_len : Nat) (hs : secret_len < 2 ^ W) (hi : info_len < 2 ^ W)
    (hsum : 4 + secret_len + info_len > 2 ^ 32 - 1) :
    (∀ (out_key : Option (List Nat)) (out_len : Nat) (digest : Option EVP_MD)
        (secret : Option (List Nat)) (info : List Nat) (w : World),
      (SSKDF_DIGEST W out_key out_len digest secret secret_len info info_len w).1
        = Outcome.ret 0) ∧
    (∀ (out_key : Option (List Nat)) (out_len : Nat) (digest : Option EVP_MD)
        (secret : Option (List Nat)) (info salt : List Nat) (salt_len : Nat) (w : World),
      (SSKDF_HMAC W out_key out_len digest secret secret_len info info_len salt salt_len w).1
        = Outcome.ret 0) ∧
    (∀ (md : EVP_MD) (buf sec : List Nat) (out_len : Nat) (info : List Nat) (w : World),
      0 < out_len → out_len < 2 ^ W → out_len ≤ buf.length → 0 < secret_len →
      0 < md.md_size → length_check_fails W out_len md.md_size = false →
      (∀ t, t < 2 + (out_len + md.md_size - 1) / md.md_size * 4 →
        w.fail (w.tick + t) = false) →
      (KBKDF_CTR W (some buf) out_len (some md) (some sec) secret_len info info_len w).1
        = Outcome.ret 1) := by
  have hic : input_check_fails W secret_len info_len = true :=
    (input_check_fails_iff hW hs hi).mpr (by simpa [UINT32_MAX] using hsum)
  have hearly : ∀ (out_key : Option (List Nat)) (out_len : Nat) (digest : Option EVP_MD)
      (secret : Option (List Nat)),
      early_failure W true out_key out_len digest secret secret_len info_len := by
    intro out_key out_len digest secret
    cases digest with
    | none => exact Or.inr (Or.inr (Or.inr (Or.inr (Or.inl rfl))))
    | some md =>
      exact Or.inr (Or.inr (Or.inr (Or.inr (Or.inr
        ⟨md, rfl, Or.inr (Or.inr ⟨rfl, hic⟩)⟩))))
  refine ⟨?_, ?_, ?_⟩
  · intro out_key out_len digest secret info w
    exact (SSKDF_DIGEST_early W out_key out_len digest secret secret_len info info_len w
      (Or.inl (hearly out_key out_len digest secret))).1
  · intro out_key out_len digest secret info salt salt_len w
    exact (SSKDF_HMAC_early W out_key out_len digest secret secret_len info info_len salt
      salt_len w (Or.inl (hearly out_key out_len digest secret))).1
  · intro md buf sec out_len info w hout ho hbuf hsec hpos hlc hfree
    have ha0 : w.fail w.tick = false := by simpa using hfree 0 (by omega)
    have ha1 : w.fail (w.tick + 1) = false := hfree 1 (by omega)
    rcases KBKDF_CTR_run hW md buf sec out_len secret_len info info_len w hout ho hbuf hsec
      hpos hlc rfl ha0 ha1 with h | ⟨_, k, j, hk, hj, _, hfail, _⟩
    · exact h.1
    · have := hfree (2 + k * 4 + j) (by
        have : (k + 1) * 4 ≤ (out_len + md.md_size - 1) / md.md_size * 4 :=
          Nat.mul_le_mul_right 4 hk
        omega)
      rw [this] at hfail
      exact absurd hfail (by simp)

/-- C11 (amended) at a concrete input: with `secret_len = 1` and
`info_len = 2^32`, `SSKDF_DIGEST` and `SSKDF_HMAC` return 0. -/
theorem C11_witness :
    (SSKDF_DIGEST 64 (some [9]) 1 (some (toy_md 2 (by decide))) (some [1]) 1
      (List.replicate 4294967296 0) 4294967296 calm).1 = Outcome.ret 0 ∧
    (SSKDF_HMAC 64 (some [9]) 1 (some (toy_md 2 (by decide))) (some [1]) 1
      (List.replicate 4294967296 0) 4294967296 [5] 1 calm).1 = Outcome.ret 0 :=
  ⟨(C11_input_length_check_only_in_sskdf (W := 64) (Or.inr rfl) 1 4294967296 (by norm_num)
      (by norm_num) (by norm_num)).1 _ _ _ _ _ _,
   (C11_input_length_check_only_in_sskdf (W := 64) (Or.inr rfl) 1 4294967296 (by norm_num)
      (by norm_num) (by norm_num)).2.1 _ _ _ _ _ _ _ _⟩

/-- C13 fails as stated for `secret_len = 0`: with a non-`NULL` secret pointer
and `secret_len = 0`, both `compute` functions return 1 in a world where no
library call fails. -/
theorem C13_counterexample :
    (sskdf_variant_digest_compute
      (digest_ctx_with { addr := 1, digest := some (toy_md 2 (by decide)), ctx := none }
        { addr := 2, digest := none, data := [] })
      (some [0, 0]) 2 (some [0, 0, 0, 1]) (some [5]) 0 [] 0 calm).1 = 1 ∧
    (sskdf_variant_hmac_compute
      (hmac_ctx_with { addr := 1, ctx := none }
        { addr := 2, md := some (toy_md 2 (by decide)), key := [7], data := [] })
      (some [0, 0]) 2 (some [0, 0, 0, 1]) (some [5]) 0 [] 0 calm).1 = 1 := by
  decide

/-- C13 as amended: both `compute` functions return 0, changing nothing, when
`ctx`, `ctx->data`, `out`, `counter` or `secret` is `NULL`; `secret_len = 0` with
a non-`NULL` secret is not rejected: on an initialised context, when no library
call fails, `compute` returns 1 and writes the block of `counter ‖ info`. -/
theorem C13_compute_rejects_null_arguments :
    (∀ (ctx : Option (SSKDF_VARIANT_CTX SSKDF_VARIANT_DIGEST_CTX)) (out : Option (List Nat))
        (out_len : Nat) (counter secret : Option (List Nat)) (secret_len : Nat)
        (info : List Nat) (info_len : Nat) (w : World),
      (ctx = none ∨ (∃ c, ctx = some c ∧ c.data = none) ∨ out = none ∨ counter = none ∨
        secret = none) →
      sskdf_variant_digest_compute ctx out out_len counter secret secret_len info info_len w
        = (0, ctx, out, w)) ∧
    (∀ (ctx : Option (SSKDF_VARIANT_CTX SSKDF_VARIANT_HMAC_CTX)) (out : Option (List Nat))
        (out_len : Nat) (counter secret : Option (List Nat)) (secret_len : Nat)
        (info : List Nat) (info_len : Nat) (w : World),
      (ctx = none ∨ (∃ c, ctx = some c ∧ c.data = none) ∨ out = none ∨ counter = none ∨
        secret = none) →
      sskdf_variant_hmac_compute ctx out out_len counter secret secret_len info info_len w
        = (0, ctx, out, w)) ∧
    (∀ (md : EVP_MD) (vaddr : Nat) (m : EVP_MD_CTX) (o : List Nat) (out_len : Nat)
        (ctr sec info : List Nat) (info_len : Nat) (w : World),
      (∀ k, k < 6 → w.fail (w.tick + k) = false) →
      (sskdf_variant_digest_compute
          (some { data := some { addr := vaddr, digest := some md, ctx := some m } })
          (some o) out_len (some ctr) (some sec) 0 info info_len w).1 = 1 ∧
      (sskdf_variant_digest_compute
          (some { data := some { addr := vaddr, digest := some md, ctx := some m } })
          (some o) out_len (some ctr) (some sec) 0 info info_len w).2.2.1
        = some (write_block o (md.hash (ctr.take 4 ++ info.take info_len)))) ∧
    (∀ (md : EVP_MD) (vaddr a : Nat) (key x : List Nat) (o : List Nat) (out_len : Nat)
        (ctr sec info : List Nat) (info_len : Nat) (w : World),
      (∀ k, k < 5 → w.fail (w.tick + k) = false) →
      (sskdf_variant_hmac_compute
          (some { data := some { addr := vaddr,
                                 ctx := some { addr := a, md := some md, key := key,
                                               data := x } } })
          (some o) out_len (some ctr) (some sec) 0 info info_len w).1 = 1 ∧
      (sskdf_variant_hmac_compute
          (some { data := some { addr := vaddr,
                                 ctx := some { addr := a, md := some md, key := key,
                                               data := x } } })
          (some o) out_len (some ctr) (some sec) 0 info info_len w).2.2.1
        = some (write_block o (md.hmac key (ctr.take 4 ++ info.take info_len)))) := by
  refine ⟨?_, ?_, ?_, ?_⟩
  · intro ctx out out_len counter secret secret_len info info_len w h
    rcases ctx with _ | c <;> rcases out with _ | o <;> rcases counter with _ | ctr <;>
      rcases secret with _ | sec <;> try rfl
    rcases h with h | ⟨c', h1, h2⟩ | h | h | h <;> try cases h
    cases h1
    simp [sskdf_variant_digest_compute, h2]
  · intro ctx out out_len counter secret secret_len info info_len w h
    rcases ctx with _ | c <;> rcases out with _ | o <;> rcases counter with _ | ctr <;>
      rcases secret with _ | sec <;> try rfl
    rcases h with h | ⟨c', h1, h2⟩ | h | h | h <;> try cases h
    cases h1
    simp [sskdf_variant_hmac_compute, h2]
  · intro md vaddr m o out_len ctr sec info info_len w hfree
    rcases digest_compute_cases md vaddr m o out_len ctr sec 0 info info_len w _ rfl with
      ⟨_, k, hk, hf⟩ | ⟨_, hr⟩
    · rw [hfree k hk] at hf; cases hf
    · rw [hr]; simp
  · intro md vaddr a key x o out_len ctr sec info info_len w hfree
    rcases hmac_compute_cases md vaddr a key x o out_len ctr sec 0 info info_len w _ rfl with
      ⟨_, k, hk, hf⟩ | ⟨_, hr⟩
    · rw [hfree k hk] at hf; cases hf
    · rw [hr]; simp

/-- C13 (amended) at a concrete input: the digest variant's `compute` with a
`NULL` output buffer returns 0 and changes nothing. -/
theorem C13_witness :
    sskdf_variant_digest_compute
      (digest_ctx_with { addr := 1, digest := some (toy_md 2 (by decide)), ctx := none }
        { addr := 2, digest := none, data := [] })
      none 2 (some [0, 0, 0, 1]) (some [5]) 1 [] 0 calm
      = (0, digest_ctx_with { addr := 1, digest := some (toy_md 2 (by decide)), ctx := none }
              { addr := 2, digest := none, data := [] }, none, calm) :=
  C13_compute_rejects_null_arguments.1 _ none 2 (some [0, 0, 0, 1]) (some [5]) 1 [] 0 calm
    (Or.inr (Or.inr (Or.inl rfl)))

/-- C14: every call of `SSKDF_DIGEST`, `SSKDF_HMAC` (the SSKDF engine under its
two variants) and `KBKDF_CTR`, on a `NULL` output buffer or one of at least
`out_len` bytes, writes only below `out_len` on every path: each recorded copy
ends at or before `out_len`, and the buffer keeps its length and its bytes from
index `out_len` on; when the call returns 1 the copies write `[0, out_len)` from
left to right, every index once, the last copy ending at `out_len`. -/
theorem C14_writes_only_below_out_len {W : Nat} (hW : W = 32 ∨ W = 64)
    (out_key : Option (List Nat)) (out_len : Nat) (ho : out_len < 2 ^ W)
    (hbuf : ∀ buf, out_key = some buf → out_len ≤ buf.length)
    (digest : Option EVP_MD) (secret : Option (List Nat)) (secret_len : Nat) (info : List Nat)
    (info_len : Nat) (salt : List Nat) (salt_len : Nat) (w : World) :
    writes_within (SSKDF_DIGEST W out_key out_len digest secret secret_len info info_len w)
      w out_len out_key ∧
    writes_within
      (SSKDF_HMAC W out_key out_len digest secret secret_len info info_len salt salt_len w)
      w out_len out_key ∧
    writes_within (KBKDF_CTR W out_key out_len digest secret secret_len info info_len w)
      w out_len out_key := by
  refine ⟨?_, ?_, ?_⟩
  · rcases SSKDF_DIGEST_cases hW out_key out_len ho hbuf digest secret secret_len info info_len
      w with ⟨_, he⟩ | ⟨buf, md, sec, rfl, rfl, rfl, _, _, hb, hpos, hrun⟩
    · exact early_run_writes_within out_len he
    · exact loop_run_writes_within hrun (fun v => md.hash_length _) hpos rfl hb rfl rfl
        (fun v => rfl)
  · rcases SSKDF_HMAC_cases hW out_key out_len ho hbuf digest secret secret_len info info_len
      salt salt_len w with ⟨_, he⟩ | ⟨buf, md, sec, rfl, rfl, rfl, _, _, hb, hpos, hrun⟩
    · exact early_run_writes_within out_len he
    · exact loop_run_writes_within hrun (fun v => md.hmac_length _ _) hpos rfl hb rfl rfl
        (fun v => rfl)
  · rcases KBKDF_CTR_cases hW out_key out_len ho hbuf digest secret secret_len info info_len
      w with ⟨_, he⟩ | ⟨buf, md, sec, rfl, rfl, rfl, _, _, hb, hpos, hrun⟩
    · exact early_run_writes_within out_len he
    · exact loop_run_writes_within hrun (fun v => md.hmac_length _ _) hpos rfl hb rfl rfl
        (fun v => rfl)

/-- C14 at a concrete input: 5 bytes from 2-byte blocks into a 7-byte buffer. -/
theorem C14_witness :
    writes_within
      (KBKDF_CTR 64 (some [9, 9, 9, 9, 9, 9, 9]) 5 (some (toy_md 2 (by decide)))
        (some [1, 2, 3]) 3 [7] 1 calm) calm 5 (some [9, 9, 9, 9, 9, 9, 9]) :=
  (C14_writes_only_below_out_len (W := 64) (Or.inr rfl) (some [9, 9, 9, 9, 9, 9, 9]) 5
    (by norm_num) (fun buf h => by cases h; decide) (some (toy_md 2 (by decide)))
    (some [1, 2, 3]) 3 [7] 1 [5, 5] 2 calm).2.2

/-- C15: `SSKDF_DIGEST`, `SSKDF_HMAC` (the SSKDF engine under its two variants)
and `KBKDF_CTR` return 1 exactly when the arguments pass the validation and the
length checks and none of the library calls fails (those that set the hash object
up and the calls of all `n` block computations).  When the first failing call is
call `j` of the block computation with counter `k + 1`, the call returns 0 at
once: the trace holds the `k` complete iterations, the calls of that block
computation up to the failing one, and the release of the context, so no later
block is computed or copied and nothing is retried; `out_key` holds the `k`
blocks copied before. -/
theorem C15_success_iff_all_blocks_succeed {W : Nat} (hW : W = 32 ∨ W = 64)
    (out_key : Option (List Nat)) (out_len : Nat) (ho : out_len < 2 ^ W)
    (hbuf : ∀ buf, out_key = some buf → out_len ≤ buf.length)
    (digest : Option EVP_MD) (secret : Option (List Nat)) (secret_len : Nat) (info : List Nat)
    (info_len : Nat) (salt : List Nat) (salt_len : Nat) (w : World) :
    ((SSKDF_DIGEST W out_key out_len digest secret secret_len info info_len w).1 = Outcome.ret 1
      ↔ ¬ early_failure W true out_key out_len digest secret secret_len info_len ∧
        ∃ md, digest = some md ∧
          ∀ t, t < 2 + (out_len + md.md_size - 1) / md.md_size * 6 →
            w.fail (w.tick + t) = false) ∧
    (∀ buf md sec k j, out_key = some buf → digest = some md → secret = some sec →
      ¬ early_failure W true out_key out_len digest secret secret_len info_len →
      k < (out_len + md.md_size - 1) / md.md_size → j < 6 →
      (∀ t, t < 2 + k * 6 + j → w.fail (w.tick + t) = false) →
      w.fail (w.tick + (2 + k * 6 + j)) = true →
      (SSKDF_DIGEST W out_key out_len digest secret secret_len info info_len w).1
        = Outcome.ret 0 ∧
      (SSKDF_DIGEST W out_key out_len digest secret secret_len info info_len w).2.1
        = some (key_stream (digest_block md (sec.take secret_len) (info.take info_len)) k ++
            buf.drop (k * md.md_size)) ∧
      (SSKDF_DIGEST W out_key out_len digest secret secret_len info info_len w).2.2.trace
        = w.trace ++ [Event.alloc (some w.next), Event.alloc (some (w.next + 1))] ++
          loop_events (fun v => digest_events (w.next + 1) (CRYPTO_store_u32_be v)
              (sec.take secret_len) (info.take info_len))
            (digest_block md (sec.take secret_len) (info.take info_len)) out_len md.md_size
            0 k ++
          (digest_events (w.next + 1) (CRYPTO_store_u32_be (k + 1)) (sec.take secret_len)
            (info.take info_len)).take (j + 1) ++
          [Event.free (w.next + 1), Event.free w.next]) ∧
    ((SSKDF_HMAC W out_key out_len digest secret secret_len info info_len salt salt_len w).1
        = Outcome.ret 1
      ↔ ¬ early_failure W true out_key out_len digest secret secret_len info_len ∧
        ∃ md, digest = some md ∧
          ∀ t, t < 3 + (out_len + md.md_size - 1) / md.md_size * 5 →
            w.fail (w.tick + t) = false) ∧
    (∀ buf md sec k j, out_key = some buf → digest = some md → secret = some sec →
      ¬ early_failure W true out_key out_len digest secret secret_len info_len →
      k < (out_len + md.md_size - 1) / md.md_size → j < 5 →
      (∀ t, t < 3 + k * 5 + j → w.fail (w.tick + t) = false) →
      w.fail (w.tick + (3 + k * 5 + j)) = true →
      (SSKDF_HMAC W out_key out_len digest secret secret_len info info_len salt salt_len w).1
        = Outcome.ret 0 ∧
      (SSKDF_HMAC W out_key out_len digest secret secret_len info info_len salt salt_len
          w).2.1
        = some (key_stream (hmac_block md (salt.take salt_len) (sec.take secret_len)
              (info.take info_len)) k ++ buf.drop (k * md.md_size)) ∧
      (SSKDF_HMAC W out_key out_len digest secret secret_len info info_len salt salt_len
          w).2.2.trace
        = w.trace ++ [Event.alloc (some w.next), Event.alloc (some (w.next + 1)),
            Event.HMAC_Init_ex (w.next + 1) (some (salt.take salt_len)) true] ++
          loop_events (fun v => hmac_events (w.next + 1) (CRYPTO_store_u32_be v)
              (sec.take secret_len) (info.take info_len))
            (hmac_block md (salt.take salt_len) (sec.take secret_len) (info.take info_len))
            out_len md.md_size 0 k ++
          (hmac_events (w.next + 1) (CRYPTO_store_u32_be (k + 1)) (sec.take secret_len)
            (info.take info_len)).take (j + 1) ++
          [Event.free (w.next + 1), Event.free w.next]) ∧
    ((KBKDF_CTR W out_key out_len digest secret secret_len info info_len w).1 = Outcome.ret 1
      ↔ ¬ early_failure W false out_key out_len digest secret secret_len info_len ∧
        ∃ md, digest = some md ∧
          ∀ t, t < 2 + (out_len + md.md_size - 1) / md.md_size * 4 →
            w.fail (w.tick + t) = false) ∧
    (∀ buf md sec k j, out_key = some buf → digest = some md → secret = some sec →
      ¬ early_failure W false out_key out_len digest secret secret_len info_len →
      k < (out_len + md.md_size - 1) / md.md_size → j < 4 →
      (∀ t, t < 2 + k * 4 + j → w.fail (w.tick + t) = false) →
      w.fail (w.tick + (2 + k * 4 + j)) = true →
      (KBKDF_CTR W out_key out_len digest secret secret_len info info_len w).1
        = Outcome.ret 0 ∧
      (KBKDF_CTR W out_key out_len digest secret secret_len info info_len w).2.1
        = some (key_stream (kbkdf_block md (sec.take secret_len) (info.take info_len)) k ++
            buf.drop (k * md.md_size)) ∧
      (KBKDF_CTR W out_key out_len digest secret secret_len info info_len w).2.2.trace
        = w.trace ++ [Event.alloc (some w.next),
            Event.HMAC_Init_ex w.next (some (sec.take secret_len)) true] ++
          loop_events (fun v => kbkdf_events w.next (CRYPTO_store_u32_be v)
              (info.take info_len))
            (kbkdf_block md (sec.take secret_len) (info.take info_len)) out_len md.md_size
            0 k ++
          (kbkdf_events w.next (CRYPTO_store_u32_be (k + 1)) (info.take info_len)).take
            (j + 1) ++
          [Event.free w.next]) := by
  refine ⟨(SSKDF_DIGEST_success_iff hW out_key out_len ho hbuf digest secret secret_len info
      info_len w).2, ?_,
    (SSKDF_HMAC_success_iff hW out_key out_len ho hbuf digest secret secret_len info
      info_len salt salt_len w).2, ?_,
    (KBKDF_CTR_success_iff hW out_key out_len ho hbuf digest secret secret_len info
      info_len w).2, ?_⟩
  · intro buf md sec k j h1 h2 h3 hne hk hj hfree hfail
    rcases SSKDF_DIGEST_cases hW out_key out_len ho hbuf digest secret secret_len info info_len
      w with ⟨hb, _⟩ | ⟨buf', md', sec', e1, e2, e3, _, _, _, _, hrun⟩
    · rcases hb with h | h | h
      · exact absurd h hne
      · have := hfree 0 (by omega)
        rw [Nat.add_zero, h] at this
        cases this
      · rw [hfree 1 (by omega)] at h
        cases h
    · subst h1 h2 h3
      cases e1
      cases e2
      cases e3
      exact loop_run_failure hrun hk hj hfree hfail
  · intro buf md sec k j h1 h2 h3 hne hk hj hfree hfail
    rcases SSKDF_HMAC_cases hW out_key out_len ho hbuf digest secret secret_len info info_len
      salt salt_len w with ⟨hb, _⟩ | ⟨buf', md', sec', e1, e2, e3, _, _, _, _, hrun⟩
    · rcases hb with h | h | h | h
      · exact absurd h hne
      · have := hfree 0 (by omega)
        rw [Nat.add_zero, h] at this
        cases this
      · rw [hfree 1 (by omega)] at h
        cases h
      · rw [hfree 2 (by omega)] at h
        cases h
    · subst h1 h2 h3
      cases e1
      cases e2
      cases e3
      exact loop_run_failure hrun hk hj hfree hfail
  · intro buf md sec k j h1 h2 h3 hne hk hj hfree hfail
    rcases KBKDF_CTR_cases hW out_key out_len ho hbuf digest secret secret_len info info_len
      w with ⟨hb, _⟩ | ⟨buf', md', sec', e1, e2, e3, _, _, _, _, hrun⟩
    · rcases hb with h | h | h
      · exact absurd h hne
      · have := hfree 0 (by omega)
        rw [Nat.add_zero, h] at this
        cases this
      · rw [hfree 1 (by omega)] at h
        cases h
    · subst h1 h2 h3
      cases e1
      cases e2
      cases e3
      exact loop_run_failure hrun hk hj hfree hfail

/-- C15 at a concrete input: 5 bytes from 2-byte blocks with `KBKDF_CTR`, where
the third call of the second block computation (library call number 8) fails:
the call returns 0 and `out_key` holds the first block only. -/
theorem C15_witness :
    (KBKDF_CTR 64 (some [9, 9, 9, 9, 9, 9, 9]) 5 (some (toy_md 2 (by decide)))
      (some [1, 2, 3]) 3 [7] 1 (failing_at 8)).1 = Outcome.ret 0 ∧
    (KBKDF_CTR 64 (some [9, 9, 9, 9, 9, 9, 9]) 5 (some (toy_md 2 (by decide)))
      (some [1, 2, 3]) 3 [7] 1 (failing_at 8)).2.1
      = some (key_stream (kbkdf_block (toy_md 2 (by decide)) ([1, 2, 3].take 3) ([7].take 1))
          1 ++ [9, 9, 9, 9, 9, 9, 9].drop (1 * 2)) :=
  have h := (C15_success_iff_all_blocks_succeed (W := 64) (Or.inr rfl)
    (some [9, 9, 9, 9, 9, 9, 9]) 5 (by norm_num) (fun buf h => by cases h; decide)
    (some (toy_md 2 (by decide))) (some [1, 2, 3]) 3 [7] 1 [5, 5] 2 (failing_at 8)).2.2.2.2.2
    [9, 9, 9, 9, 9, 9, 9] (toy_md 2 (by decide)) [1, 2, 3] 1 2 rfl rfl rfl
    (valid_not_early (by decide) (by decide) (by decide) (by decide) (by decide))
    (by decide) (by decide)
    (fun t ht => by simp only [failing_at, decide_eq_false_iff_not]; omega) (by decide)
  ⟨h.1, h.2.1⟩

/-- C16 fails as stated for the success flag: with the same digest, secret, info
and `out_len`, `KBKDF_CTR` and `SSKDF_DIGEST` return 1 in a world where no library
call fails and 0 in a world where the first allocation fails. -/
theorem C16_counterexample :
    (KBKDF_CTR 64 (some [9]) 1 (some (toy_md 2 (by decide))) (some [1]) 1 [7] 1 calm).1
      = Outcome.ret 1 ∧
    (KBKDF_CTR 64 (some [9]) 1 (some (toy_md 2 (by decide))) (some [1]) 1 [7] 1
      (failing_at 0)).1 = Outcome.ret 0 ∧
    (SSKDF_DIGEST 64 (some [9]) 1 (some (toy_md 2 (by decide))) (some [1]) 1 [7] 1 calm).1
      = Outcome.ret 1 ∧
    (SSKDF_DIGEST 64 (some [9]) 1 (some (toy_md 2 (by decide))) (some [1]) 1 [7] 1
      (failing_at 0)).1 = Outcome.ret 0 := by
  decide

/-- C16 as amended: for fixed digest, secret, info, salt and `out_len`, two calls
of the same entry point, on any two output buffers of at least `out_len` bytes
and in any two worlds (whatever the prior contents of `out_key` and of the
uninitialised scratch block), return the same result flag whenever their library
calls fail alike, and whenever both return 1 they leave the same `out_len`
bytes in `out_key`. -/
theorem C16_same_inputs_same_output {W : Nat} (hW : W = 32 ∨ W = 64) (out_len : Nat)
    (ho : out_len < 2 ^ W) (buf1 buf2 : List Nat) (hb1 : out_len ≤ buf1.length)
    (hb2 : out_len ≤ buf2.length) (digest : Option EVP_MD) (secret : Option (List Nat))
    (secret_len : Nat) (info : List Nat) (info_len : Nat) (salt : List Nat) (salt_len : Nat)
    (w1 w2 : World) :
    (((∀ t, w1.fail (w1.tick + t) = w2.fail (w2.tick + t)) →
        (SSKDF_DIGEST W (some buf1) out_len digest secret secret_len info info_len w1).1 =
          (SSKDF_DIGEST W (some buf2) out_len digest secret secret_len info info_len w2).1) ∧
      ((SSKDF_DIGEST W (some buf1) out_len digest secret secret_len info info_len w1).1
          = Outcome.ret 1 →
        (SSKDF_DIGEST W (some buf2) out_len digest secret secret_len info info_len w2).1
          = Outcome.ret 1 →
        ∃ o1 o2,
          (SSKDF_DIGEST W (some buf1) out_len digest secret secret_len info info_len w1).2.1
            = some o1 ∧
          (SSKDF_DIGEST W (some buf2) out_len digest secret secret_len info info_len w2).2.1
            = some o2 ∧
          o1.take out_len = o2.take out_len ∧ (o1.take out_len).length = out_len)) ∧
    (((∀ t, w1.fail (w1.tick + t) = w2.fail (w2.tick + t)) →
        (SSKDF_HMAC W (some buf1) out_len digest secret secret_len info info_len salt salt_len
            w1).1 =
          (SSKDF_HMAC W (some buf2) out_len digest secret secret_len info info_len salt
            salt_len w2).1) ∧
      ((SSKDF_HMAC W (some buf1) out_len digest secret secret_len info info_len salt salt_len
          w1).1 = Outcome.ret 1 →
        (SSKDF_HMAC W (some buf2) out_len digest secret secret_len info info_len salt salt_len
          w2).1 = Outcome.ret 1 →
        ∃ o1 o2,
          (SSKDF_HMAC W (some buf1) out_len digest secret secret_len info info_len salt
            salt_len w1).2.1 = some o1 ∧
          (SSKDF_HMAC W (some buf2) out_len digest secret secret_len info info_len salt
            salt_len w2).2.1 = some o2 ∧
          o1.take out_len = o2.take out_len ∧ (o1.take out_len).length = out_len)) ∧
    (((∀ t, w1.fail (w1.tick + t) = w2.fail (w2.tick + t)) →
        (KBKDF_CTR W (some buf1) out_len digest secret secret_len info info_len w1).1 =
          (KBKDF_CTR W (some buf2) out_len digest secret secret_len info info_len w2).1) ∧
      ((KBKDF_CTR W (some buf1) out_len digest secret secret_len info info_len w1).1
          = Outcome.ret 1 →
        (KBKDF_CTR W (some buf2) out_len digest secret secret_len info info_len w2).1
          = Outcome.ret 1 →
        ∃ o1 o2,
          (KBKDF_CTR W (some buf1) out_len digest secret secret_len info info_len w1).2.1
            = some o1 ∧
          (KBKDF_CTR W (some buf2) out_len digest secret secret_len info info_len w2).2.1
            = some o2 ∧
          o1.take out_len = o2.take out_len ∧ (o1.take out_len).length = out_len)) := by
  have hbuf1 : ∀ buf, some buf1 = some buf → out_len ≤ buf.length := by
    intro buf h; cases h; exact hb1
  have hbuf2 : ∀ buf, some buf2 = some buf → out_len ≤ buf.length := by
    intro buf h; cases h; exact hb2
  refine ⟨⟨?_, fun h1 h2 => SSKDF_DIGEST_prefix hW (le_refl _) ho hb1 hb2 h1 h2⟩,
    ⟨?_, fun h1 h2 => SSKDF_HMAC_prefix hW (le_refl _) ho hb1 hb2 h1 h2⟩,
    ⟨?_, fun h1 h2 => KBKDF_CTR_prefix hW (le_refl _) ho hb1 hb2 h1 h2⟩⟩
  · intro hw
    obtain ⟨f1, i1⟩ := SSKDF_DIGEST_success_iff hW (some buf1) out_len ho hbuf1 digest secret
      secret_len info info_len w1
    obtain ⟨f2, i2⟩ := SSKDF_DIGEST_success_iff hW (some buf2) out_len ho hbuf2 digest secret
      secret_len info info_len w2
    refine flag_eq_of_iff f1 f2 i1 i2 ?_
    rw [early_failure_buf buf1 buf2]
    simp only [hw]
  · intro hw
    obtain ⟨f1, i1⟩ := SSKDF_HMAC_success_iff hW (some buf1) out_len ho hbuf1 digest secret
      secret_len info info_len salt salt_len w1
    obtain ⟨f2, i2⟩ := SSKDF_HMAC_success_iff hW (some buf2) out_len ho hbuf2 digest secret
      secret_len info info_len salt salt_len w2
    refine flag_eq_of_iff f1 f2 i1 i2 ?_
    rw [early_failure_buf buf1 buf2]
    simp only [hw]
  · intro hw
    obtain ⟨f1, i1⟩ := KBKDF_CTR_success_iff hW (some buf1) out_len ho hbuf1 digest secret
      secret_len info info_len w1
    obtain ⟨f2, i2⟩ := KBKDF_CTR_success_iff hW (some buf2) out_len ho hbuf2 digest secret
      secret_len info info_len w2
    refine flag_eq_of_iff f1 f2 i1 i2 ?_
    rw [early_failure_buf buf1 buf2]
    simp only [hw]

/-- C16 (amended) at a concrete input: two calls of `SSKDF_HMAC` for 3 bytes,
on buffers with different contents, in worlds with different scratch bytes. -/
theorem C16_witness :
    ∃ o1 o2,
      (SSKDF_HMAC 64 (some [9, 9, 9, 9]) 3 (some (toy_md 2 (by decide))) (some [1, 2, 3]) 3
        [7] 1 [5, 5] 2 calm).2.1 = some o1 ∧
      (SSKDF_HMAC 64 (some [4, 5, 6]) 3 (some (toy_md 2 (by decide))) (some [1, 2, 3]) 3
        [7] 1 [5, 5] 2 { calm with stack := fun _ => 0, next := 40 }).2.1 = some o2 ∧
      o1.take 3 = o2.take 3 ∧ (o1.take 3).length = 3 :=
  (C16_same_inputs_same_output (W := 64) (Or.inr rfl) 3 (by norm_num) [9, 9, 9, 9] [4, 5, 6]
    (by decide) (by decide) (some (toy_md 2 (by decide))) (some [1, 2, 3]) 3 [7] 1 [5, 5] 2
    calm { calm with stack := fun _ => 0, next := 40 }).2.1.2 (by decide) (by decide)

/-- C17: for both variants, cleanup of a `NULL` context or of a context whose
`data` is `NULL` changes nothing; cleanup of an initialised context releases the
inner hash object and the variant record, once each, and sets `data` to `NULL`;
cleanup followed by cleanup is a single cleanup; and an init that returns 0 hands
the context back unmodified, has released every object it allocated and leaves
the set of live objects as it found it. -/
theorem C17_cleanup_idempotent :
    ((∀ w, SSKDF_VARIANT_DIGEST_CTX_cleanup none w = (none, w)) ∧
      (∀ w, SSKDF_VARIANT_DIGEST_CTX_cleanup (some { data := none }) w
        = (some { data := none }, w)) ∧
      (∀ (a : Nat) (md : Option EVP_MD) (m : EVP_MD_CTX) (w : World),
        SSKDF_VARIANT_DIGEST_CTX_cleanup
            (some { data := some { addr := a, digest := md, ctx := some m } }) w
          = (some { data := none },
              { w with trace := w.trace ++ [Event.free m.addr, Event.free a],
                       live := (w.live.erase m.addr).erase a })) ∧
      (∀ ctx w,
        SSKDF_VARIANT_DIGEST_CTX_cleanup (SSKDF_VARIANT_DIGEST_CTX_cleanup ctx w).1
            (SSKDF_VARIANT_DIGEST_CTX_cleanup ctx w).2
          = SSKDF_VARIANT_DIGEST_CTX_cleanup ctx w) ∧
      (∀ ctx digest w, (SSKDF_VARIANT_DIGEST_CTX_init ctx digest w).1 = 0 →
        (SSKDF_VARIANT_DIGEST_CTX_init ctx digest w).2.1 = ctx ∧
        (SSKDF_VARIANT_DIGEST_CTX_init ctx digest w).2.2.live = w.live ∧
        ∃ evs, (SSKDF_VARIANT_DIGEST_CTX_init ctx digest w).2.2.trace = w.trace ++ evs ∧
          releases_what_it_allocated evs)) ∧
    ((∀ w, SSKDF_VARIANT_HMAC_CTX_cleanup none w = (none, w)) ∧
      (∀ w, SSKDF_VARIANT_HMAC_CTX_cleanup (some { data := none }) w
        = (some { data := none }, w)) ∧
      (∀ (a : Nat) (m : HMAC_CTX) (w : World),
        SSKDF_VARIANT_HMAC_CTX_cleanup (some { data := some { addr := a, ctx := some m } }) w
          = (some { data := none },
              { w with trace := w.trace ++ [Event.free m.addr, Event.free a],
                       live := (w.live.erase m.addr).erase a })) ∧
      (∀ ctx w,
        SSKDF_VARIANT_HMAC_CTX_cleanup (SSKDF_VARIANT_HMAC_CTX_cleanup ctx w).1
            (SSKDF_VARIANT_HMAC_CTX_cleanup ctx w).2
          = SSKDF_VARIANT_HMAC_CTX_cleanup ctx w) ∧
      (∀ ctx digest salt salt_len w,
        (SSKDF_VARIANT_HMAC_CTX_init ctx digest salt salt_len w).1 = 0 →
        (SSKDF_VARIANT_HMAC_CTX_init ctx digest salt salt_len w).2.1 = ctx ∧
        (SSKDF_VARIANT_HMAC_CTX_init ctx digest salt salt_len w).2.2.live = w.live ∧
        ∃ evs, (SSKDF_VARIANT_HMAC_CTX_init ctx digest salt salt_len w).2.2.trace
            = w.trace ++ evs ∧ releases_what_it_allocated evs)) := by
  refine ⟨⟨fun w => rfl, fun w => rfl, ?_, ?_, digest_ctx_init_failed⟩,
    ⟨fun w => rfl, fun w => rfl, ?_, ?_, hmac_ctx_init_failed⟩⟩
  · intro a md m w
    simp [SSKDF_VARIANT_DIGEST_CTX_cleanup, EVP_MD_CTX_free, World.release]
  · intro ctx w
    rcases ctx with _ | ⟨_ | v⟩ <;> rfl
  · intro a m w
    simp [SSKDF_VARIANT_HMAC_CTX_cleanup, HMAC_CTX_free, World.release]
  · intro ctx w
    rcases ctx with _ | ⟨_ | v⟩ <;> rfl

/-- C17 at a concrete input: an init of the keyed-hash variant whose keying call
(library call number 2) fails returns 0, hands the context back and leaves no
object live. -/
theorem C17_witness :
    (SSKDF_VARIANT_HMAC_CTX_init (some { data := none }) (some (toy_md 2 (by decide))) [5, 5] 2
      (failing_at 2)).2.1 = some { data := none } ∧
    (SSKDF_VARIANT_HMAC_CTX_init (some { data := none }) (some (toy_md 2 (by decide))) [5, 5] 2
      (failing_at 2)).2.2.live = (failing_at 2).live :=
  have h := C17_cleanup_idempotent.2.2.2.2.2 (some { data := none })
    (some (toy_md 2 (by decide))) [5, 5] 2 (failing_at 2) (by decide)
  ⟨h.1, h.2.1⟩

/-- C20: for each entry point and fixed digest, secret, info (and salt), if the
call for `L1` bytes and the call for `L2` bytes both return 1, with
`0 < L1 ≤ L2`, then the `L1` bytes of the first output are the first `L1` bytes
of the second, whatever the buffers and the worlds of the two calls. -/
theorem C20_prefix_consistency {W : Nat} (hW : W = 32 ∨ W = 64) (L1 L2 : Nat)
    (_h0 : 0 < L1) (h12 : L1 ≤ L2) (ho : L2 < 2 ^ W) (buf1 buf2 : List Nat)
    (hb1 : L1 ≤ buf1.length) (hb2 : L2 ≤ buf2.length) (digest : Option EVP_MD)
    (secret : Option (List Nat)) (secret_len : Nat) (info : List Nat) (info_len : Nat)
    (salt : List Nat) (salt_len : Nat) (w1 w2 : World) :
    ((SSKDF_DIGEST W (some buf1) L1 digest secret secret_len info info_len w1).1
        = Outcome.ret 1 →
      (SSKDF_DIGEST W (some buf2) L2 digest secret secret_len info info_len w2).1
        = Outcome.ret 1 →
      ∃ o1 o2,
        (SSKDF_DIGEST W (some buf1) L1 digest secret secret_len info info_len w1).2.1
          = some o1 ∧
        (SSKDF_DIGEST W (some buf2) L2 digest secret secret_len info info_len w2).2.1
          = some o2 ∧
        o1.take L1 = o2.take L1 ∧ (o1.take L1).length = L1) ∧
    ((SSKDF_HMAC W (some buf1) L1 digest secret secret_len info info_len salt salt_len w1).1
        = Outcome.ret 1 →
      (SSKDF_HMAC W (some buf2) L2 digest secret secret_len info info_len salt salt_len w2).1
        = Outcome.ret 1 →
      ∃ o1 o2,
        (SSKDF_HMAC W (some buf1) L1 digest secret secret_len info info_len salt salt_len
          w1).2.1 = some o1 ∧
        (SSKDF_HMAC W (some buf2) L2 digest secret secret_len info info_len salt salt_len
          w2).2.1 = some o2 ∧
        o1.take L1 = o2.take L1 ∧ (o1.take L1).length = L1) ∧
    ((KBKDF_CTR W (some buf1) L1 digest secret secret_len info info_len w1).1
        = Outcome.ret 1 →
      (KBKDF_CTR W (some buf2) L2 digest secret secret_len info info_len w2).1
        = Outcome.ret 1 →
      ∃ o1 o2,
        (KBKDF_CTR W (some buf1) L1 digest secret secret_len info info_len w1).2.1
          = some o1 ∧
        (KBKDF_CTR W (some buf2) L2 digest secret secret_len info info_len w2).2.1
          = some o2 ∧
        o1.take L1 = o2.take L1 ∧ (o1.take L1).length = L1) :=
  ⟨fun h1 h2 => SSKDF_DIGEST_prefix hW h12 ho hb1 hb2 h1 h2,
    fun h1 h2 => SSKDF_HMAC_prefix hW h12 ho hb1 hb2 h1 h2,
    fun h1 h2 => KBKDF_CTR_prefix hW h12 ho hb1 hb2 h1 h2⟩

/-- C20 at a concrete input: 3 bytes and 5 bytes from 2-byte blocks with
`SSKDF_DIGEST`. -/
theorem C20_witness :
    ∃ o1 o2,
      (SSKDF_DIGEST 64 (some [9, 9, 9]) 3 (some (toy_md 2 (by decide))) (some [1, 2, 3]) 3
        [7] 1 calm).2.1 = some o1 ∧
      (SSKDF_DIGEST 64 (some [8, 8, 8, 8, 8, 8]) 5 (some (toy_md 2 (by decide)))
        (some [1, 2, 3]) 3 [7] 1 calm).2.1 = some o2 ∧
      o1.take 3 = o2.take 3 ∧ (o1.take 3).length = 3 :=
  (C20_prefix_consistency (W := 64) (Or.inr rfl) 3 5 (by decide) (by decide) (by norm_num)
    [9, 9, 9] [8, 8, 8, 8, 8, 8] (by decide) (by decide) (some (toy_md 2 (by decide)))
    (some [1, 2, 3]) 3 [7] 1 [5, 5] 2 calm calm).1 (by decide) (by decide)

/-- C18: in every call of `SSKDF_DIGEST`, `SSKDF_HMAC` (the SSKDF engine under
its two variants) and `KBKDF_CTR` the counters absorbed by the block primitive
are `BE32(1), BE32(2), ..., BE32(m)` in that order, with `m = n` when the call
returns 1 and `m ≤ n ≤ 2^32 - 1` on every path; the 32-bit `i + 1` never wraps
to 0 and no counter is used twice. -/
theorem C18_counters_one_to_n {W : Nat} (hW : W = 32 ∨ W = 64)
    (out_key : Option (List Nat)) (out_len : Nat) (ho : out_len < 2 ^ W)
    (hbuf : ∀ buf, out_key = some buf → out_len ≤ buf.length)
    (md : EVP_MD) (secret : Option (List Nat)) (secret_len : Nat) (info : List Nat)
    (info_len : Nat) (salt : List Nat) (salt_len : Nat) (w : World) :
    counts_up (SSKDF_DIGEST W out_key out_len (some md) secret secret_len info info_len w) w
      ((out_len + md.md_size - 1) / md.md_size) ∧
    counts_up
      (SSKDF_HMAC W out_key out_len (some md) secret secret_len info info_len salt salt_len w)
      w ((out_len + md.md_size - 1) / md.md_size) ∧
    counts_up (KBKDF_CTR W out_key out_len (some md) secret secret_len info info_len w) w
      ((out_len + md.md_size - 1) / md.md_size) := by
  refine ⟨?_, ?_, ?_⟩
  · rcases SSKDF_DIGEST_cases hW out_key out_len ho hbuf (some md) secret secret_len info
      info_len w with ⟨_, he⟩ | ⟨buf, md', sec, rfl, e, rfl, hne, _, _, hpos, hrun⟩
    · exact early_run_counts_up _ he
    · cases e
      obtain ⟨_, md2, _, _, e2, _, _, _, _, hlc, _⟩ := not_early_failure hne
      cases e2
      exact loop_run_counts_up hrun (length_check_passes hW ho hpos md.md_size_le hlc).2.2
        (fun rest => by simp [counters_skip_alloc])
        (fun v o b rest => counters_digest_events _ _ _ _ o b rest) rfl
        (fun v j hj => counters_digest_tail _ _ _ _ _ _ j hj)
  · rcases SSKDF_HMAC_cases hW out_key out_len ho hbuf (some md) secret secret_len info
      info_len salt salt_len w with
      ⟨_, he⟩ | ⟨buf, md', sec, rfl, e, rfl, hne, _, _, hpos, hrun⟩
    · exact early_run_counts_up _ he
    · cases e
      obtain ⟨_, md2, _, _, e2, _, _, _, _, hlc, _⟩ := not_early_failure hne
      cases e2
      exact loop_run_counts_up hrun (length_check_passes hW ho hpos md.md_size_le hlc).2.2
        (fun rest => by simp [counters_skip_alloc, counters_skip_keying])
        (fun v o b rest => counters_hmac_events _ _ _ _ o b rest) rfl
        (fun v j hj => counters_hmac_tail _ _ _ _ _ _ j hj)
  · rcases KBKDF_CTR_cases hW out_key out_len ho hbuf (some md) secret secret_len info
      info_len w with ⟨_, he⟩ | ⟨buf, md', sec, rfl, e, rfl, hne, _, _, hpos, hrun⟩
    · exact early_run_counts_up _ he
    · cases e
      obtain ⟨_, md2, _, _, e2, _, _, _, _, hlc, _⟩ := not_early_failure hne
      cases e2
      exact loop_run_counts_up hrun (length_check_passes hW ho hpos md.md_size_le hlc).2.2
        (fun rest => by simp [counters_skip_alloc, counters_skip_keying])
        (fun v o b rest => counters_kbkdf_events _ _ _ o b rest) rfl
        (fun v j hj => counters_kbkdf_tail _ _ _ _ j hj)

/-- C18 at a concrete input: 5 bytes from 2-byte blocks with `SSKDF_HMAC`. -/
theorem C18_witness :
    counts_up
      (SSKDF_HMAC 64 (some [9, 9, 9, 9, 9, 9, 9]) 5 (some (toy_md 2 (by decide)))
        (some [1, 2, 3]) 3 [7] 1 [5, 5] 2 calm) calm
      ((5 + (toy_md 2 (by decide)).md_size - 1) / (toy_md 2 (by decide)).md_size) :=
  (C18_counters_one_to_n (W := 64) (Or.inr rfl) (some [9, 9, 9, 9, 9, 9, 9]) 5
    (by norm_num) (fun buf h => by cases h; decide) (toy_md 2 (by decide))
    (some [1, 2, 3]) 3 [7] 1 [5, 5] 2 calm).2.1

/-- C19: in every call of `SSKDF_DIGEST`, `SSKDF_HMAC` (the SSKDF engine under
its two variants) and `KBKDF_CTR`, iteration `i` of the loop copies at offset
`done = i * h_len < out_len`, so `out_len - done` does not wrap; it copies at
least 1 and at most `h_len ≤ 64` bytes, exactly `h_len` bytes in every iteration
before the last, and only the last can be truncated. -/
theorem C19_loop_safety {W : Nat} (hW : W = 32 ∨ W = 64)
    (out_key : Option (List Nat)) (out_len : Nat) (ho : out_len < 2 ^ W)
    (hbuf : ∀ buf, out_key = some buf → out_len ≤ buf.length)
    (md : EVP_MD) (sec : List Nat) (secret_len : Nat) (info : List Nat)
    (info_len : Nat) (salt : List Nat) (salt_len : Nat) (w : World) :
    loop_safe W
      (SSKDF_DIGEST W out_key out_len (some md) (some sec) secret_len info info_len w) w
      (digest_block md (sec.take secret_len) (info.take info_len)) out_len md.md_size
      ((out_len + md.md_size - 1) / md.md_size) ∧
    loop_safe W
      (SSKDF_HMAC W out_key out_len (some md) (some sec) secret_len info info_len salt salt_len
        w) w
      (hmac_block md (salt.take salt_len) (sec.take secret_len) (info.take info_len)) out_len
      md.md_size ((out_len + md.md_size - 1) / md.md_size) ∧
    loop_safe W
      (KBKDF_CTR W out_key out_len (some md) (some sec) secret_len info info_len w) w
      (kbkdf_block md (sec.take secret_len) (info.take info_len)) out_len md.md_size
      ((out_len + md.md_size - 1) / md.md_size) := by
  refine ⟨?_, ?_, ?_⟩
  · rcases SSKDF_DIGEST_cases hW out_key out_len ho hbuf (some md) (some sec) secret_len info
      info_len w with ⟨_, he⟩ | ⟨buf, md', sec', rfl, e1, e2, _, _, _, hpos, hrun⟩
    · exact early_run_loop_safe W _ _ _ _ he
    · cases e1
      cases e2
      exact loop_run_loop_safe hrun (fun v => md.hash_length _) hpos md.md_size_le rfl ho rfl
        rfl (fun v => rfl)
  · rcases SSKDF_HMAC_cases hW out_key out_len ho hbuf (some md) (some sec) secret_len info
      info_len salt salt_len w with
      ⟨_, he⟩ | ⟨buf, md', sec', rfl, e1, e2, _, _, _, hpos, hrun⟩
    · exact early_run_loop_safe W _ _ _ _ he
    · cases e1
      cases e2
      exact loop_run_loop_safe hrun (fun v => md.hmac_length _ _) hpos md.md_size_le rfl ho
        rfl rfl (fun v => rfl)
  · rcases KBKDF_CTR_cases hW out_key out_len ho hbuf (some md) (some sec) secret_len info
      info_len w with ⟨_, he⟩ | ⟨buf, md', sec', rfl, e1, e2, _, _, _, hpos, hrun⟩
    · exact early_run_loop_safe W _ _ _ _ he
    · cases e1
      cases e2
      exact loop_run_loop_safe hrun (fun v => md.hmac_length _ _) hpos md.md_size_le rfl ho
        rfl rfl (fun v => rfl)

/-- C19 at a concrete input: 5 bytes from 2-byte blocks with `SSKDF_DIGEST`
(copies of 2, 2 and 1 bytes at offsets 0, 2 and 4). -/
theorem C19_witness :
    loop_safe 64
      (SSKDF_DIGEST 64 (some [9, 9, 9, 9, 9, 9, 9]) 5 (some (toy_md 2 (by decide)))
        (some [1, 2, 3]) 3 [7] 1 calm) calm
      (digest_block (toy_md 2 (by decide)) ([1, 2, 3].take 3) ([7].take 1)) 5
      (toy_md 2 (by decide)).md_size
      ((5 + (toy_md 2 (by decide)).md_size - 1) / (toy_md 2 (by decide)).md_size) :=
  (C19_loop_safety (W := 64) (Or.inr rfl) (some [9, 9, 9, 9, 9, 9, 9]) 5
    (by norm_num) (fun buf h => by cases h; decide) (toy_md 2 (by decide))
    [1, 2, 3] 3 [7] 1 [5, 5] 2 calm).1

end KDF
